import Mathlib

/-!
# aws-sso-cli: secure store and exec command

A shallow embedding of `storage/keyring.go` (the keyring-backed secure store with
its chunked representation for the Windows credential manager), of `cmd/exec_cmd.go`
(input disambiguation of the `exec` command and the environment of the child) and of
the mock of `sso/awssso_auth_test.go` with the device-flow machine that the
specification describes, followed by the properties proved about them.

Conventions of the embedding:

* a Go `[]byte` is a list of bytes, a byte is a `Fin 256`;
* a Go `uint64` is a `Nat` reduced modulo `2 ^ 64` wherever the source converts or
  subtracts;
* a Go `error` result is an `Option StoreError` (`none` is `nil`), a `(value, error)`
  result is an `Except`;
* the keyring behind `KeyringApi` is an explicit state that is passed along;
* of the Go library, `cmd.Run()` is embedded as far as it decides the environment of
  the child: the functions `dedupEnv` and `addCriticalEnv` of `os/exec`;
* `for` loops are recursive functions over a fuel argument; the fuel the callers
  supply is shown to be enough (`splitLoop_fuel`, `joinLoop_fuel`, `authMachine_fuel`).
-/

namespace AwsSso

/-! ## Bytes and unsigned 64-bit arithmetic -/

abbrev Byte := Fin 256

abbrev Bytes := List Byte

/-- Conversion `uint64(n)` of a non-negative integer. -/
def uint64 (n : Nat) : Nat := n % 2 ^ 64

/-- Subtraction `a - b` on `uint64`, wrapping around below zero. -/
def uint64Sub (a b : Nat) : Nat := (uint64 a + 2 ^ 64 - uint64 b) % 2 ^ 64

/-- Conversion `byte(n)`: the low eight bits. -/
def byteOf (n : Nat) : Byte := ⟨n % 256, Nat.mod_lt _ (by decide)⟩

/-- Create a 8-byte array from uint64 (`binary.BigEndian.PutUint64`). -/
def getBytesFromUINT64 (i : Nat) : Bytes :=
  let v := uint64 i
  [byteOf (v / 2 ^ 56), byteOf (v / 2 ^ 48), byteOf (v / 2 ^ 40), byteOf (v / 2 ^ 32),
   byteOf (v / 2 ^ 24), byteOf (v / 2 ^ 16), byteOf (v / 2 ^ 8), byteOf v]

/-- Create uint64 from byte array (`binary.BigEndian.Uint64`). The source calls it on
`chunk[:8]` after checking `len(chunk) >= 8`, so the eight bytes read exist. -/
def getUINT64FromBytes (b : Bytes) : Nat :=
  (b.getD 0 0).val * 2 ^ 56 + (b.getD 1 0).val * 2 ^ 48 + (b.getD 2 0).val * 2 ^ 40
    + (b.getD 3 0).val * 2 ^ 32 + (b.getD 4 0).val * 2 ^ 24 + (b.getD 5 0).val * 2 ^ 16
    + (b.getD 6 0).val * 2 ^ 8 + (b.getD 7 0).val

/-! ## Constants of `storage/keyring.go` -/

def KEYRING_ID : String := "aws-sso-cli"

def RECORD_KEY : String := "aws-sso-cli-records"

def REGISTER_CLIENT_DATA_PREFIX : String := "client-data"

def CREATE_TOKEN_RESPONSE_PREFIX : String := "token-response"

def WINCRED_MAX_LENGTH : Nat := 2000

/-! ## The keyring backend -/

/-- Errors of the store. `OutOfFuel` is not an error of the program: it is what a loop
of the embedding returns when its fuel is used up, and it is shown not to occur. -/
inductive StoreError where
  | ErrKeyNotFound
  | SetFailed
  | UnmarshalFailed
  | Errorf (msg : String)
  | OutOfFuel
deriving DecidableEq

deriving instance DecidableEq for Except

/-- The text of an error, `err.Error()`. -/
def StoreError.Error : StoreError → String
  | .ErrKeyNotFound => "The specified item could not be found in the keyring"
  | .SetFailed => "keyring set failed"
  | .UnmarshalFailed => "unmarshal failed"
  | .Errorf msg => msg
  | .OutOfFuel => "out of fuel"

/-- A `keyring.Item`. -/
structure Item where
  Key : String
  Data : Bytes
  Label : String
  Description : String
deriving DecidableEq

/-- A keyring behind the `KeyringApi` interface: the items it holds, the items handed
to `Set` so far (oldest first), and which items its `Set` refuses. -/
structure MockKeyring where
  items : List Item
  setCalls : List Item
  setFails : Item → Bool

/-- Returns an Item matching the key or ErrKeyNotFound. -/
def MockKeyring.Get (k : MockKeyring) (key : String) : Except StoreError Item :=
  match k.items.find? (fun it => it.Key == key) with
  | some it => .ok it
  | none => .error .ErrKeyNotFound

/-- The keyring after it has stored `item`, replacing an item of the same key. -/
def MockKeyring.put (k : MockKeyring) (item : Item) : MockKeyring :=
  { k with items := item :: k.items.filter (fun it => it.Key != item.Key),
           setCalls := k.setCalls ++ [item] }

/-- Stores an Item on the keyring. -/
def MockKeyring.Set (k : MockKeyring) (item : Item) : MockKeyring × Option StoreError :=
  if k.setFails item then
    ({ k with setCalls := k.setCalls ++ [item] }, some .SetFailed)
  else
    (k.put item, none)

/-- The `KeyringStore`, with the package variable `myGOOS` and the value of
`runtime.GOOS`. -/
structure KeyringStore where
  keyring : MockKeyring
  myGOOS : String
  runtimeGOOS : String

def getMyGOOS (kr : KeyringStore) : String :=
  if kr.myGOOS == "" then kr.runtimeGOOS else kr.myGOOS

/-- The key of chunk `i`: `fmt.Sprintf("%s_%d", key, i)`. -/
def chunkKey (key : String) (i : Nat) : String :=
  key ++ "_" ++ toString i

/-- Reads a single entry of the keyring. -/
def getKeyringData (kr : KeyringStore) (key : String) : Except StoreError Bytes :=
  match kr.keyring.Get key with
  | .error err => .error err
  | .ok data => .ok data.Data

def setStorageData (kr : KeyringStore) (jdata : Bytes) (key : String) (label : String) :
    KeyringStore × Option StoreError :=
  let r := kr.keyring.Set
    { Key := key, Data := jdata, Label := label, Description := "aws-sso secure storage" }
  ({ kr with keyring := r.1 }, r.2)

/-- The loop `for i = 1; remaining_bytes > 0; i++` of `joinAndGetKeyringData`; it
returns the accumulated `data` when the loop is left. -/
def joinLoop (kr : KeyringStore) (key : String) :
    Nat → Nat → Nat → Bytes → Except StoreError Bytes
  | 0, _, remaining_bytes, data =>
    if remaining_bytes > 0 then .error .OutOfFuel else .ok data
  | fuel + 1, i, remaining_bytes, data =>
    if remaining_bytes > 0 then
      match getKeyringData kr (chunkKey key i) with
      | .error err => .error err
      | .ok chunk =>
        joinLoop kr key fuel (i + 1) (uint64Sub remaining_bytes chunk.length) (data ++ chunk)
    else .ok data

/-- Read the chunks stored in windows credential manager. -/
def joinAndGetKeyringData (kr : KeyringStore) (key : String) : Except StoreError Bytes :=
  match getKeyringData kr (chunkKey key 0) with
  | .error err => .error err
  | .ok chunk =>
    if chunk.length < 8 then
      .error (.Errorf "Invalid stored data in wincred. There\x27s not enough data")
    else
      let payload_size := getUINT64FromBytes (chunk.take 8)
      let chunk := chunk.drop 8
      let remaining_bytes := uint64Sub payload_size chunk.length
      let data : Bytes := [] ++ chunk
      match joinLoop kr key (kr.keyring.items.length + 1) 1 remaining_bytes data with
      | .error err => .error err
      | .ok data =>
        if payload_size ≠ uint64 data.length then
          .error (.Errorf "Invalid stored data in wincred")
        else .ok data

/-- The loop `for len(remain) >= WINCRED_MAX_LENGTH` of `splitAndSetStorageData`; when
the loop is left it returns `remain` and `i`, when a `Set` fails the error. -/
def splitLoop (key label : String) (payload_size : Bytes) :
    Nat → KeyringStore → Bytes → Nat → KeyringStore × Except StoreError (Bytes × Nat)
  | 0, kr, remain, i =>
    if remain.length ≥ WINCRED_MAX_LENGTH then (kr, .error .OutOfFuel) else (kr, .ok (remain, i))
  | fuel + 1, kr, remain, i =>
    if remain.length ≥ WINCRED_MAX_LENGTH then
      let chunk := remain.take WINCRED_MAX_LENGTH
      let remain := remain.drop WINCRED_MAX_LENGTH
      let chunk := if i = 0 then payload_size ++ chunk else chunk
      match setStorageData kr chunk (chunkKey key i) label with
      | (kr, some err) => (kr, .error err)
      | (kr, none) => splitLoop key label payload_size fuel kr remain (i + 1)
    else (kr, .ok (remain, i))

def splitAndSetStorageData (kr : KeyringStore) (jdata : Bytes) (key : String)
    (label : String) : KeyringStore × Option StoreError :=
  let payload_size := getBytesFromUINT64 jdata.length
  match splitLoop key label payload_size jdata.length kr jdata 0 with
  | (kr, .error err) => (kr, some err)
  | (kr, .ok (remain, i)) =>
    if remain.length > 0 then
      let remain := if i = 0 then payload_size ++ remain else remain
      setStorageData kr remain (chunkKey key i) label
    else (kr, none)

/-! ## The stored record -/

/-- The `StorageData` record. A Go map with string keys is a function from keys to
optional values; the record types `RegisterClientData`, `CreateTokenResponse` and
`RoleCredentials` are declared outside the files at hand and are parameters. -/
structure StorageData (R T C : Type) where
  RegisterClientData : String → Option R
  CreateTokenResponse : String → Option T
  RoleCredentials : String → Option C

def NewStorageData {R T C : Type} : StorageData R T C :=
  { RegisterClientData := fun _ => none,
    CreateTokenResponse := fun _ => none,
    RoleCredentials := fun _ => none }

/-- The assignment `storage.RegisterClientData[key] = client`. -/
def StorageData.setRegisterClientData {R T C : Type} (s : StorageData R T C) (key : String)
    (client : R) : StorageData R T C :=
  { s with RegisterClientData := Function.update s.RegisterClientData key (some client) }

/-- The assignment `storage.CreateTokenResponse[k] = token`. -/
def StorageData.setCreateTokenResponse {R T C : Type} (s : StorageData R T C) (k : String)
    (token : T) : StorageData R T C :=
  { s with CreateTokenResponse := Function.update s.CreateTokenResponse k (some token) }

/-- The assignment `storage.RoleCredentials[arn] = token`. -/
def StorageData.setRoleCredentials {R T C : Type} (s : StorageData R T C) (arn : String)
    (token : C) : StorageData R T C :=
  { s with RoleCredentials := Function.update s.RoleCredentials arn (some token) }

/-- The two directions of the JSON encoding: `json.Marshal` (whose error the source
drops) and the package variable `storageDataUnmarshal`. -/
structure Codec (R T C : Type) where
  Marshal : StorageData R T C → Bytes
  storageDataUnmarshal : Bytes → Except StoreError (StorageData R T C)

/-- Decoding inverts encoding at the record `s`, whose encoding is a JSON text (not
empty) held by a Go slice (of a length that fits an `uint64`). -/
def Codec.Inverts {R T C : Type} (cd : Codec R T C) (s : StorageData R T C) : Prop :=
  cd.storageDataUnmarshal (cd.Marshal s) = .ok s ∧ cd.Marshal s ≠ []
    ∧ (cd.Marshal s).length < 2 ^ 64

/-- The blob that the keyring holds under the record key: on the chunked path the
payload that the entries `_0`, `_1`, ... join to, otherwise the data of the single
entry. An error when the keyring holds no blob that can be read. -/
def storedBlob (kr : KeyringStore) : Except StoreError Bytes :=
  if getMyGOOS kr = "windows" then joinAndGetKeyringData kr RECORD_KEY
  else
    match kr.keyring.Get RECORD_KEY with
    | .error err => .error err
    | .ok item => .ok item.Data

/-- Loads the entire StorageData into memory. -/
def getStorageData {R T C : Type} (cd : Codec R T C) (kr : KeyringStore) :
    Except StoreError (StorageData R T C) :=
  let r :=
    if getMyGOOS kr = "windows" then joinAndGetKeyringData kr RECORD_KEY
    else getKeyringData kr RECORD_KEY
  match r with
  | .error _ =>
    -- Didn't find anything in our keyring
    .ok NewStorageData
  | .ok data => cd.storageDataUnmarshal data

/-- Saves the entire StorageData into our KeyringStore. -/
def saveStorageData {R T C : Type} (cd : Codec R T C) (kr : KeyringStore)
    (s : StorageData R T C) : KeyringStore × Option StoreError :=
  let jdata := cd.Marshal s
  if getMyGOOS kr = "windows" then splitAndSetStorageData kr jdata RECORD_KEY KEYRING_ID
  else setStorageData kr jdata RECORD_KEY KEYRING_ID

def RegisterClientKey (ssoRegion : String) : String :=
  REGISTER_CLIENT_DATA_PREFIX ++ ":" ++ ssoRegion

def CreateTokenResponseKey (key : String) : String :=
  CREATE_TOKEN_RESPONSE_PREFIX ++ ":" ++ key

/-- Save our RegisterClientData in the key chain. -/
def SaveRegisterClientData {R T C : Type} (cd : Codec R T C) (kr : KeyringStore)
    (region : String) (client : R) : KeyringStore × Option StoreError :=
  match getStorageData cd kr with
  | .error err => (kr, some err)
  | .ok storage =>
    let key := RegisterClientKey region
    saveStorageData cd kr (storage.setRegisterClientData key client)

/-- Get our RegisterClientData from the key chain. -/
def GetRegisterClientData {R T C : Type} (cd : Codec R T C) (kr : KeyringStore)
    (region : String) : Except StoreError R :=
  match getStorageData cd kr with
  | .error err => .error err
  | .ok storage =>
    let key := RegisterClientKey region
    match storage.RegisterClientData key with
    | some client => .ok client
    | none => .error (.Errorf ("No RegisterClientData for " ++ region))

/-- Delete the RegisterClientData from the keychain. -/
def DeleteRegisterClientData {R T C : Type} (cd : Codec R T C) (kr : KeyringStore)
    (region : String) : KeyringStore × Option StoreError :=
  match getStorageData cd kr with
  | .error err => (kr, some err)
  | .ok storage =>
    let key := RegisterClientKey region
    match storage.RegisterClientData key with
    | none => (kr, some (.Errorf ("Missing RegisterClientData for region: " ++ region)))
    | some _ =>
      -- `delete(storage.RegisterClientData, key)` changes the local `storage`, which
      -- the function then drops: it returns without a call of `saveStorageData`
      let _storage : StorageData R T C :=
        { storage with
          RegisterClientData := Function.update storage.RegisterClientData key none }
      (kr, none)

/-- SaveCreateTokenResponse stores the token in the keyring. -/
def SaveCreateTokenResponse {R T C : Type} (cd : Codec R T C) (kr : KeyringStore)
    (key : String) (token : T) : KeyringStore × Option StoreError :=
  match getStorageData cd kr with
  | .error err => (kr, some err)
  | .ok storage =>
    let k := CreateTokenResponseKey key
    saveStorageData cd kr (storage.setCreateTokenResponse k token)

/-- GetCreateTokenResponse retrieves the CreateTokenResponse from the keyring. -/
def GetCreateTokenResponse {R T C : Type} (cd : Codec R T C) (kr : KeyringStore)
    (key : String) : Except StoreError T :=
  match getStorageData cd kr with
  | .error err => .error err
  | .ok storage =>
    let k := CreateTokenResponseKey key
    match storage.CreateTokenResponse k with
    | some token => .ok token
    | none => .error (.Errorf ("No CreateTokenResponse for " ++ key))

/-- DeleteCreateTokenResponse deletes the CreateTokenResponse from the keyring. -/
def DeleteCreateTokenResponse {R T C : Type} (cd : Codec R T C) (kr : KeyringStore)
    (key : String) : KeyringStore × Option StoreError :=
  match getStorageData cd kr with
  | .error err => (kr, some err)
  | .ok storage =>
    let k := CreateTokenResponseKey key
    match storage.CreateTokenResponse k with
    | none => (kr, some (.Errorf ("Missing CreateTokenResponse for key: " ++ key)))
    | some _ =>
      let _storage : StorageData R T C :=
        { storage with
          CreateTokenResponse := Function.update storage.CreateTokenResponse k none }
      (kr, none)

/-- SaveRoleCredentials stores the token in the arnring. -/
def SaveRoleCredentials {R T C : Type} (cd : Codec R T C) (kr : KeyringStore)
    (arn : String) (token : C) : KeyringStore × Option StoreError :=
  match getStorageData cd kr with
  | .error err => (kr, some (.Errorf ("Unable to getStorageData: " ++ err.Error)))
  | .ok storage =>
    saveStorageData cd kr (storage.setRoleCredentials arn token)

/-- GetRoleCredentials retrieves the RoleCredentials from the Keyring. -/
def GetRoleCredentials {R T C : Type} (cd : Codec R T C) (kr : KeyringStore)
    (arn : String) : Except StoreError C :=
  match getStorageData cd kr with
  | .error err => .error err
  | .ok storage =>
    match storage.RoleCredentials arn with
    | some token => .ok token
    | none => .error (.Errorf ("No RoleCredentials for " ++ arn))

/-- DeleteRoleCredentials deletes the RoleCredentials from the Keyring. -/
def DeleteRoleCredentials {R T C : Type} (cd : Codec R T C) (kr : KeyringStore)
    (arn : String) : KeyringStore × Option StoreError :=
  match getStorageData cd kr with
  | .error err => (kr, some err)
  | .ok storage =>
    match storage.RoleCredentials arn with
    | none => (kr, some (.Errorf ("Missing RoleCredentials for arn: " ++ arn)))
    | some _ =>
      let _storage : StorageData R T C :=
        { storage with RoleCredentials := Function.update storage.RoleCredentials arn none }
      (kr, none)

/-! ## The chunk layout in the words of the specification -/

/-- The Go slice expression `B[lo:hi]`. -/
def goSlice (B : Bytes) (lo hi : Nat) : Bytes := (B.take hi).drop lo

/-- The data of entry `i` as the specification words it: entry `0` stores
`be_uint64(|B|) || B[0 : min(MAX, |B|)]`, entry `i ≥ 1` stores
`B[i*MAX : min((i+1)*MAX, |B|)]`. -/
def specEntryData (B : Bytes) (i : Nat) : Bytes :=
  if i = 0 then
    getBytesFromUINT64 B.length ++ goSlice B 0 (min WINCRED_MAX_LENGTH B.length)
  else
    goSlice B (i * WINCRED_MAX_LENGTH) (min ((i + 1) * WINCRED_MAX_LENGTH) B.length)

/-- The item of entry `i` as the specification words it. -/
def specEntry (B : Bytes) (key label : String) (i : Nat) : Item :=
  ⟨chunkKey key i, specEntryData B i, label, "aws-sso secure storage"⟩

/-! ## `cmd/exec_cmd.go`: the `exec` command -/

/-- The `ExecCmd` arguments. -/
structure ExecCmd where
  Arn : String
  AccountId : Int
  Role : String
  Profile : String
  NoRegion : Bool
  Cmd : String
  Args : List String

/-- Modelled from the spec: the role record `sso.AWSRoleFlat` that the role cache
returns is declared outside the files at hand; of the fields of the spec's
RoleRecord, `Run` reads `account_id` and `role_name`. -/
structure AWSRoleFlat where
  AccountId : Int
  RoleName : String

/-- The command line, `ctx.Cli`. -/
structure CLI where
  SSO : String
  Exec : ExecCmd

/-- What the `exec` command asks of `ctx.Settings`, all of it declared outside the
files at hand: the lookups `ctx.Settings.Cache.GetSSO().Roles.GetRoleByProfile(profile,
ctx.Settings)` and `ctx.Settings.Cache.GetSSO().Roles.GetRole(accountid, role)`, the
methods `ctx.Settings.GetDefaultRegion(accountid, role, noRegion)` and
`ctx.Settings.GetSelectedSSOName(sso)` (its first result), and the methods
`roleInfo.ProfileName(ctx.Settings)` (a name and an error) and
`roleInfo.GetEnvVarTags(ctx.Settings)` (a Go map, given by its pairs) of a role
record. -/
structure Settings where
  GetRoleByProfile : String → Except String AWSRoleFlat
  GetRole : Int → String → Except String AWSRoleFlat
  GetDefaultRegion : Int → String → Bool → String
  GetSelectedSSOName : String → String
  ProfileName : AWSRoleFlat → String × Option String
  GetEnvVarTags : AWSRoleFlat → List (String × String)

structure RunContext where
  Cli : CLI
  Settings : Settings

/-- The process that runs the command: its environment (`os.LookupEnv`) and
`runtime.GOOS`. -/
structure Process where
  Environ : List (String × String)
  GOOS : String

/-- The lookup `os.LookupEnv(key)`: the value, when the variable is present. -/
def LookupEnv (p : Process) (key : String) : Option String :=
  p.Environ.lookup key

/-- The text of the error of `checkAwsEnvironment`. -/
def conflictError (envVar : String) : String :=
  "Conflicting environment variable \x27" ++ envVar ++ "\x27 is set"

/-- The loop of `checkAwsEnvironment` over `checkVars`. -/
def checkAwsEnvironmentLoop (p : Process) : List String → Option String
  | [] => none
  | envVar :: checkVars =>
    match LookupEnv p envVar with
    | some _ => some (conflictError envVar)
    | none => checkAwsEnvironmentLoop p checkVars

/-- Returns an error if we have existing AWS env vars. -/
def checkAwsEnvironment (p : Process) : Option String :=
  checkAwsEnvironmentLoop p ["AWS_ACCESS_KEY_ID", "AWS_SECRET_ACCESS_KEY", "AWS_PROFILE"]

/-- How `Run` ends. `fatal` is `log.WithError(err).Fatalf(..)`, which ends the
process; `error` is `return err`; `execCmd` is the tail call
`return execCmd(ctx, awssso, accountid, role)`, the only place where a child is
spawned; `autoComplete` is the interactive selection that follows when no role is
named on the command line. -/
inductive RunOutcome where
  | fatal (err : String)
  | error (err : String)
  | execCmd (ctx : RunContext) (accountid : Int) (role : String)
  | autoComplete (ctx : RunContext)

/-- A run of `ExecCmd.Run`: the number of calls of `doAuth` and how the run ends. -/
structure RunResult where
  doAuthCalls : Nat
  outcome : RunOutcome

/-- The (account, role) that a run hands to `execCmd`, when it gets there. -/
def RunOutcome.target : RunOutcome → Option (Int × String)
  | .execCmd _ accountid role => some (accountid, role)
  | _ => none

/-- The error that a run returns, when it returns one. -/
def RunOutcome.returned : RunOutcome → Option String
  | .error err => some err
  | _ => none

/-- The method `ExecCmd.Run`. `ParseRoleARN` is `utils.ParseRoleARN`, declared outside
the files at hand. -/
def Run (p : Process) (ParseRoleARN : String → Except String (Int × String))
    (ctx : RunContext) : RunResult :=
  match checkAwsEnvironment p with
  | some err => { doAuthCalls := 0, outcome := .fatal err }
  | none =>
    let ctx : RunContext :=
      if p.GOOS = "windows" ∧ ctx.Cli.Exec.Cmd = "" then
        -- Windows doesn't set $SHELL, so default to CommandPrompt
        { ctx with Cli := { ctx.Cli with Exec := { ctx.Cli.Exec with Cmd := "cmd.exe" } } }
      else ctx
    -- Did user specify the ARN or account/role?
    if ctx.Cli.Exec.Profile ≠ "" then
      match ctx.Settings.GetRoleByProfile ctx.Cli.Exec.Profile with
      | .error err => { doAuthCalls := 1, outcome := .error err }
      | .ok rFlat =>
        { doAuthCalls := 1, outcome := .execCmd ctx rFlat.AccountId rFlat.RoleName }
    else if ctx.Cli.Exec.Arn ≠ "" then
      match ParseRoleARN ctx.Cli.Exec.Arn with
      | .error err => { doAuthCalls := 1, outcome := .error err }
      | .ok (accountid, role) => { doAuthCalls := 1, outcome := .execCmd ctx accountid role }
    else if ctx.Cli.Exec.AccountId ≠ 0 ∨ ctx.Cli.Exec.Role ≠ "" then
      if ctx.Cli.Exec.AccountId = 0 ∨ ctx.Cli.Exec.Role = "" then
        { doAuthCalls := 0, outcome := .error "Please specify both --account and --role" }
      else
        { doAuthCalls := 1,
          outcome := .execCmd ctx ctx.Cli.Exec.AccountId ctx.Cli.Exec.Role }
    else
      -- Nope, auto-complete mode...
      { doAuthCalls := 0, outcome := .autoComplete ctx }

/-! ## The chunked read in the words of the specification -/

/-- The body of entry `i` of the chunked record under `key`: the data of the entry,
without the 8 bytes of the length prefix for entry `0`; empty when the keyring has no
such entry. -/
def bodyAt (kr : KeyringStore) (key : String) (i : Nat) : Bytes :=
  match getKeyringData kr (chunkKey key i) with
  | .ok chunk => if i = 0 then chunk.drop 8 else chunk
  | .error _ => []

/-- The concatenation of the bodies of the entries `0 .. n`. -/
def bodiesUpTo (kr : KeyringStore) (key : String) : Nat → Bytes
  | 0 => bodyAt kr key 0
  | n + 1 => bodiesUpTo kr key n ++ bodyAt kr key (n + 1)

/-- The big-endian `uint64` in the first 8 bytes of entry `0`. -/
def prefixValue (kr : KeyringStore) (key : String) : Nat :=
  match getKeyringData kr (chunkKey key 0) with
  | .ok chunk => getUINT64FromBytes (chunk.take 8)
  | .error _ => 0

/-- The condition of the specification for a read that ends with entry `n`: entry `0`
exists with at least 8 bytes, the entries `1 .. n` exist, the bodies of the entries
`0 .. j` total fewer than the prefix for every `j < n`, and the bodies of the entries
`0 .. n` total exactly the prefix. -/
def ReadEndsAt (kr : KeyringStore) (key : String) (n : Nat) : Prop :=
  (∃ chunk, getKeyringData kr (chunkKey key 0) = .ok chunk ∧ 8 ≤ chunk.length)
  ∧ (∀ i, 1 ≤ i → i ≤ n → ∃ chunk, getKeyringData kr (chunkKey key i) = .ok chunk)
  ∧ (∀ j, j < n → (bodiesUpTo kr key j).length < prefixValue kr key)
  ∧ (bodiesUpTo kr key n).length = prefixValue kr key

/-! ## `cmd/exec_cmd.go`: the environment of the child -/

/-- The element `m[k]` of a Go `map[string]string` that is given by its pairs. -/
def mapIndex (m : List (String × String)) (k : String) : Option String :=
  m.lookup k

/-- The assignment `m[k] = v`. -/
def mapAssign (m : List (String × String)) (k v : String) : List (String × String) :=
  (k, v) :: m.filter (fun kv => kv.1 != k)

/-- Modelled from the spec: the record `storage.RoleCredentials` is declared outside
the files at hand; these are the fields of the spec's RoleCredentials, under the
names by which `execShellEnvs` reads them. -/
structure RoleCredentials where
  RoleName : String
  AccountId : Int
  AccessKeyId : String
  SecretAccessKey : String
  SessionToken : String
  Expiration : Int

/-- What the `exec` command calls outside the files at hand: the function
`GetRoleCredentials(ctx, awssso, accountid, role)` of package `main`, the methods
`creds.AccountIdStr()` and `creds.ExpireString()`, the function `utils.MakeRoleARN`,
and the order in which a `range` over a Go map visits the pairs of the map. -/
structure CmdHelpers (A : Type) where
  GetRoleCredentials : RunContext → A → Int → String → RoleCredentials
  AccountIdStr : RoleCredentials → String
  ExpireString : RoleCredentials → String
  MakeRoleARN : Int → String → String
  rangeOrder : List (String × String) → List (String × String)

def execShellEnvs {A : Type} (h : CmdHelpers A) (ctx : RunContext) (awssso : A)
    (accountid : Int) (role region : String) : List (String × String) :=
  let creds := h.GetRoleCredentials ctx awssso accountid role
  let ssoName := ctx.Settings.GetSelectedSSOName ctx.Cli.SSO
  let shellVars : List (String × String) :=
    [("AWS_ACCESS_KEY_ID", creds.AccessKeyId),
     ("AWS_SECRET_ACCESS_KEY", creds.SecretAccessKey),
     ("AWS_SESSION_TOKEN", creds.SessionToken),
     ("AWS_SSO_ACCOUNT_ID", h.AccountIdStr creds),
     ("AWS_SSO_ROLE_NAME", creds.RoleName),
     ("AWS_SSO_SESSION_EXPIRATION", h.ExpireString creds),
     ("AWS_SSO_ROLE_ARN", h.MakeRoleARN creds.AccountId creds.RoleName),
     ("AWS_SSO", ssoName)]
  let shellVars :=
    if region ≠ "" then
      mapAssign (mapAssign shellVars "AWS_DEFAULT_REGION" region) "AWS_SSO_DEFAULT_REGION" region
    else
      -- we no longer manage the region
      mapAssign shellVars "AWS_SSO_DEFAULT_REGION" ""
  -- Set the AWS_SSO_PROFILE env var using our template
  match ctx.Settings.GetRole accountid role with
  | .error _ =>
    -- this error should never happen
    shellVars
  | .ok roleInfo =>
    let shellVars := mapAssign shellVars "AWS_SSO_PROFILE" (ctx.Settings.ProfileName roleInfo).1
    -- and any EnvVarTags
    (h.rangeOrder (ctx.Settings.GetEnvVarTags roleInfo)).foldl
      (fun shellVars kv => mapAssign shellVars kv.1 kv.2) shellVars

/-- The entry `fmt.Sprintf("%s=%s", k, v)` of an environment list. -/
def envEntry (kv : String × String) : String :=
  kv.1 ++ "=" ++ kv.2

/-- The list `os.Environ()`. -/
def osEnviron (p : Process) : List String :=
  p.Environ.map envEntry

/-- The command `exec.Command(..)` with its `Env` field, the slice that `execCmd`
builds. -/
structure ChildCmd where
  Path : String
  Args : List String
  Env : List String

/-! ### The Go library behind `cmd.Run()`

`cmd.Run()` does not start the child with the slice `cmd.Env` as it is: the library
`os/exec` passes it through `dedupEnv` and `addCriticalEnv`. The library is not part of
the repository; the two functions are written after its source. -/

/-- A name of an environment variable: not empty and without `=`. -/
def IsEnvName (k : String) : Prop := k ≠ "" ∧ '=' ∉ k.data

instance (k : String) : Decidable (IsEnvName k) := by
  unfold IsEnvName
  infer_instance

/-- The key of the entry `kv` of an environment list, as `dedupEnvCase` reads it: the
text before the first `=` (`strings.Index(kv, "=")`), where an `=` at the start of the
entry belongs to the key (`strings.Index(kv[1:], "=") + 1`); none for an entry
without `=`. -/
def entryKey (kv : String) : Option String :=
  let cs := kv.data
  if cs.head? = some '=' then
    if '=' ∈ cs.tail then some (String.mk ('=' :: cs.tail.takeWhile (fun c => c != '=')))
    else some ""
  else if '=' ∈ cs then some (String.mk (cs.takeWhile (fun c => c != '=')))
  else none

/-- The function `strings.ToLower` of the Go library, on the letters `A` to `Z`; other
characters are left as they are. -/
def ToLower (s : String) : String :=
  String.mk (s.data.map Char.toLower)

/-- The key under which `dedupEnvCase` compares: in lower case (`strings.ToLower`) when
the comparison is case-insensitive. -/
def foldKey (caseInsensitive : Bool) (k : String) : String :=
  if caseInsensitive then ToLower k else k

/-- The key of an entry as `dedupEnvCase` compares it. -/
def foldedKey (caseInsensitive : Bool) (e : String) : Option String :=
  (entryKey e).map (foldKey caseInsensitive)

/-- The function `dedupEnvCase` of `os/exec` (`If Env contains duplicate environment
keys, only the last value in the slice for each duplicate key is used`): an entry is
dropped when a later entry has its key, so that of the entries of one key the last is
kept; an entry without `=` is kept unless it is empty. The entries that are kept stay
in the order of the slice (earlier versions of the library put the last entry of a
key at the place of the first); the refusal of an entry that holds a NUL character is
not part of the embedding. -/
def dedupEnvCase (caseInsensitive : Bool) : List String → List String
  | [] => []
  | kv :: rest =>
    match entryKey kv with
    | none => if kv = "" then dedupEnvCase caseInsensitive rest
      else kv :: dedupEnvCase caseInsensitive rest
    | some k =>
      if rest.any (fun e =>
          (entryKey e).map (foldKey caseInsensitive) == some (foldKey caseInsensitive k)) then
        dedupEnvCase caseInsensitive rest
      else kv :: dedupEnvCase caseInsensitive rest

/-- The function `dedupEnv` of `os/exec`: `dedupEnvCase(runtime.GOOS == "windows", env)`. -/
def dedupEnv (p : Process) (env : List String) : List String :=
  dedupEnvCase (decide (p.GOOS = "windows")) env

/-- The function `addCriticalEnv` of `os/exec`: on Windows, when no entry has the key
`SYSTEMROOT` (whatever its case, the key being the text before the first `=`), the
entry `"SYSTEMROOT=" + os.Getenv("SYSTEMROOT")` is added at the end. -/
def addCriticalEnv (p : Process) (env : List String) : List String :=
  if p.GOOS ≠ "windows" then env
  else if env.any (fun kv =>
      decide ('=' ∈ kv.data)
        && ToLower (String.mk (kv.data.takeWhile (fun c => c != '='))) == "systemroot") then env
  else env ++ ["SYSTEMROOT=" ++ (LookupEnv p "SYSTEMROOT").getD ""]

/-- A call that reads or writes the environment of the calling process, or starts a
child: `os.Environ()`, `os.Setenv(key, value)`, `os.Unsetenv(key)`, `os.Clearenv()`,
and `cmd.Run()` with the environment that the child is started with. -/
inductive OsCall where
  | Environ
  | Setenv (key value : String)
  | Unsetenv (key : String)
  | Clearenv
  | Run (cmd : ChildCmd) (environ : List String)

/-- The calling process after a call: `Setenv`, `Unsetenv` and `Clearenv` write its
environment, `Environ` returns a copy of it, and `Run` starts a child with a list of
its own. -/
def Process.after (p : Process) : OsCall → Process
  | .Environ => p
  | .Setenv key value =>
    { p with Environ := p.Environ.filter (fun kv => kv.1 != key) ++ [(key, value)] }
  | .Unsetenv key => { p with Environ := p.Environ.filter (fun kv => kv.1 != key) }
  | .Clearenv => { p with Environ := [] }
  | .Run _ _ => p

/-- What a call of `execCmd` does: the region it hands to `execShellEnvs`, the ARN it
adds to the history of the cache, the command with the slice `cmd.Env`, the
environment with which `cmd.Run()` starts the child, the calls that `execCmd` itself
makes on the environment (in their order), and the process of the caller after these
calls. -/
structure ExecCmdResult where
  region : String
  history : String
  child : ChildCmd
  childEnviron : List String
  calls : List OsCall
  parent : Process

/-- Executes Cmd+Args in the context of the AWS Role creds. Of the calls
`ctx.Settings.Cache.AddHistory(..)` and `ctx.Settings.Cache.Save(false)` the embedding
keeps the ARN that is added. The child is started by `cmd.Run()` with the slice
`cmd.Env` after `dedupEnv` and `addCriticalEnv`; the run of the child itself, whose
error `execCmd` returns, is not part of the embedding, and neither is what the
functions declared outside the files at hand do to the process. -/
def execCmd {A : Type} (h : CmdHelpers A) (p : Process) (ctx : RunContext) (awssso : A)
    (accountid : Int) (role : String) : ExecCmdResult :=
  let region := ctx.Settings.GetDefaultRegion ctx.Cli.Exec.AccountId ctx.Cli.Exec.Role
    ctx.Cli.Exec.NoRegion
  -- copy our current environment to the executor
  let cmdEnv := osEnviron p
  -- add the variables we need for AWS to the executor without polluting our own process
  let cmdEnv := (h.rangeOrder (execShellEnvs h ctx awssso accountid role region)).foldl
    (fun cmdEnv kv => cmdEnv ++ [envEntry kv]) cmdEnv
  let cmd : ChildCmd := { Path := ctx.Cli.Exec.Cmd, Args := ctx.Cli.Exec.Args, Env := cmdEnv }
  -- just do it!
  let environ := addCriticalEnv p (dedupEnv p cmd.Env)
  let calls : List OsCall := [.Environ, .Run cmd environ]
  { region := region,
    history := h.MakeRoleARN accountid role,
    child := cmd,
    childEnviron := environ,
    calls := calls,
    parent := calls.foldl Process.after p }

/-- The call of `execCmd` that a run of `Run` ends in, when it ends in one. -/
def RunOutcome.execCmdResult {A : Type} (h : CmdHelpers A) (p : Process) (awssso : A) :
    RunOutcome → Option ExecCmdResult
  | .execCmd ctx accountid role => some (AwsSso.execCmd h p ctx awssso accountid role)
  | _ => none

/-- The map `shellVars` of `execShellEnvs` before the role is looked up in the cache. -/
def shellVarsBase {A : Type} (h : CmdHelpers A) (ctx : RunContext) (awssso : A)
    (accountid : Int) (role region : String) : List (String × String) :=
  let creds := h.GetRoleCredentials ctx awssso accountid role
  let shellVars : List (String × String) :=
    [("AWS_ACCESS_KEY_ID", creds.AccessKeyId),
     ("AWS_SECRET_ACCESS_KEY", creds.SecretAccessKey),
     ("AWS_SESSION_TOKEN", creds.SessionToken),
     ("AWS_SSO_ACCOUNT_ID", h.AccountIdStr creds),
     ("AWS_SSO_ROLE_NAME", creds.RoleName),
     ("AWS_SSO_SESSION_EXPIRATION", h.ExpireString creds),
     ("AWS_SSO_ROLE_ARN", h.MakeRoleARN creds.AccountId creds.RoleName),
     ("AWS_SSO", ctx.Settings.GetSelectedSSOName ctx.Cli.SSO)]
  if region ≠ "" then
    mapAssign (mapAssign shellVars "AWS_DEFAULT_REGION" region) "AWS_SSO_DEFAULT_REGION" region
  else
    mapAssign shellVars "AWS_SSO_DEFAULT_REGION" ""

/-! ## The device flow: the mock of `sso/awssso_auth_test.go` and the machine of the specification -/

/-- An error of the remote API: one of the device-flow signals, or another failure
with its text. -/
inductive RemoteError where
  | AuthorizationPending
  | SlowDown
  | ExpiredToken
  | AccessDenied
  | Other (msg : String)
deriving DecidableEq

/-- The fields of `ssooidc.RegisterClientOutput` that the tests set. -/
structure RegisterClientOutput where
  ClientId : String
  ClientSecret : String
  ClientIdIssuedAt : Int
  ClientSecretExpiresAt : Int
deriving DecidableEq

/-- The fields of `ssooidc.StartDeviceAuthorizationOutput` that the tests set. -/
structure StartDeviceAuthorizationOutput where
  DeviceCode : String
  UserCode : String
  VerificationUri : String
  VerificationUriComplete : String
  ExpiresIn : Int
  Interval : Int
deriving DecidableEq

/-- The fields of `ssooidc.CreateTokenOutput` that the tests set. -/
structure CreateTokenOutput where
  AccessToken : String
  ExpiresIn : Int
  IdToken : String
  RefreshToken : String
  TokenType : String
deriving DecidableEq

structure mockSsoOidcApiResults where
  RegisterClient : Option RegisterClientOutput
  StartDeviceAuthorization : Option StartDeviceAuthorizationOutput
  CreateToken : Option CreateTokenOutput
  Error : Option RemoteError
deriving DecidableEq

/-- The name of an operation of the remote API. -/
inductive ApiCall where
  | RegisterClient
  | StartDeviceAuthorization
  | CreateToken
deriving DecidableEq

/-- The mock ssooidc: the queue of scripted results, and the calls made so far (oldest
first), which the embedding records. -/
structure mockSsoOidcApi where
  Results : List mockSsoOidcApiResults
  calls : List ApiCall
deriving DecidableEq

/-- What a mocked call returns: the output of the result, or its error when it has
one. -/
def mockReturn {α : Type} (out : α) (err : Option RemoteError) : Except RemoteError α :=
  match err with
  | some e => .error e
  | none => .ok out

def mockSsoOidcApi.RegisterClient (m : mockSsoOidcApi) :
    mockSsoOidcApi × Except RemoteError RegisterClientOutput :=
  let m := { m with calls := m.calls ++ [ApiCall.RegisterClient] }
  match m.Results with
  | [] => (m, .error (.Other "calling mocked RegisterClient too many times"))
  | x :: rest =>
    match x.RegisterClient with
    | none => (m, .error (.Other "expected RegisterClient"))
    | some out => ({ m with Results := rest }, mockReturn out x.Error)

def mockSsoOidcApi.StartDeviceAuthorization (m : mockSsoOidcApi) :
    mockSsoOidcApi × Except RemoteError StartDeviceAuthorizationOutput :=
  let m := { m with calls := m.calls ++ [ApiCall.StartDeviceAuthorization] }
  match m.Results with
  | [] => (m, .error (.Other "calling mocked StartDeviceAuthorization too many times"))
  | x :: rest =>
    match x.StartDeviceAuthorization with
    | none => (m, .error (.Other "expected StartDeviceAuthorization"))
    | some out => ({ m with Results := rest }, mockReturn out x.Error)

def mockSsoOidcApi.CreateToken (m : mockSsoOidcApi) :
    mockSsoOidcApi × Except RemoteError CreateTokenOutput :=
  let m := { m with calls := m.calls ++ [ApiCall.CreateToken] }
  match m.Results with
  | [] => (m, .error (.Other "calling mocked CreateToken too many times"))
  | x :: rest =>
    match x.CreateToken with
    | none => (m, .error (.Other "expected CreateToken"))
    | some out => ({ m with Results := rest }, mockReturn out x.Error)

/-- Modelled from the spec: the ClientRegistration of the data model, which the code
declares outside the files at hand. -/
structure ClientRegistration where
  ClientId : String
  ClientSecret : String
  ClientIdIssuedAt : Int
  ClientSecretExpiresAt : Int
deriving DecidableEq

/-- Modelled from the spec: the DeviceAuthorization of the data model, which the code
declares outside the files at hand. -/
structure DeviceAuthorization where
  DeviceCode : String
  UserCode : String
  VerificationUri : String
  VerificationUriComplete : String
  ExpiresIn : Int
  Interval : Int
deriving DecidableEq

/-- Modelled from the spec: the AccessToken of the data model, which the code declares
outside the files at hand, with the fields that the tests read and the time
`ExpiresAt` at which it expires. -/
structure AccessTokenRecord where
  AccessToken : String
  ExpiresIn : Int
  ExpiresAt : Int
  IdToken : String
  RefreshToken : String
  TokenType : String
deriving DecidableEq

/-- Modelled from the spec: the part of the SecureStore that the AuthMachine uses, a
registration per SSO region and a token per store key; its implementation is outside
the files at hand (the tests run over a JSON store). -/
structure SecureStore where
  registrations : String → Option ClientRegistration
  tokens : String → Option AccessTokenRecord

/-- An error of `Authenticate`, after the failure taxonomy of the specification.
`OutOfFuel` is not an error of the program: it is what the machine of the embedding
returns when its fuel is used up. -/
inductive AuthError where
  | RemoteError (err : RemoteError)
  | VerificationExpired
  | AccessDenied
  | LauncherError (msg : String)
  | ConfigError (msg : String)
  | OutOfFuel
deriving DecidableEq

/-- Modelled from the spec: the state of the AuthMachine, whose declaration `AWSSSO`
is outside the files at hand: the region and start URL, the store, the remote API,
the artifacts of the flow, the clock, the safety margin, what was written to the
control stream, and the error of the `exec` opener when it fails. -/
structure AWSSSO where
  SsoRegion : String
  StartUrl : String
  store : SecureStore
  ssooidc : mockSsoOidcApi
  ClientData : Option ClientRegistration
  DeviceAuth : Option DeviceAuthorization
  Token : Option AccessTokenRecord
  now : Int
  safetyMargin : Int
  control : List String
  execOpener : String → Option String

/-- The key of the token in the store: `region + "|" + start_url`. -/
def AWSSSO.StoreKey (as : AWSSSO) : String :=
  as.SsoRegion ++ "|" ++ as.StartUrl

/-- Modelled from the spec: a ClientRegistration is treated as expired when
`now ≥ expires_at - safety_margin`. -/
def registrationExpired (as : AWSSSO) (reg : ClientRegistration) : Bool :=
  decide (as.now ≥ reg.ClientSecretExpiresAt - as.safetyMargin)

/-- Modelled from the spec: an AccessToken is never returned past
`expires_at - safety_margin`, and is expired at exactly that time. -/
def tokenExpired (as : AWSSSO) (token : AccessTokenRecord) : Bool :=
  decide (as.now ≥ token.ExpiresAt - as.safetyMargin)

/-- Modelled from the spec: `Init → HaveRegistration`: load a non-expired
ClientRegistration from the store; otherwise call `RegisterClient` and save. With
`force`, the stored registration is deleted first (the rotation of §4.C.2). -/
def registerClient (force : Bool) (as : AWSSSO) : AWSSSO × Option AuthError :=
  let as : AWSSSO :=
    if force then
      { as with store := { as.store with
          registrations := Function.update as.store.registrations as.SsoRegion none } }
    else as
  let cached : Option ClientRegistration :=
    match as.store.registrations as.SsoRegion with
    | some reg => if registrationExpired as reg then none else some reg
    | none => none
  match cached with
  | some reg => ({ as with ClientData := some reg }, none)
  | none =>
    match as.ssooidc.RegisterClient with
    | (api, .error err) => ({ as with ssooidc := api }, some (.RemoteError err))
    | (api, .ok out) =>
      let reg : ClientRegistration :=
        { ClientId := out.ClientId, ClientSecret := out.ClientSecret,
          ClientIdIssuedAt := out.ClientIdIssuedAt,
          ClientSecretExpiresAt := out.ClientSecretExpiresAt }
      ({ as with
          ssooidc := api, ClientData := some reg,
          store := { as.store with
            registrations := Function.update as.store.registrations as.SsoRegion (some reg) } },
        none)

/-- Modelled from the spec: the call of `StartDeviceAuthorization` of
`HaveRegistration → HaveDeviceCode`. -/
def startDeviceAuthorization (as : AWSSSO) : AWSSSO × Option AuthError :=
  match as.ssooidc.StartDeviceAuthorization with
  | (api, .error err) => ({ as with ssooidc := api }, some (.RemoteError err))
  | (api, .ok out) =>
    ({ as with
        ssooidc := api,
        DeviceAuth := some
          { DeviceCode := out.DeviceCode, UserCode := out.UserCode,
            VerificationUri := out.VerificationUri,
            VerificationUriComplete := out.VerificationUriComplete,
            ExpiresIn := out.ExpiresIn, Interval := out.Interval } },
      none)

/-- Modelled from the spec: the BrowserLauncher of §4.F, which dispatches on the url
action: `print` writes the URI to the control stream, `open` invokes the default
opener, `exec` spawns the configured command and returns its error as a
LauncherError, `clip` copies and prints a hint, any other action is a ConfigError
(surfaced, not panicked; the test `TestReauthenticate` expects a panic of
`reauthenticate` for the action `invalid`, and the embedding follows §4.F). -/
def BrowserLauncher (urlAction browser : String) (as : AWSSSO) : AWSSSO × Option AuthError :=
  let uri : String :=
    match as.DeviceAuth with
    | some auth => auth.VerificationUriComplete
    | none => ""
  if urlAction = "print" then ({ as with control := as.control ++ [uri] }, none)
  else if urlAction = "open" then (as, none)
  else if urlAction = "exec" then
    match as.execOpener (browser ++ " " ++ uri) with
    | some msg => (as, some (.LauncherError msg))
    | none => (as, none)
  else if urlAction = "clip" then
    ({ as with control := as.control ++ ["copied the URL to the clipboard"] }, none)
  else (as, some (.ConfigError urlAction))

/-- A state of the machine between its steps: at `Init`, or polling with the current
interval and the time at which the device authorization expires. -/
inductive Phase where
  | init
  | polling (interval deadline : Int)

/-- Modelled from the spec: the AuthMachine of §4.C, whose code is outside the files
at hand. From `init`: obtain a registration, call `StartDeviceAuthorization` (on
failure rotate the registration and retry once; a second failure surfaces), hand the
URI to the BrowserLauncher, and poll. While polling: call `CreateToken`; on
`AuthorizationPending` wait for the interval and continue, on `SlowDown` double the
interval, on `ExpiredToken` restart from `init`, on any other error return it; the
polling is bounded by `expires_in`; a token is persisted under the store key. -/
def authMachine (urlAction browser : String) : Nat → Phase → AWSSSO → AWSSSO × Option AuthError
  | 0, _, as => (as, some .OutOfFuel)
  | fuel + 1, .init, as =>
    match registerClient false as with
    | (as, some err) => (as, some err)
    | (as, none) =>
      let started : AWSSSO × Option AuthError :=
        match startDeviceAuthorization as with
        | (as, none) => (as, none)
        | (as, some _) =>
          match registerClient true as with
          | (as, some err) => (as, some err)
          | (as, none) => startDeviceAuthorization as
      match started with
      | (as, some err) => (as, some err)
      | (as, none) =>
        match BrowserLauncher urlAction browser as with
        | (as, some err) => (as, some err)
        | (as, none) =>
          match as.DeviceAuth with
          | none => authMachine urlAction browser fuel (.polling 0 as.now) as
          | some auth =>
            authMachine urlAction browser fuel (.polling auth.Interval (as.now + auth.ExpiresIn))
              as
  | fuel + 1, .polling interval deadline, as =>
    match as.ssooidc.CreateToken with
    | (api, .ok out) =>
      let token : AccessTokenRecord :=
        { AccessToken := out.AccessToken, ExpiresIn := out.ExpiresIn,
          ExpiresAt := as.now + out.ExpiresIn, IdToken := out.IdToken,
          RefreshToken := out.RefreshToken, TokenType := out.TokenType }
      ({ as with
          ssooidc := api, Token := some token,
          store := { as.store with
            tokens := Function.update as.store.tokens as.StoreKey (some token) } },
        none)
    | (api, .error .AuthorizationPending) =>
      let as : AWSSSO := { as with ssooidc := api, now := as.now + interval }
      if as.now ≥ deadline then (as, some .VerificationExpired)
      else authMachine urlAction browser fuel (.polling interval deadline) as
    | (api, .error .SlowDown) =>
      let as : AWSSSO := { as with ssooidc := api, now := as.now + 2 * interval }
      if as.now ≥ deadline then (as, some .VerificationExpired)
      else authMachine urlAction browser fuel (.polling (2 * interval) deadline) as
    | (api, .error .ExpiredToken) =>
      authMachine urlAction browser fuel .init { as with ssooidc := api }
    | (api, .error .AccessDenied) => ({ as with ssooidc := api }, some .AccessDenied)
    | (api, .error (.Other msg)) =>
      ({ as with ssooidc := api }, some (.RemoteError (.Other msg)))

/-- Modelled from the spec: `Authenticate(url_action, browser)`, whose code is outside
the files at hand: it returns the cached token if it is not expired; otherwise it
drives the machine, with one unit of fuel more than the queue of the mock has
results. -/
def Authenticate (urlAction browser : String) (as : AWSSSO) : AWSSSO × Option AuthError :=
  let cached : Option AccessTokenRecord :=
    match as.store.tokens as.StoreKey with
    | some token => if tokenExpired as token then none else some token
    | none => none
  match cached with
  | some token => ({ as with Token := some token }, none)
  | none => authMachine urlAction browser (as.ssooidc.Results.length + 1) .init as

/-- The url action is one that the BrowserLauncher of §4.F carries out without an
error: `print`, `open`, `clip`, or `exec` with an opener that starts the command. -/
def launches (urlAction browser : String) (as : AWSSSO) : Prop :=
  urlAction = "print" ∨ urlAction = "open" ∨ urlAction = "clip"
    ∨ (urlAction = "exec" ∧ ∀ uri, as.execOpener (browser ++ " " ++ uri) = none)

/-- The remote API `m1` is what a successful step `Init → HaveRegistration` on `as`
leaves: the API of `as` when the store holds a registration that is not expired (no
call is made), otherwise the API after one call of `RegisterClient`, which returned no
error. -/
def AfterRegistration (as : AWSSSO) (m1 : mockSsoOidcApi) : Prop :=
  ((∃ reg, as.store.registrations as.SsoRegion = some reg ∧ registrationExpired as reg = false)
      ∧ m1 = as.ssooidc)
    ∨ ((∀ reg, as.store.registrations as.SsoRegion = some reg → registrationExpired as reg = true)
      ∧ (∃ out, as.ssooidc.RegisterClient.2 = .ok out) ∧ m1 = as.ssooidc.RegisterClient.1)

/-- The remote API `mS` is what a successful step `HaveRegistration → HaveDeviceCode`
leaves when it starts with the API `m1`: the API after a `StartDeviceAuthorization`
that returned no error, or, when the first `StartDeviceAuthorization` failed, the API
after that call, one `RegisterClient` and one more `StartDeviceAuthorization`, both
without an error. -/
def AfterStart (m1 mS : mockSsoOidcApi) : Prop :=
  ((∃ auth, m1.StartDeviceAuthorization.2 = .ok auth) ∧ mS = m1.StartDeviceAuthorization.1)
    ∨ ((∃ err, m1.StartDeviceAuthorization.2 = .error err)
      ∧ (∃ out, m1.StartDeviceAuthorization.1.RegisterClient.2 = .ok out)
      ∧ (∃ auth,
        m1.StartDeviceAuthorization.1.RegisterClient.1.StartDeviceAuthorization.2 = .ok auth)
      ∧ mS = m1.StartDeviceAuthorization.1.RegisterClient.1.StartDeviceAuthorization.1)

/-! ## Sample data -/

/-- A keyring that holds nothing and whose `Set` always succeeds. -/
def emptyKeyring : MockKeyring := { items := [], setCalls := [], setFails := fun _ => false }

/-- A store on the chunked path over the empty keyring. -/
def emptyWindowsStore : KeyringStore :=
  { keyring := emptyKeyring, myGOOS := "windows", runtimeGOOS := "linux" }

/-- A store on the single-key path over the empty keyring. -/
def emptyLinuxStore : KeyringStore :=
  { keyring := emptyKeyring, myGOOS := "", runtimeGOOS := "linux" }

/-- The key of the sample registration, of the sample token and of the sample role
credentials. -/
def sampleRegion : String := "us-east-1"

def sampleTokenKey : String := "us-east-1|https://testing.example/start"

def sampleArn : String := "arn:aws:iam::000000000042:role/admin"

/-- One byte for an optional record of the sample codec. -/
def sampleEnc : Option Nat → Byte
  | none => 0
  | some n => byteOf (n + 1)

def sampleDec (b : Byte) : Option Nat :=
  if b.val = 0 then none else some (b.val - 1)

/-- A codec over records that are numbers below 255, for stored records whose keys are
the three sample keys: the encoding is an opening brace, one byte per family, and a
closing brace. -/
def sampleCodec : Codec Nat Nat Nat where
  Marshal := fun s =>
    [123, sampleEnc (s.RegisterClientData (RegisterClientKey sampleRegion)),
      sampleEnc (s.CreateTokenResponse (CreateTokenResponseKey sampleTokenKey)),
      sampleEnc (s.RoleCredentials sampleArn), 125]
  storageDataUnmarshal := fun data =>
    match data with
    | [123, a, b, c, 125] =>
      .ok { RegisterClientData :=
              Function.update (fun _ => none) (RegisterClientKey sampleRegion) (sampleDec a),
            CreateTokenResponse :=
              Function.update (fun _ => none) (CreateTokenResponseKey sampleTokenKey)
                (sampleDec b),
            RoleCredentials := Function.update (fun _ => none) sampleArn (sampleDec c) }
    | _ => .error .UnmarshalFailed

/-- A store on the chunked path over a keyring with the single item `item`. -/
def windowsStoreWith (data : Bytes) : KeyringStore :=
  { keyring :=
      { items := [⟨chunkKey RECORD_KEY 0, data, KEYRING_ID, "aws-sso secure storage"⟩],
        setCalls := [], setFails := fun _ => false },
    myGOOS := "windows", runtimeGOOS := "linux" }

/-- Entry `_0` is shorter than the 8 bytes of the length prefix. -/
def shortEntryStore : KeyringStore := windowsStoreWith [1, 2, 3]

/-- Entry `_0` announces 5 bytes and holds 2 of them; entry `_1` is missing. -/
def missingChunkStore : KeyringStore := windowsStoreWith (getBytesFromUINT64 5 ++ [1, 2])

/-- Entry `_0` announces 1 byte and holds 3. -/
def overlongEntryStore : KeyringStore := windowsStoreWith (getBytesFromUINT64 1 ++ [1, 2, 3])

/-- A process without AWS variables in its environment. -/
def sampleProcess : Process :=
  { Environ := [("HOME", "/home/user"), ("SHELL", "/bin/sh")], GOOS := "linux" }

/-- A process with `AWS_PROFILE=already-set` in its environment. -/
def conflictProcess : Process :=
  { Environ := [("HOME", "/home/user"), ("AWS_PROFILE", "already-set")], GOOS := "linux" }

/-- Settings whose role cache knows the profile `prod` and the role `admin` of the
account 42, whose default region is `eu-west-1` for the account 5 and `us-east-1`
otherwise, and whose role records carry one env-var tag. -/
def sampleSettings : Settings :=
  { GetRoleByProfile := fun profile =>
      if profile = "prod" then .ok { AccountId := 42, RoleName := "admin" }
      else .error "profile not found",
    GetRole := fun accountid role =>
      if accountid = 42 ∧ role = "admin" then .ok { AccountId := 42, RoleName := "admin" }
      else .error "role not found",
    GetDefaultRegion := fun accountid _ noRegion =>
      if noRegion then "" else if accountid = 5 then "eu-west-1" else "us-east-1",
    GetSelectedSSOName := fun sso => if sso = "" then "Default" else sso,
    ProfileName := fun roleInfo => (roleInfo.RoleName ++ "@prod", none),
    GetEnvVarTags := fun _ => [("AWS_SSO_TAG_TEAM", "platform")] }

/-- A parser of role ARNs that knows the sample ARN. -/
def sampleParseRoleARN (arn : String) : Except String (Int × String) :=
  if arn = sampleArn then .ok (42, "admin") else .error "unable to parse ARN"

/-- The arguments of `exec` with nothing given. -/
def noArgs : ExecCmd :=
  { Arn := "", AccountId := 0, Role := "", Profile := "", NoRegion := false,
    Cmd := "sh", Args := [] }

def sampleContext (e : ExecCmd) : RunContext :=
  { Cli := { SSO := "", Exec := e }, Settings := sampleSettings }

/-- Sample credentials of the role `admin` of the account 42. -/
def sampleCreds : RoleCredentials :=
  { RoleName := "admin", AccountId := 42, AccessKeyId := "AKIAEXAMPLE",
    SecretAccessKey := "secret", SessionToken := "token", Expiration := 1700000000 }

/-- Helpers that return the sample credentials and visit a map in the order of its
pairs. -/
def sampleHelpers : CmdHelpers Unit :=
  { GetRoleCredentials := fun _ _ _ _ => sampleCreds,
    AccountIdStr := fun _ => "000000000042",
    ExpireString := fun _ => "2023-11-14T22:13:20Z",
    MakeRoleARN := fun _ _ => sampleArn,
    rangeOrder := fun m => m }

/-- The sample settings, with a role record whose env-var tags name a credential
variable. -/
def overlaySettings : Settings :=
  { sampleSettings with GetEnvVarTags := fun _ => [("AWS_ACCESS_KEY_ID", "from-tag")] }

/-- The sample context over the settings whose env-var tags name a credential
variable. -/
def overlayContext : RunContext :=
  { Cli := { SSO := "", Exec := noArgs }, Settings := overlaySettings }

/-- The registration that the tests script. -/
def sampleRegisterClientOutput : RegisterClientOutput :=
  { ClientId := "this-is-my-client-id", ClientSecret := "this-is-my-client-secret",
    ClientIdIssuedAt := 1000, ClientSecretExpiresAt := 1005 }

/-- The device authorization that the tests script. -/
def sampleStartOutput : StartDeviceAuthorizationOutput :=
  { DeviceCode := "device-code", UserCode := "user-code",
    VerificationUri := "verification-uri",
    VerificationUriComplete := "verification-uri-complete", ExpiresIn := 1005, Interval := 5 }

/-- The token that the tests script. -/
def sampleTokenOutput : CreateTokenOutput :=
  { AccessToken := "access-token", ExpiresIn := 1005, IdToken := "id-token",
    RefreshToken := "refresh-token", TokenType := "token-type" }

/-- A scripted result of `RegisterClient`. -/
def registerResult (out : RegisterClientOutput) (err : Option RemoteError) :
    mockSsoOidcApiResults :=
  { RegisterClient := some out, StartDeviceAuthorization := none, CreateToken := none,
    Error := err }

/-- A scripted result of `StartDeviceAuthorization`. -/
def startResult (out : StartDeviceAuthorizationOutput) (err : Option RemoteError) :
    mockSsoOidcApiResults :=
  { RegisterClient := none, StartDeviceAuthorization := some out, CreateToken := none,
    Error := err }

/-- A scripted result of `CreateToken`. -/
def tokenResult (out : CreateTokenOutput) (err : Option RemoteError) :
    mockSsoOidcApiResults :=
  { RegisterClient := none, StartDeviceAuthorization := none, CreateToken := some out,
    Error := err }

/-- The machine of the tests at time 1000 over an empty store, with the script
`results`. -/
def sampleAWSSSO (results : List mockSsoOidcApiResults) : AWSSSO :=
  { SsoRegion := "us-west-1", StartUrl := "https://testing.awsapps.com/start",
    store := { registrations := fun _ => none, tokens := fun _ => none },
    ssooidc := { Results := results, calls := [] },
    ClientData := none, DeviceAuth := none, Token := none,
    now := 1000, safetyMargin := 60, control := [], execOpener := fun _ => none }

/-- The script of `TestAuthenticate`. -/
def happyScript : List mockSsoOidcApiResults :=
  [registerResult sampleRegisterClientOutput none, startResult sampleStartOutput none,
   tokenResult sampleTokenOutput none]

/-- The script of the second test of `TestAuthenticateFailure`. -/
def retryScript : List mockSsoOidcApiResults :=
  [registerResult sampleRegisterClientOutput none,
   startResult sampleStartOutput (some (.Other "some error")),
   registerResult sampleRegisterClientOutput none,
   startResult sampleStartOutput (some (.Other "some error")),
   registerResult sampleRegisterClientOutput none]

/-- The chunked store after the sample registration was saved in it. -/
def registrationStore : KeyringStore :=
  (SaveRegisterClientData sampleCodec emptyWindowsStore sampleRegion 7).1

/-- The single-key store after the sample registration was saved in it. -/
def registrationLinuxStore : KeyringStore :=
  (SaveRegisterClientData sampleCodec emptyLinuxStore sampleRegion 7).1

/-- The record with the sample registration and nothing else. -/
def registrationRecord : StorageData Nat Nat Nat :=
  (NewStorageData : StorageData Nat Nat Nat).setRegisterClientData
    (RegisterClientKey sampleRegion) 7

/-- A second region, for a second registration in one record. -/
def otherRegion : String := "eu-west-1"

/-- A codec like the sample codec, over stored records that hold registrations under
two regions: an opening brace, one byte per registration, one byte for the token, one
for the role credentials, and a closing brace. -/
def twoRegionCodec : Codec Nat Nat Nat where
  Marshal := fun s =>
    [123, sampleEnc (s.RegisterClientData (RegisterClientKey sampleRegion)),
      sampleEnc (s.RegisterClientData (RegisterClientKey otherRegion)),
      sampleEnc (s.CreateTokenResponse (CreateTokenResponseKey sampleTokenKey)),
      sampleEnc (s.RoleCredentials sampleArn), 125]
  storageDataUnmarshal := fun data =>
    match data with
    | [123, a, a2, b, c, 125] =>
      .ok { RegisterClientData :=
              Function.update
                (Function.update (fun _ => none) (RegisterClientKey sampleRegion) (sampleDec a))
                (RegisterClientKey otherRegion) (sampleDec a2),
            CreateTokenResponse :=
              Function.update (fun _ => none) (CreateTokenResponseKey sampleTokenKey)
                (sampleDec b),
            RoleCredentials := Function.update (fun _ => none) sampleArn (sampleDec c) }
    | _ => .error .UnmarshalFailed

/-- The chunked store after the sample registration and then the sample token were
saved in it with the codec of two regions. -/
def registrationTokenStore : KeyringStore :=
  (SaveCreateTokenResponse twoRegionCodec
    (SaveRegisterClientData twoRegionCodec emptyWindowsStore sampleRegion 7).1
    sampleTokenKey 8).1

/-- The record with the sample registration, the sample token and nothing else, as the
codec of two regions decodes it. -/
def registrationTokenRecord : StorageData Nat Nat Nat :=
  { RegisterClientData :=
      Function.update (Function.update (fun _ => none) (RegisterClientKey sampleRegion) (some 7))
        (RegisterClientKey otherRegion) none,
    CreateTokenResponse :=
      Function.update (fun _ => none) (CreateTokenResponseKey sampleTokenKey) (some 8),
    RoleCredentials := Function.update (fun _ => none) sampleArn none }

/-- The script of `TestAuthenticateFailure`, for its three calls of `Authenticate`. -/
def failureScript : List mockSsoOidcApiResults :=
  [registerResult sampleRegisterClientOutput (some (.Other "some error")),
   registerResult sampleRegisterClientOutput none,
   startResult sampleStartOutput (some (.Other "some error")),
   registerResult sampleRegisterClientOutput none,
   startResult sampleStartOutput (some (.Other "some error")),
   registerResult sampleRegisterClientOutput none,
   startResult sampleStartOutput none,
   tokenResult sampleTokenOutput (some (.Other "some error"))]

/-- The machine of `TestAuthenticateFailure` after its first call of `Authenticate`. -/
def failureSecond : AWSSSO :=
  (Authenticate "print" "fake-browser" (sampleAWSSSO failureScript)).1

/-- The machine of `TestAuthenticateFailure` after its second call of `Authenticate`:
its store holds the registration that the rotation saved. -/
def failureThird : AWSSSO := (Authenticate "print" "fake-browser" failureSecond).1

/-- A process with `AWS_DEFAULT_REGION=eu-west-3` and a stale `AWS_SESSION_TOKEN` in
its environment, two variables that `checkAwsEnvironment` does not look at. -/
def regionProcess : Process :=
  { Environ := [("HOME", "/home/user"), ("AWS_DEFAULT_REGION", "eu-west-3"),
      ("SHELL", "/bin/sh"), ("AWS_SESSION_TOKEN", "stale-token")],
    GOOS := "linux" }

/-- A process on Windows with the region variable in lower case. -/
def windowsProcess : Process :=
  { Environ := [("SystemRoot", "C:/Windows"), ("aws_default_region", "eu-west-3")],
    GOOS := "windows" }

/-- The sample context with the account and the role given on the command line. -/
def adminContext : RunContext := sampleContext { noArgs with AccountId := 42, Role := "admin" }

/-! ## Definitions used by the proofs -/

/-- Reading a decimal numeral back: the value of a list of digit characters. -/
def decimalValue (cs : List Char) : Nat :=
  cs.foldl (fun acc c => acc * 10 + (c.toNat - 48)) 0

/-- The data of entry `i` that the writer produces for the payload `B`. -/
def chunkData (B : Bytes) (i : Nat) : Bytes :=
  (if i = 0 then getBytesFromUINT64 B.length else [])
    ++ (B.drop (i * WINCRED_MAX_LENGTH)).take WINCRED_MAX_LENGTH

/-- The item of entry `i` that the writer hands to the keyring for the payload `B`. -/
def chunkItem (B : Bytes) (key label : String) (i : Nat) : Item :=
  ⟨chunkKey key i, chunkData B i, label, "aws-sso secure storage"⟩

/-- What holds of the store `kr` after the writer, started on `k0`, has set the entries
`0 .. i-1` of the payload `B`. -/
structure SplitInv (B : Bytes) (key label : String) (k0 kr : KeyringStore) (i : Nat) :
    Prop where
  calls : kr.keyring.setCalls
    = k0.keyring.setCalls ++ (List.range i).map (chunkItem B key label)
  get : ∀ j, j < i → kr.keyring.Get (chunkKey key j) = .ok (chunkItem B key label j)
  frame : ∀ k, (∀ j, j < i → k ≠ chunkKey key j) → kr.keyring.Get k = k0.keyring.Get k
  goos : kr.myGOOS = k0.myGOOS ∧ kr.runtimeGOOS = k0.runtimeGOOS
  fails : kr.keyring.setFails = k0.keyring.setFails

end AwsSso

/-! ## Helper lemmas: chunk keys -/

namespace AwsSso

theorem digitChar_value : ∀ m, m < 10 → (Nat.digitChar m).toNat - 48 = m := by decide

theorem foldl_toDigitsCore (fuel : Nat) : ∀ (n : Nat) (ds : List Char), n < fuel →
    (Nat.toDigitsCore 10 fuel n ds).foldl (fun acc c => acc * 10 + (c.toNat - 48)) 0
      = ds.foldl (fun acc c => acc * 10 + (c.toNat - 48)) n := by
  induction fuel with
  | zero => intro n ds h; omega
  | succ fuel ih =>
    intro n ds h
    have hd : (Nat.digitChar (n % 10)).toNat - 48 = n % 10 :=
      digitChar_value _ (Nat.mod_lt _ (by decide))
    simp only [Nat.toDigitsCore]
    split
    · rename_i h0
      simp only [List.foldl_cons, hd]
      congr 1
      omega
    · rename_i h0
      rw [ih (n / 10) _ (by omega)]
      simp only [List.foldl_cons, hd]
      congr 1
      omega

theorem decimalValue_toString (n : Nat) : decimalValue (toString n).data = n := by
  show decimalValue (Nat.repr n).data = n
  simp only [Nat.repr, List.asString, decimalValue, Nat.toDigits]
  rw [foldl_toDigitsCore (n + 1) n [] (by omega)]
  rfl

theorem toString_nat_injective {i j : Nat} (h : toString i = toString j) : i = j := by
  have := congrArg (fun s => decimalValue s.data) h
  simpa [decimalValue_toString] using this

theorem chunkKey_injective {key : String} {i j : Nat} (h : chunkKey key i = chunkKey key j) :
    i = j := by
  unfold chunkKey at h
  have h2 := congrArg String.data h
  simp only [String.data_append, List.append_assoc, List.append_cancel_left_eq] at h2
  exact toString_nat_injective (String.ext h2)

end AwsSso

/-! ## Helper lemmas: the length prefix -/

namespace AwsSso

theorem WINCRED_MAX_LENGTH_eq : WINCRED_MAX_LENGTH = 2000 := rfl

theorem getBytesFromUINT64_length (n : Nat) : (getBytesFromUINT64 n).length = 8 := rfl

theorem getUINT64FromBytes_getBytes (n : Nat) :
    getUINT64FromBytes (getBytesFromUINT64 n) = uint64 n := by
  simp only [getUINT64FromBytes, getBytesFromUINT64, byteOf, uint64, List.getD_cons_zero,
    List.getD_cons_succ]
  norm_num
  omega

theorem uint64_of_lt {n : Nat} (h : n < 2 ^ 64) : uint64 n = n := Nat.mod_eq_of_lt h

theorem uint64Sub_of_le {a b : Nat} (hb : b ≤ a) (ha : a < 2 ^ 64) : uint64Sub a b = a - b := by
  unfold uint64Sub uint64
  have h64 : (2 : Nat) ^ 64 = 18446744073709551616 := by norm_num
  rw [h64] at ha ⊢
  omega

/-! ## Helper lemmas: the keyring -/

theorem find_filter_ne (l : List Item) (k key : String) (h : key ≠ k) :
    (l.filter (fun it => it.Key != k)).find? (fun it => it.Key == key)
      = l.find? (fun it => it.Key == key) := by
  induction l with
  | nil => rfl
  | cons a l ih =>
    rw [List.filter_cons]
    by_cases hk : a.Key = k
    · have h1 : (a.Key != k) = false := by simp [hk]
      have h2 : (a.Key == key) = false := by
        simp only [beq_eq_false_iff_ne, ne_eq]
        intro e
        exact h (e ▸ hk)
      rw [h1]
      simp only [Bool.false_eq_true, if_false]
      rw [List.find?_cons, h2]
      exact ih
    · have h1 : (a.Key != k) = true := by simp [hk]
      rw [h1]
      simp only [if_true]
      rw [List.find?_cons, List.find?_cons, ih]

theorem Get_put_same (k : MockKeyring) (item : Item) :
    (k.put item).Get item.Key = .ok item := by
  simp [MockKeyring.Get, MockKeyring.put, List.find?_cons]

theorem Get_put_other (k : MockKeyring) (item : Item) (key : String) (h : key ≠ item.Key) :
    (k.put item).Get key = k.Get key := by
  have h2 : (item.Key == key) = false := by
    simp only [beq_eq_false_iff_ne, ne_eq]
    exact fun e => h e.symm
  unfold MockKeyring.Get MockKeyring.put
  simp only []
  rw [List.find?_cons, h2]
  simp only []
  rw [find_filter_ne _ _ _ h]

theorem setStorageData_ok {kr kr1 : KeyringStore} {d : Bytes} {k l : String}
    (h : setStorageData kr d k l = (kr1, none)) :
    kr1 = { kr with keyring := kr.keyring.put ⟨k, d, l, "aws-sso secure storage"⟩ } := by
  unfold setStorageData MockKeyring.Set at h
  split at h
  · simp at h
  · simp only [Prod.mk.injEq, and_true] at h
    exact h.symm

theorem setStorageData_err_ne {kr kr1 : KeyringStore} {d : Bytes} {k l : String}
    {err : StoreError} (h : setStorageData kr d k l = (kr1, some err)) :
    err = .SetFailed := by
  unfold setStorageData MockKeyring.Set at h
  split at h
  · simp only [Prod.mk.injEq, Option.some.injEq] at h
    exact h.2.symm
  · simp at h

end AwsSso

/-! ## Helper lemmas: the writer loop -/

namespace AwsSso

theorem splitInv_start (B : Bytes) (key label : String) (k0 : KeyringStore) :
    SplitInv B key label k0 k0 0 :=
  ⟨by simp, fun j h => absurd h (Nat.not_lt_zero j), fun _ _ => rfl, ⟨rfl, rfl⟩, rfl⟩

theorem splitInv_step {B : Bytes} {key label : String} {k0 kr kr1 : KeyringStore} {i : Nat}
    (inv : SplitInv B key label k0 kr i)
    (h : setStorageData kr (chunkData B i) (chunkKey key i) label = (kr1, none)) :
    SplitInv B key label k0 kr1 (i + 1) := by
  have e := setStorageData_ok h
  subst e
  refine ⟨?_, ?_, ?_, inv.goos, inv.fails⟩
  · show kr.keyring.setCalls ++ [chunkItem B key label i] = _
    rw [inv.calls, List.range_succ, List.map_append, List.append_assoc]
    rfl
  · intro j hj
    show (kr.keyring.put (chunkItem B key label i)).Get (chunkKey key j) = _
    by_cases hji : j = i
    · subst hji
      exact Get_put_same _ (chunkItem B key label j)
    · rw [Get_put_other _ _ _ (fun e => hji (chunkKey_injective e))]
      exact inv.get j (by omega)
  · intro k hk
    show (kr.keyring.put (chunkItem B key label i)).Get k = _
    rw [Get_put_other _ _ _ (hk i (by omega))]
    exact inv.frame k (fun j hj => hk j (by omega))

theorem splitLoop_inv (B : Bytes) (key label : String) (k0 : KeyringStore) :
    ∀ (fuel : Nat) (kr : KeyringStore) (i : Nat) (kr1 : KeyringStore) (remain : Bytes)
      (i1 : Nat),
      SplitInv B key label k0 kr i → i * WINCRED_MAX_LENGTH ≤ B.length →
      splitLoop key label (getBytesFromUINT64 B.length) fuel kr
        (B.drop (i * WINCRED_MAX_LENGTH)) i = (kr1, .ok (remain, i1)) →
      SplitInv B key label k0 kr1 i1 ∧ remain = B.drop (i1 * WINCRED_MAX_LENGTH)
        ∧ remain.length < WINCRED_MAX_LENGTH ∧ i1 * WINCRED_MAX_LENGTH ≤ B.length := by
  intro fuel
  induction fuel with
  | zero =>
    intro kr i kr1 remain i1 inv hb h
    unfold splitLoop at h
    split at h
    · simp at h
    · rename_i hlt
      simp only [Prod.mk.injEq, Except.ok.injEq] at h
      obtain ⟨rfl, rfl, rfl⟩ := h
      exact ⟨inv, rfl, by omega, hb⟩
  | succ fuel ih =>
    intro kr i kr1 remain i1 inv hb h
    unfold splitLoop at h
    split at h
    · rename_i hge
      have hb2 : (i + 1) * WINCRED_MAX_LENGTH ≤ B.length := by
        rw [List.length_drop] at hge
        rw [Nat.add_mul, Nat.one_mul]
        omega
      have hd : (if i = 0 then getBytesFromUINT64 B.length
            ++ List.take WINCRED_MAX_LENGTH (List.drop (i * WINCRED_MAX_LENGTH) B)
          else List.take WINCRED_MAX_LENGTH (List.drop (i * WINCRED_MAX_LENGTH) B))
          = chunkData B i := by
        unfold chunkData
        split <;> simp
      simp only [hd] at h
      split at h
      · simp at h
      · rename_i kr2 hs
        have inv2 := splitInv_step inv hs
        have hdrop : List.drop WINCRED_MAX_LENGTH (List.drop (i * WINCRED_MAX_LENGTH) B)
            = List.drop ((i + 1) * WINCRED_MAX_LENGTH) B := by
          rw [List.drop_drop, Nat.add_mul, Nat.one_mul]
        rw [hdrop] at h
        exact ih kr2 (i + 1) kr1 remain i1 inv2 hb2 h
    · rename_i hlt
      simp only [Prod.mk.injEq, Except.ok.injEq] at h
      obtain ⟨rfl, rfl, rfl⟩ := h
      exact ⟨inv, rfl, by omega, hb⟩

/-- What a successful `splitAndSetStorageData` leaves behind: the entries `0 .. n-1` of
the payload, where `n` is the number of slices of `WINCRED_MAX_LENGTH` bytes that
the payload has. -/
theorem splitAndSet_inv {kr kr1 : KeyringStore} {B : Bytes} {key label : String}
    (h : splitAndSetStorageData kr B key label = (kr1, none)) :
    ∃ n, SplitInv B key label kr kr1 n ∧ ∀ j, j < n ↔ j * WINCRED_MAX_LENGTH < B.length := by
  unfold splitAndSetStorageData at h
  simp only [] at h
  split at h
  · simp at h
  · rename_i kr2 remain i1 hs
    have hs0 : splitLoop key label (getBytesFromUINT64 B.length) B.length kr
        (B.drop (0 * WINCRED_MAX_LENGTH)) 0 = (kr2, .ok (remain, i1)) := by
      rw [Nat.zero_mul, List.drop_zero]
      exact hs
    obtain ⟨inv, hrem, hlt, hb⟩ :=
      splitLoop_inv B key label kr B.length kr 0 kr2 remain i1 (splitInv_start B key label kr)
        (by rw [Nat.zero_mul]; exact Nat.zero_le _) hs0
    have hlen : remain.length = B.length - i1 * WINCRED_MAX_LENGTH := by
      rw [hrem, List.length_drop]
    rw [WINCRED_MAX_LENGTH_eq] at hlt hb hlen
    split at h
    · rename_i hpos
      have hd : (if i1 = 0 then getBytesFromUINT64 B.length ++ remain else remain)
          = chunkData B i1 := by
        unfold chunkData
        rw [← hrem, List.take_of_length_le (by rw [WINCRED_MAX_LENGTH_eq]; omega)]
        split <;> simp
      simp only [hd] at h
      refine ⟨i1 + 1, splitInv_step inv h, fun j => ?_⟩
      rw [WINCRED_MAX_LENGTH_eq]
      omega
    · rename_i hpos
      simp only [Prod.mk.injEq, and_true] at h
      subst h
      refine ⟨i1, inv, fun j => ?_⟩
      rw [WINCRED_MAX_LENGTH_eq]
      omega

/-! ## Helper lemmas: the reader loop -/

theorem getKeyringData_error {kr : KeyringStore} {key : String} {err : StoreError}
    (h : getKeyringData kr key = .error err) : err = .ErrKeyNotFound := by
  unfold getKeyringData MockKeyring.Get at h
  split at h
  · rename_i e hg
    split at hg
    · simp at hg
    · simp only [Except.error.injEq] at hg h
      rw [← h, ← hg]
  · simp at h

theorem getKeyringData_ok {kr : KeyringStore} {key : String} {data : Bytes}
    (h : getKeyringData kr key = .ok data) :
    ∃ it, it ∈ kr.keyring.items ∧ it.Key = key ∧ it.Data = data := by
  unfold getKeyringData MockKeyring.Get at h
  split at h
  · simp at h
  · rename_i it hg
    split at hg
    · rename_i it2 hf
      simp only [Except.ok.injEq] at hg h
      subst hg
      refine ⟨it2, List.mem_of_find?_eq_some hf, ?_, h⟩
      simpa using List.find?_some hf
    · simp at hg

theorem joinLoop_outOfFuel (kr : KeyringStore) (key : String) :
    ∀ (fuel i rem : Nat) (data : Bytes),
      joinLoop kr key fuel i rem data = .error .OutOfFuel →
      ∀ j, i ≤ j → j < i + fuel → ∃ it, it ∈ kr.keyring.items ∧ it.Key = chunkKey key j := by
  intro fuel
  induction fuel with
  | zero => intro i rem data _ j h1 h2; omega
  | succ fuel ih =>
    intro i rem data h j h1 h2
    unfold joinLoop at h
    split at h
    · split at h
      · rename_i err hg
        have := getKeyringData_error hg
        simp only [Except.error.injEq] at h
        subst h
        simp at this
      · rename_i chunk hg
        by_cases hji : j = i
        · subst hji
          obtain ⟨it, hm, hk, _⟩ := getKeyringData_ok hg
          exact ⟨it, hm, hk⟩
        · exact ih _ _ _ h j (by omega) (by omega)
    · simp at h

/-- The fuel that `joinAndGetKeyringData` gives its loop is enough: the loop reads a
different key in every round, and the keyring holds finitely many items. -/
theorem joinLoop_fuel (kr : KeyringStore) (key : String) (i rem : Nat) (data : Bytes) :
    joinLoop kr key (kr.keyring.items.length + 1) i rem data ≠ .error .OutOfFuel := by
  intro h
  have hall := joinLoop_outOfFuel kr key _ i rem data h
  have hnodup : ((List.range (kr.keyring.items.length + 1)).map
      (fun d => chunkKey key (i + d))).Nodup := by
    apply List.Nodup.map _ (List.nodup_range _)
    intro a b hab
    have := chunkKey_injective hab
    omega
  have hsub : ((List.range (kr.keyring.items.length + 1)).map
      (fun d => chunkKey key (i + d))) ⊆ kr.keyring.items.map Item.Key := by
    intro k hk
    simp only [List.mem_map, List.mem_range] at hk
    obtain ⟨d, hd, rfl⟩ := hk
    obtain ⟨it, hm, hkey⟩ := hall (i + d) (by omega) (by omega)
    exact List.mem_map.mpr ⟨it, hm, hkey⟩
  have hle := (List.subperm_of_subset hnodup hsub).length_le
  simp at hle

/-- The fuel that `splitAndSetStorageData` gives its loop is enough: every round takes
`WINCRED_MAX_LENGTH` bytes off `remain`. -/
theorem splitLoop_fuel (key label : String) (p : Bytes) :
    ∀ (fuel : Nat) (kr : KeyringStore) (remain : Bytes) (i : Nat), remain.length ≤ fuel →
      (splitLoop key label p fuel kr remain i).2 ≠ .error .OutOfFuel := by
  intro fuel
  induction fuel with
  | zero =>
    intro kr remain i hle
    unfold splitLoop
    rw [WINCRED_MAX_LENGTH_eq]
    split
    · omega
    · simp
  | succ fuel ih =>
    intro kr remain i hle
    unfold splitLoop
    split
    · rename_i hge
      simp only []
      split
      · rename_i kr2 err hs
        have := setStorageData_err_ne hs
        subst this
        simp
      · apply ih
        rw [List.length_drop]
        rw [WINCRED_MAX_LENGTH_eq] at hge ⊢
        omega
    · simp

theorem splitAndSet_fuel (kr : KeyringStore) (B : Bytes) (key label : String) :
    (splitAndSetStorageData kr B key label).2 ≠ some .OutOfFuel := by
  unfold splitAndSetStorageData
  simp only []
  split
  · rename_i kr2 err hs
    have := splitLoop_fuel key label (getBytesFromUINT64 B.length) B.length kr B 0 (le_refl _)
    rw [hs] at this
    simpa using this
  · split
    · intro h
      have := setStorageData_err_ne (Prod.ext rfl h)
      simp at this
    · simp

/-- The reader loop over a store that holds the entries of `B`: started at entry `i`
with the first `i` slices read, it returns `B`, unless the fuel runs out. -/
theorem joinLoop_written {B : Bytes} {key label : String} {k0 kr : KeyringStore} {n : Nat}
    (inv : SplitInv B key label k0 kr n)
    (hn : ∀ j, j < n ↔ j * WINCRED_MAX_LENGTH < B.length) (hlen : B.length < 2 ^ 64) :
    ∀ (fuel i : Nat), 1 ≤ i →
      joinLoop kr key fuel i (B.length - i * WINCRED_MAX_LENGTH)
          (B.take (i * WINCRED_MAX_LENGTH)) = .ok B
        ∨ joinLoop kr key fuel i (B.length - i * WINCRED_MAX_LENGTH)
          (B.take (i * WINCRED_MAX_LENGTH)) = .error .OutOfFuel := by
  intro fuel
  induction fuel with
  | zero =>
    intro i hi
    unfold joinLoop
    split
    · right; rfl
    · left
      rw [List.take_of_length_le (by omega)]
  | succ fuel ih =>
    intro i hi
    unfold joinLoop
    split
    · rename_i hpos
      have hin : i < n := (hn i).2 (by omega)
      have hget : getKeyringData kr (chunkKey key i)
          = .ok ((B.drop (i * WINCRED_MAX_LENGTH)).take WINCRED_MAX_LENGTH) := by
        unfold getKeyringData
        rw [inv.get i hin]
        have hi0 : i ≠ 0 := by omega
        simp [chunkItem, chunkData, hi0]
      rw [hget]
      simp only []
      have hrem : uint64Sub (B.length - i * WINCRED_MAX_LENGTH)
          ((B.drop (i * WINCRED_MAX_LENGTH)).take WINCRED_MAX_LENGTH).length
          = B.length - (i + 1) * WINCRED_MAX_LENGTH := by
        rw [uint64Sub_of_le (by rw [List.length_take, List.length_drop]; omega) (by omega)]
        rw [List.length_take, List.length_drop, Nat.add_mul, Nat.one_mul]
        omega
      have hdata : B.take (i * WINCRED_MAX_LENGTH)
          ++ (B.drop (i * WINCRED_MAX_LENGTH)).take WINCRED_MAX_LENGTH
          = B.take ((i + 1) * WINCRED_MAX_LENGTH) := by
        rw [Nat.add_mul, Nat.one_mul, List.take_add]
      rw [hrem, hdata]
      exact ih (i + 1) (by omega)
    · left
      rw [List.take_of_length_le (by omega)]

/-- Reading back what `splitAndSetStorageData` has written, for a payload that is not
empty. -/
theorem join_after_split {kr kr1 : KeyringStore} {B : Bytes} {key label : String}
    (hne : B ≠ []) (hlen : B.length < 2 ^ 64)
    (h : splitAndSetStorageData kr B key label = (kr1, none)) :
    joinAndGetKeyringData kr1 key = .ok B := by
  obtain ⟨n, inv, hn⟩ := splitAndSet_inv h
  have hpos : 0 < B.length := List.length_pos.mpr hne
  have h0 : 0 < n := (hn 0).2 (by rw [Nat.zero_mul]; exact hpos)
  have hget : getKeyringData kr1 (chunkKey key 0)
      = .ok (getBytesFromUINT64 B.length ++ B.take WINCRED_MAX_LENGTH) := by
    unfold getKeyringData
    rw [inv.get 0 h0]
    simp [chunkItem, chunkData]
  unfold joinAndGetKeyringData
  rw [hget]
  simp only []
  have htake : (getBytesFromUINT64 B.length ++ B.take WINCRED_MAX_LENGTH).take 8
      = getBytesFromUINT64 B.length := by
    rw [List.take_append_of_le_length (by rw [getBytesFromUINT64_length])]
    exact List.take_of_length_le (by rw [getBytesFromUINT64_length])
  have hdrop : (getBytesFromUINT64 B.length ++ B.take WINCRED_MAX_LENGTH).drop 8
      = B.take WINCRED_MAX_LENGTH := by
    rw [List.drop_append_of_le_length (by rw [getBytesFromUINT64_length])]
    simp [List.drop_of_length_le, getBytesFromUINT64_length]
  have hlen8 : ¬ (getBytesFromUINT64 B.length ++ B.take WINCRED_MAX_LENGTH).length < 8 := by
    rw [List.length_append, getBytesFromUINT64_length]
    omega
  rw [if_neg hlen8, htake, hdrop, getUINT64FromBytes_getBytes, uint64_of_lt hlen]
  have hrem : uint64Sub B.length (B.take WINCRED_MAX_LENGTH).length
      = B.length - 1 * WINCRED_MAX_LENGTH := by
    rw [uint64Sub_of_le (by rw [List.length_take]; omega) hlen, List.length_take, Nat.one_mul]
    omega
  have hdata : ([] : Bytes) ++ B.take WINCRED_MAX_LENGTH
      = B.take (1 * WINCRED_MAX_LENGTH) := by
    rw [Nat.one_mul, List.nil_append]
  rw [hrem, hdata]
  rcases joinLoop_written inv hn hlen (kr1.keyring.items.length + 1) 1 (le_refl _) with hok | hfuel
  · rw [hok]
    simp [uint64_of_lt hlen]
  · exact absurd hfuel (joinLoop_fuel kr1 key _ _ _)

end AwsSso

/-! ## Helper lemmas: the reader returns -/

namespace AwsSso

/-- The reader never ends for lack of fuel: it returns the payload or an error of the
program. -/
theorem joinAndGet_fuel (kr : KeyringStore) (key : String) :
    joinAndGetKeyringData kr key ≠ .error .OutOfFuel := by
  unfold joinAndGetKeyringData
  split
  · rename_i err hg
    rw [getKeyringData_error hg]
    simp
  · split
    · simp
    · simp only []
      split
      · rename_i err hj
        intro h
        simp only [Except.error.injEq] at h
        subst h
        exact joinLoop_fuel kr key _ _ _ hj
      · split <;> simp

end AwsSso

/-! ## Helper lemmas: a keyring whose `Set` always succeeds -/

namespace AwsSso

theorem splitLoop_never_fails (key label : String) (p : Bytes) :
    ∀ (fuel : Nat) (kr : KeyringStore) (remain : Bytes) (i : Nat), remain.length ≤ fuel →
      (∀ it, kr.keyring.setFails it = false) →
      ∃ kr1 remain1 i1, splitLoop key label p fuel kr remain i = (kr1, .ok (remain1, i1))
        ∧ ∀ it, kr1.keyring.setFails it = false := by
  intro fuel
  induction fuel with
  | zero =>
    intro kr remain i hle hf
    unfold splitLoop
    rw [WINCRED_MAX_LENGTH_eq]
    split
    · omega
    · exact ⟨kr, remain, i, rfl, hf⟩
  | succ fuel ih =>
    intro kr remain i hle hf
    unfold splitLoop
    split
    · rename_i hge
      simp only [setStorageData, MockKeyring.Set, hf, Bool.false_eq_true, if_false]
      apply ih
      · rw [List.length_drop]
        rw [WINCRED_MAX_LENGTH_eq] at hge ⊢
        omega
      · exact hf
    · exact ⟨kr, remain, i, rfl, hf⟩

theorem splitAndSet_never_fails (kr : KeyringStore) (B : Bytes) (key label : String)
    (hf : ∀ it, kr.keyring.setFails it = false) :
    (splitAndSetStorageData kr B key label).2 = none := by
  obtain ⟨kr1, remain1, i1, hs, hf1⟩ :=
    splitLoop_never_fails key label (getBytesFromUINT64 B.length) B.length kr B 0 (le_refl _) hf
  unfold splitAndSetStorageData
  simp only [hs]
  split
  · simp only [setStorageData, MockKeyring.Set, hf1, Bool.false_eq_true, if_false]
  · rfl

end AwsSso

/-! ## The chunked representation -/

namespace AwsSso

theorem take_min_length (B : Bytes) (a : Nat) : B.take (min a B.length) = B.take a := by
  rcases Nat.le_total a B.length with h | h
  · rw [Nat.min_eq_left h]
  · rw [Nat.min_eq_right h, List.take_of_length_le h, List.take_of_length_le (le_refl _)]

theorem specEntryData_eq (B : Bytes) (i : Nat) : specEntryData B i = chunkData B i := by
  unfold specEntryData chunkData goSlice
  rw [take_min_length, take_min_length]
  split
  · rename_i h0
    subst h0
    simp
  · rw [List.drop_take, Nat.add_mul, Nat.one_mul, Nat.add_sub_cancel_left]
    simp

theorem specEntry_eq (B : Bytes) (key label : String) :
    specEntry B key label = chunkItem B key label := by
  funext i
  simp [specEntry, chunkItem, specEntryData_eq]

theorem chunkData_length (B : Bytes) (i : Nat) :
    (chunkData B i).length
      = (if i = 0 then 8 else 0) + min 2000 (B.length - i * 2000) := by
  unfold chunkData
  rw [List.length_append, List.length_take, List.length_drop, WINCRED_MAX_LENGTH_eq]
  split <;> simp [getBytesFromUINT64_length]

end AwsSso

/-! ## The chunked write and read -/

namespace AwsSso

/-- C1, as stated, fails for the empty payload: `splitAndSetStorageData` succeeds
without a single `Set`, so on a keyring that held nothing the read fails, and on a
keyring that held the chunks of `[1, 2, 3]` the read returns `[1, 2, 3]`, not the empty
payload. -/
theorem split_join_empty_payload :
    (splitAndSetStorageData emptyWindowsStore [] RECORD_KEY KEYRING_ID).2 = none
    ∧ joinAndGetKeyringData
        (splitAndSetStorageData emptyWindowsStore [] RECORD_KEY KEYRING_ID).1 RECORD_KEY
      = .error .ErrKeyNotFound
    ∧ (splitAndSetStorageData
        (splitAndSetStorageData emptyWindowsStore [1, 2, 3] RECORD_KEY KEYRING_ID).1 []
        RECORD_KEY KEYRING_ID).2 = none
    ∧ joinAndGetKeyringData
        (splitAndSetStorageData
          (splitAndSetStorageData emptyWindowsStore [1, 2, 3] RECORD_KEY KEYRING_ID).1 []
          RECORD_KEY KEYRING_ID).1 RECORD_KEY
      = .ok [1, 2, 3] := by
  decide

/-- C1, amended: for every payload `B` that is not empty (and whose length fits an
`uint64`, as the length of every Go slice does) and every prior content of the
keyring, if `splitAndSetStorageData B key label` succeeds then
`joinAndGetKeyringData key` on the resulting keyring succeeds and returns `B`. -/
theorem split_join_roundtrip (kr : KeyringStore) (B : Bytes) (key label : String)
    (hne : B ≠ []) (hlen : B.length < 2 ^ 64)
    (h : (splitAndSetStorageData kr B key label).2 = none) :
    joinAndGetKeyringData (splitAndSetStorageData kr B key label).1 key = .ok B :=
  join_after_split hne hlen (Prod.ext rfl h)

theorem split_join_roundtrip_witness :
    joinAndGetKeyringData
      (splitAndSetStorageData emptyWindowsStore [1, 2, 3] RECORD_KEY KEYRING_ID).1 RECORD_KEY
      = .ok [1, 2, 3] :=
  split_join_roundtrip emptyWindowsStore [1, 2, 3] RECORD_KEY KEYRING_ID (by decide)
    (by decide) (by decide)

/-- C4, as stated, fails: for a payload of 5001 bytes the entries handed to the
keyring hold 2008, 2000 and 1001 bytes, so entry `_0` holds more than
`WINCRED_MAX_LENGTH` bytes and the sizes are not 8+1992, 2000 and 1009. -/
theorem split_5001_entry_sizes :
    (splitAndSetStorageData emptyWindowsStore (List.replicate 5001 0) RECORD_KEY
        KEYRING_ID).2 = none
    ∧ (splitAndSetStorageData emptyWindowsStore (List.replicate 5001 0) RECORD_KEY
        KEYRING_ID).1.keyring.setCalls.map (fun it => (it.Key, it.Data.length))
      = [("aws-sso-cli-records_0", 2008), ("aws-sso-cli-records_1", 2000),
         ("aws-sso-cli-records_2", 1001)] := by
  have hok := splitAndSet_never_fails emptyWindowsStore (List.replicate 5001 0) RECORD_KEY
    KEYRING_ID (fun _ => rfl)
  refine ⟨hok, ?_⟩
  obtain ⟨n, inv, hn⟩ := splitAndSet_inv (Prod.ext rfl hok)
  have h2 := hn 2
  have h3 := hn 3
  rw [WINCRED_MAX_LENGTH_eq, List.length_replicate] at h2 h3
  have hn3 : n = 3 := by omega
  subst hn3
  rw [inv.calls]
  simp only [emptyWindowsStore, emptyKeyring, List.nil_append, List.map_map]
  simp only [List.range_succ, List.range_zero, List.nil_append, List.cons_append, List.map_cons,
    List.map_nil, Function.comp, chunkItem, chunkData_length, List.length_replicate]
  decide

/-- C4, amended: every entry that a successful `splitAndSetStorageData` hands to the
keyring holds at most `WINCRED_MAX_LENGTH` = 2000 bytes of the payload; entry `_0`
holds the 8-byte length prefix on top of them, so at most 2008 bytes, and every
other entry at most 2000 bytes. A payload of 5001 bytes is written as the entries
`_0`, `_1`, `_2` of 8+2000, 2000 and 1001 bytes. -/
theorem split_entry_sizes (kr : KeyringStore) (B : Bytes) (key label : String)
    (h : (splitAndSetStorageData kr B key label).2 = none) :
    ∃ new : List Item,
      (splitAndSetStorageData kr B key label).1.keyring.setCalls
        = kr.keyring.setCalls ++ new
      ∧ (∀ it ∈ new, it.Data.length ≤ 8 + WINCRED_MAX_LENGTH)
      ∧ (∀ it ∈ new, it.Key ≠ chunkKey key 0 → it.Data.length ≤ WINCRED_MAX_LENGTH)
      ∧ (B.length = 5001 → new.map (fun it => (it.Key, it.Data.length))
          = [(chunkKey key 0, 8 + 2000), (chunkKey key 1, 2000), (chunkKey key 2, 1001)]) := by
  obtain ⟨n, inv, hn⟩ := splitAndSet_inv (Prod.ext rfl h)
  refine ⟨(List.range n).map (chunkItem B key label), inv.calls, ?_, ?_, ?_⟩
  · intro it hit
    obtain ⟨i, _, rfl⟩ := List.mem_map.mp hit
    show (chunkData B i).length ≤ _
    rw [chunkData_length, WINCRED_MAX_LENGTH_eq]
    split <;> omega
  · intro it hit hkey
    obtain ⟨i, _, rfl⟩ := List.mem_map.mp hit
    have hi : i ≠ 0 := fun e => hkey (by rw [e]; rfl)
    show (chunkData B i).length ≤ _
    rw [chunkData_length, WINCRED_MAX_LENGTH_eq, if_neg hi]
    omega
  · intro hB
    have h2 := hn 2
    have h3 := hn 3
    rw [WINCRED_MAX_LENGTH_eq, hB] at h2 h3
    have hn3 : n = 3 := by omega
    subst hn3
    simp only [List.range_succ, List.range_zero, List.nil_append, List.cons_append,
      List.map_cons, List.map_nil, chunkItem, chunkData_length, hB]
    norm_num

theorem split_entry_sizes_witness :
    ∃ new : List Item,
      (splitAndSetStorageData emptyWindowsStore [1, 2, 3] RECORD_KEY
          KEYRING_ID).1.keyring.setCalls = emptyWindowsStore.keyring.setCalls ++ new
      ∧ (∀ it ∈ new, it.Data.length ≤ 8 + WINCRED_MAX_LENGTH)
      ∧ (∀ it ∈ new, it.Key ≠ chunkKey RECORD_KEY 0 → it.Data.length ≤ WINCRED_MAX_LENGTH)
      ∧ (([1, 2, 3] : Bytes).length = 5001 → new.map (fun it => (it.Key, it.Data.length))
          = [(chunkKey RECORD_KEY 0, 8 + 2000), (chunkKey RECORD_KEY 1, 2000),
             (chunkKey RECORD_KEY 2, 1001)]) :=
  split_entry_sizes emptyWindowsStore [1, 2, 3] RECORD_KEY KEYRING_ID (by decide)

/-- C5, as stated, fails for the empty payload: `splitAndSetStorageData` succeeds and
hands no entry to the keyring, so entry `_0` is not set to `be_uint64(0)`. -/
theorem split_empty_payload_sets_nothing :
    (splitAndSetStorageData emptyWindowsStore [] RECORD_KEY KEYRING_ID).2 = none
    ∧ (splitAndSetStorageData emptyWindowsStore [] RECORD_KEY KEYRING_ID).1.keyring.setCalls
      = []
    ∧ specEntry [] RECORD_KEY KEYRING_ID 0
      ∉ (splitAndSetStorageData emptyWindowsStore [] RECORD_KEY KEYRING_ID).1.keyring.setCalls
    ∧ (splitAndSetStorageData emptyWindowsStore [] RECORD_KEY
        KEYRING_ID).1.keyring.Get (chunkKey RECORD_KEY 0) = .error .ErrKeyNotFound := by
  decide

/-- C5, amended: for every payload `B` that is not empty, a successful
`splitAndSetStorageData B key label` hands to the keyring exactly the entries
`key_0 .. key_(n-1)`, in this order, where `key_0` holds `be_uint64(|B|)` followed by
`B[0 : min(MAX, |B|)]`, `key_i` for `i ≥ 1` holds `B[i*MAX : min((i+1)*MAX, |B|)]`, and
the entries `i ≥ 1` that are set are those with `i*MAX < |B|`; each entry is then
what the keyring holds under its key. -/
theorem split_entries (kr : KeyringStore) (B : Bytes) (key label : String) (hne : B ≠ [])
    (h : (splitAndSetStorageData kr B key label).2 = none) :
    ∃ n, 0 < n ∧ (∀ i, 1 ≤ i → (i < n ↔ i * WINCRED_MAX_LENGTH < B.length))
      ∧ (splitAndSetStorageData kr B key label).1.keyring.setCalls
        = kr.keyring.setCalls ++ (List.range n).map (specEntry B key label)
      ∧ ∀ i, i < n → (splitAndSetStorageData kr B key label).1.keyring.Get (chunkKey key i)
          = .ok (specEntry B key label i) := by
  obtain ⟨n, inv, hn⟩ := splitAndSet_inv (Prod.ext rfl h)
  have hpos : 0 < B.length := List.length_pos.mpr hne
  refine ⟨n, (hn 0).2 (by rw [Nat.zero_mul]; exact hpos), fun i _ => hn i, ?_, ?_⟩
  · rw [specEntry_eq]
    exact inv.calls
  · intro i hi
    rw [specEntry_eq]
    exact inv.get i hi

theorem split_entries_witness :
    ∃ n, 0 < n ∧ (∀ i, 1 ≤ i → (i < n ↔ i * WINCRED_MAX_LENGTH < ([1, 2, 3] : Bytes).length))
      ∧ (splitAndSetStorageData emptyWindowsStore [1, 2, 3] RECORD_KEY
          KEYRING_ID).1.keyring.setCalls
        = emptyWindowsStore.keyring.setCalls
          ++ (List.range n).map (specEntry [1, 2, 3] RECORD_KEY KEYRING_ID)
      ∧ ∀ i, i < n →
          (splitAndSetStorageData emptyWindowsStore [1, 2, 3] RECORD_KEY
            KEYRING_ID).1.keyring.Get (chunkKey RECORD_KEY i)
          = .ok (specEntry [1, 2, 3] RECORD_KEY KEYRING_ID i) :=
  split_entries emptyWindowsStore [1, 2, 3] RECORD_KEY KEYRING_ID (by decide) (by decide)

end AwsSso

/-! ## The stored record: save, get, delete -/

namespace AwsSso

theorem getMyGOOS_congr {a b : KeyringStore} (h1 : a.myGOOS = b.myGOOS)
    (h2 : a.runtimeGOOS = b.runtimeGOOS) : getMyGOOS a = getMyGOOS b := by
  unfold getMyGOOS
  rw [h1, h2]

/-- After a successful `saveStorageData` of a record that the codec inverts,
`getStorageData` returns the record, on the single-key and on the chunked path. -/
theorem getStorageData_after_save {R T C : Type} (cd : Codec R T C) (kr : KeyringStore)
    (s : StorageData R T C) (hinv : cd.Inverts s) (h : (saveStorageData cd kr s).2 = none) :
    getStorageData cd (saveStorageData cd kr s).1 = .ok s := by
  by_cases hw : getMyGOOS kr = "windows"
  · have hsave : saveStorageData cd kr s
        = splitAndSetStorageData kr (cd.Marshal s) RECORD_KEY KEYRING_ID := by
      unfold saveStorageData
      simp only [hw, if_true]
    rw [hsave] at h ⊢
    obtain ⟨n, inv, _⟩ := splitAndSet_inv (Prod.ext rfl h)
    have hg : getMyGOOS (splitAndSetStorageData kr (cd.Marshal s) RECORD_KEY KEYRING_ID).1
        = "windows" := by
      rw [getMyGOOS_congr inv.goos.1 inv.goos.2]
      exact hw
    have hj := join_after_split hinv.2.1 hinv.2.2 (Prod.ext rfl h)
    unfold getStorageData
    simp only [hg, if_true, hj]
    exact hinv.1
  · have hsave : saveStorageData cd kr s
        = setStorageData kr (cd.Marshal s) RECORD_KEY KEYRING_ID := by
      unfold saveStorageData
      simp only [hw, if_false]
    rw [hsave] at h ⊢
    have e : (setStorageData kr (cd.Marshal s) RECORD_KEY KEYRING_ID).1
        = { kr with
            keyring := kr.keyring.put ⟨RECORD_KEY, cd.Marshal s, KEYRING_ID, "aws-sso secure storage"⟩ } :=
      setStorageData_ok (Prod.ext rfl h)
    have hg : getMyGOOS (setStorageData kr (cd.Marshal s) RECORD_KEY KEYRING_ID).1
        ≠ "windows" := by
      rw [e]
      exact hw
    have hk : getKeyringData (setStorageData kr (cd.Marshal s) RECORD_KEY KEYRING_ID).1
        RECORD_KEY = .ok (cd.Marshal s) := by
      rw [e]
      unfold getKeyringData
      have := Get_put_same kr.keyring
        ⟨RECORD_KEY, cd.Marshal s, KEYRING_ID, "aws-sso secure storage"⟩
      simp only [] at this ⊢
      rw [this]
    unfold getStorageData
    simp only [hg, if_false, hk]
    exact hinv.1

/-- C2: for each of the three families, if `Save(k, v)` returns no error, the `Get(k)`
that follows returns no error and yields `v`, on the single-key path and on the
chunked path, when decoding inverts encoding at the record that `Save` writes (the
record `s` that was stored before, with `v` under `k`). -/
theorem save_get_roundtrip {R T C : Type} (cd : Codec R T C) (kr : KeyringStore)
    (s : StorageData R T C) (hs : getStorageData cd kr = .ok s) :
    (∀ (region : String) (client : R),
      cd.Inverts (s.setRegisterClientData (RegisterClientKey region) client) →
      (SaveRegisterClientData cd kr region client).2 = none →
      GetRegisterClientData cd (SaveRegisterClientData cd kr region client).1 region
        = .ok client)
    ∧ (∀ (key : String) (token : T),
      cd.Inverts (s.setCreateTokenResponse (CreateTokenResponseKey key) token) →
      (SaveCreateTokenResponse cd kr key token).2 = none →
      GetCreateTokenResponse cd (SaveCreateTokenResponse cd kr key token).1 key = .ok token)
    ∧ (∀ (arn : String) (token : C),
      cd.Inverts (s.setRoleCredentials arn token) →
      (SaveRoleCredentials cd kr arn token).2 = none →
      GetRoleCredentials cd (SaveRoleCredentials cd kr arn token).1 arn = .ok token) := by
  refine ⟨?_, ?_, ?_⟩
  · intro region client hinv
    unfold SaveRegisterClientData GetRegisterClientData
    simp only [hs]
    intro h
    rw [getStorageData_after_save cd kr _ hinv h]
    simp [StorageData.setRegisterClientData, StorageData.setCreateTokenResponse,
      StorageData.setRoleCredentials]
  · intro key token hinv
    unfold SaveCreateTokenResponse GetCreateTokenResponse
    simp only [hs]
    intro h
    rw [getStorageData_after_save cd kr _ hinv h]
    simp [StorageData.setRegisterClientData, StorageData.setCreateTokenResponse,
      StorageData.setRoleCredentials]
  · intro arn token hinv
    unfold SaveRoleCredentials GetRoleCredentials
    simp only [hs]
    intro h
    rw [getStorageData_after_save cd kr _ hinv h]
    simp [StorageData.setRegisterClientData, StorageData.setCreateTokenResponse,
      StorageData.setRoleCredentials]

theorem sampleCodec_inverts_registration :
    sampleCodec.Inverts ((NewStorageData : StorageData Nat Nat Nat).setRegisterClientData
      (RegisterClientKey sampleRegion) 7) := by
  refine ⟨?_, by decide, by decide⟩
  simp [sampleCodec, NewStorageData, sampleEnc, sampleDec, byteOf,
    StorageData.setRegisterClientData]
  rfl

theorem save_get_roundtrip_witness :
    getStorageData sampleCodec emptyWindowsStore = .ok NewStorageData
    ∧ (SaveRegisterClientData sampleCodec emptyWindowsStore sampleRegion 7).2 = none
    ∧ GetRegisterClientData sampleCodec
        (SaveRegisterClientData sampleCodec emptyWindowsStore sampleRegion 7).1 sampleRegion
      = .ok 7 :=
  ⟨rfl, by decide,
    (save_get_roundtrip sampleCodec emptyWindowsStore NewStorageData rfl).1 sampleRegion 7
      sampleCodec_inverts_registration (by decide)⟩

/-- The three `Delete` functions return the store they were given, whatever it holds. -/
theorem delete_store_unchanged {R T C : Type} (cd : Codec R T C) (kr : KeyringStore)
    (k : String) :
    (DeleteRegisterClientData cd kr k).1 = kr ∧ (DeleteCreateTokenResponse cd kr k).1 = kr
      ∧ (DeleteRoleCredentials cd kr k).1 = kr := by
  refine ⟨?_, ?_, ?_⟩
  · unfold DeleteRegisterClientData
    split
    · rfl
    · simp only []
      split <;> rfl
  · unfold DeleteCreateTokenResponse
    split
    · rfl
    · simp only []
      split <;> rfl
  · unfold DeleteRoleCredentials
    split
    · rfl
    · split <;> rfl

/-- C3, the code at a failing input: in each family, on a store that holds a record
under the key (it was saved there, and `Get` returns it), `Delete` returns no error
and the `Get` that follows still returns the record instead of failing. -/
theorem delete_keeps_record :
    (GetRegisterClientData sampleCodec
        (SaveRegisterClientData sampleCodec emptyLinuxStore sampleRegion 7).1 sampleRegion
      = .ok 7
      ∧ (DeleteRegisterClientData sampleCodec
          (SaveRegisterClientData sampleCodec emptyLinuxStore sampleRegion 7).1
          sampleRegion).2 = none
      ∧ GetRegisterClientData sampleCodec
          (DeleteRegisterClientData sampleCodec
            (SaveRegisterClientData sampleCodec emptyLinuxStore sampleRegion 7).1
            sampleRegion).1 sampleRegion
        = .ok 7)
    ∧ (GetCreateTokenResponse sampleCodec
        (SaveCreateTokenResponse sampleCodec emptyLinuxStore sampleTokenKey 8).1 sampleTokenKey
      = .ok 8
      ∧ (DeleteCreateTokenResponse sampleCodec
          (SaveCreateTokenResponse sampleCodec emptyLinuxStore sampleTokenKey 8).1
          sampleTokenKey).2 = none
      ∧ GetCreateTokenResponse sampleCodec
          (DeleteCreateTokenResponse sampleCodec
            (SaveCreateTokenResponse sampleCodec emptyLinuxStore sampleTokenKey 8).1
            sampleTokenKey).1 sampleTokenKey
        = .ok 8)
    ∧ (GetRoleCredentials sampleCodec
        (SaveRoleCredentials sampleCodec emptyWindowsStore sampleArn 9).1 sampleArn
      = .ok 9
      ∧ (DeleteRoleCredentials sampleCodec
          (SaveRoleCredentials sampleCodec emptyWindowsStore sampleArn 9).1 sampleArn).2 = none
      ∧ GetRoleCredentials sampleCodec
          (DeleteRoleCredentials sampleCodec
            (SaveRoleCredentials sampleCodec emptyWindowsStore sampleArn 9).1 sampleArn).1
          sampleArn
        = .ok 9) := by
  decide

/-- C6, the code at failing inputs: on the chunked path, when entry `_0` is shorter
than 8 bytes, when a needed chunk is missing, and when entry `_0` holds more bytes
than its length prefix announces, `joinAndGetKeyringData` fails, yet `getStorageData`
returns no error and the empty record; `Get` then fails with the error of a record
that is absent, and `Save` succeeds. -/
theorem corrupt_store_read_as_empty :
    joinAndGetKeyringData shortEntryStore RECORD_KEY
      = .error (.Errorf "Invalid stored data in wincred. There\x27s not enough data")
    ∧ joinAndGetKeyringData missingChunkStore RECORD_KEY = .error .ErrKeyNotFound
    ∧ joinAndGetKeyringData overlongEntryStore RECORD_KEY = .error .ErrKeyNotFound
    ∧ getStorageData sampleCodec shortEntryStore = .ok NewStorageData
    ∧ getStorageData sampleCodec missingChunkStore = .ok NewStorageData
    ∧ getStorageData sampleCodec overlongEntryStore = .ok NewStorageData
    ∧ GetRegisterClientData sampleCodec shortEntryStore sampleRegion
      = .error (.Errorf "No RegisterClientData for us-east-1")
    ∧ (SaveRegisterClientData sampleCodec shortEntryStore sampleRegion 7).2 = none
    ∧ (DeleteRegisterClientData sampleCodec missingChunkStore sampleRegion).2
      = some (.Errorf "Missing RegisterClientData for region: us-east-1") := by
  refine ⟨by decide, by decide, by decide, rfl, rfl, rfl, by decide, by decide, by decide⟩

theorem Get_not_found (k : MockKeyring) (key : String)
    (h : ∀ it ∈ k.items, it.Key ≠ key) : k.Get key = .error .ErrKeyNotFound := by
  unfold MockKeyring.Get
  have hnone : k.items.find? (fun it => it.Key == key) = none :=
    List.find?_eq_none.mpr (fun it hit => by simpa using h it hit)
  rw [hnone]

/-- C7: when the keyring holds no entry under the record key (`aws-sso-cli-records` on
the single-key path, `aws-sso-cli-records_0` on the chunked path), `getStorageData`
returns no error and yields the record of `NewStorageData`, whose three mappings are
empty. -/
theorem getStorageData_no_entry {R T C : Type} (cd : Codec R T C) (kr : KeyringStore) :
    (getMyGOOS kr ≠ "windows" → (∀ it ∈ kr.keyring.items, it.Key ≠ RECORD_KEY) →
      getStorageData cd kr = .ok NewStorageData)
    ∧ (getMyGOOS kr = "windows" →
      (∀ it ∈ kr.keyring.items, it.Key ≠ chunkKey RECORD_KEY 0) →
      getStorageData cd kr = .ok NewStorageData)
    ∧ (∀ k : String, (NewStorageData : StorageData R T C).RegisterClientData k = none
      ∧ (NewStorageData : StorageData R T C).CreateTokenResponse k = none
      ∧ (NewStorageData : StorageData R T C).RoleCredentials k = none) := by
  refine ⟨?_, ?_, fun k => ⟨rfl, rfl, rfl⟩⟩
  · intro hw hno
    unfold getStorageData
    simp only [hw, if_false]
    unfold getKeyringData
    rw [Get_not_found _ _ hno]
  · intro hw hno
    unfold getStorageData
    simp only [hw, if_true]
    unfold joinAndGetKeyringData getKeyringData
    rw [Get_not_found _ _ hno]

theorem getStorageData_no_entry_witness :
    getStorageData sampleCodec emptyLinuxStore = .ok NewStorageData
    ∧ getStorageData sampleCodec emptyWindowsStore = .ok NewStorageData :=
  ⟨(getStorageData_no_entry sampleCodec emptyLinuxStore).1 (by decide)
      (fun it hit => by simp [emptyLinuxStore, emptyKeyring] at hit),
   (getStorageData_no_entry sampleCodec emptyWindowsStore).2.1 (by decide)
      (fun it hit => by simp [emptyWindowsStore, emptyKeyring] at hit)⟩

end AwsSso

/-! ## The `exec` command -/

namespace AwsSso

theorem lookup_isSome_of_mem (l : List (String × String)) (v val : String)
    (h : (v, val) ∈ l) : (l.lookup v).isSome := by
  induction l with
  | nil => simp at h
  | cons a l ih =>
    obtain ⟨k, x⟩ := a
    by_cases hk : v = k
    · subst hk
      simp [List.lookup]
    · have hmem : (v, val) ∈ l := by
        rcases List.mem_cons.mp h with e | e
        · exact absurd (congrArg Prod.fst e) hk
        · exact e
      have hbeq : (v == k) = false := by simpa using hk
      simp only [List.lookup, hbeq]
      exact ih hmem

/-- C8: `checkAwsEnvironment` returns an error if and only if one of
`AWS_ACCESS_KEY_ID`, `AWS_SECRET_ACCESS_KEY`, `AWS_PROFILE` is present in the
environment (whatever its value, the empty one included); the error names the first
of them that is present, in this order; and `Run` then ends the process with this
error, without a call of `doAuth` and without reaching `execCmd`. -/
theorem checkAwsEnvironment_conflict (p : Process)
    (ParseRoleARN : String → Except String (Int × String)) (ctx : RunContext) :
    ((checkAwsEnvironment p).isSome ↔
      ((LookupEnv p "AWS_ACCESS_KEY_ID").isSome ∨ (LookupEnv p "AWS_SECRET_ACCESS_KEY").isSome
        ∨ (LookupEnv p "AWS_PROFILE").isSome))
    ∧ (∀ v val : String, (v, val) ∈ p.Environ → (LookupEnv p v).isSome)
    ∧ ((LookupEnv p "AWS_ACCESS_KEY_ID").isSome →
      checkAwsEnvironment p = some (conflictError "AWS_ACCESS_KEY_ID"))
    ∧ (LookupEnv p "AWS_ACCESS_KEY_ID" = none → (LookupEnv p "AWS_SECRET_ACCESS_KEY").isSome →
      checkAwsEnvironment p = some (conflictError "AWS_SECRET_ACCESS_KEY"))
    ∧ (LookupEnv p "AWS_ACCESS_KEY_ID" = none → LookupEnv p "AWS_SECRET_ACCESS_KEY" = none →
      (LookupEnv p "AWS_PROFILE").isSome →
      checkAwsEnvironment p = some (conflictError "AWS_PROFILE"))
    ∧ (∀ err, checkAwsEnvironment p = some err →
      Run p ParseRoleARN ctx = { doAuthCalls := 0, outcome := .fatal err }) := by
  refine ⟨?_, fun v val h => lookup_isSome_of_mem _ v val h, ?_, ?_, ?_, ?_⟩
  · unfold checkAwsEnvironment
    simp only [checkAwsEnvironmentLoop]
    cases LookupEnv p "AWS_ACCESS_KEY_ID" <;> cases LookupEnv p "AWS_SECRET_ACCESS_KEY"
      <;> cases LookupEnv p "AWS_PROFILE" <;> simp
  · intro h
    unfold checkAwsEnvironment
    simp only [checkAwsEnvironmentLoop]
    cases hA : LookupEnv p "AWS_ACCESS_KEY_ID" with
    | none => rw [hA] at h; simp at h
    | some _ => rfl
  · intro hA h
    unfold checkAwsEnvironment
    simp only [checkAwsEnvironmentLoop, hA]
    cases hS : LookupEnv p "AWS_SECRET_ACCESS_KEY" with
    | none => rw [hS] at h; simp at h
    | some _ => rfl
  · intro hA hS h
    unfold checkAwsEnvironment
    simp only [checkAwsEnvironmentLoop, hA, hS]
    cases hP : LookupEnv p "AWS_PROFILE" with
    | none => rw [hP] at h; simp at h
    | some _ => rfl
  · intro err h
    unfold Run
    rw [h]

theorem checkAwsEnvironment_conflict_witness :
    (LookupEnv conflictProcess "AWS_PROFILE").isSome
    ∧ checkAwsEnvironment conflictProcess = some (conflictError "AWS_PROFILE")
    ∧ Run conflictProcess sampleParseRoleARN (sampleContext { noArgs with Arn := sampleArn })
      = { doAuthCalls := 0, outcome := .fatal (conflictError "AWS_PROFILE") } :=
  ⟨by decide,
   (checkAwsEnvironment_conflict conflictProcess sampleParseRoleARN
      (sampleContext { noArgs with Arn := sampleArn })).2.2.2.2.1 (by decide) (by decide)
      (by decide),
   (checkAwsEnvironment_conflict conflictProcess sampleParseRoleARN
      (sampleContext { noArgs with Arn := sampleArn })).2.2.2.2.2 _ (by decide)⟩

/-- C9: when the environment check passes, `Run` resolves the role by precedence. With
a profile given, the (account, role) handed to `execCmd` is the one of the role that
`GetRoleByProfile` returns for the profile; otherwise, with an ARN given, the one that
`ParseRoleARN` returns for the ARN; otherwise, with an account or a role given, the
pair itself when both are given. Two runs over the same settings that agree on the
input of highest precedence hand the same (account, role) to `execCmd`, whatever
their inputs of lower precedence are. -/
theorem run_precedence (p : Process) (ParseRoleARN : String → Except String (Int × String))
    (ctx : RunContext) (h : checkAwsEnvironment p = none) :
    (ctx.Cli.Exec.Profile ≠ "" →
      (Run p ParseRoleARN ctx).outcome.target
        = (ctx.Settings.GetRoleByProfile ctx.Cli.Exec.Profile).toOption.map
            (fun rFlat => (rFlat.AccountId, rFlat.RoleName)))
    ∧ (ctx.Cli.Exec.Profile = "" → ctx.Cli.Exec.Arn ≠ "" →
      (Run p ParseRoleARN ctx).outcome.target = (ParseRoleARN ctx.Cli.Exec.Arn).toOption)
    ∧ (ctx.Cli.Exec.Profile = "" → ctx.Cli.Exec.Arn = "" →
      ctx.Cli.Exec.AccountId ≠ 0 → ctx.Cli.Exec.Role ≠ "" →
      (Run p ParseRoleARN ctx).outcome.target
        = some (ctx.Cli.Exec.AccountId, ctx.Cli.Exec.Role))
    ∧ (∀ (p2 : Process) (ctx2 : RunContext), checkAwsEnvironment p2 = none →
      ctx2.Settings = ctx.Settings → ctx.Cli.Exec.Profile ≠ "" →
      ctx2.Cli.Exec.Profile = ctx.Cli.Exec.Profile →
      (Run p2 ParseRoleARN ctx2).outcome.target = (Run p ParseRoleARN ctx).outcome.target)
    ∧ (∀ (p2 : Process) (ctx2 : RunContext), checkAwsEnvironment p2 = none →
      ctx.Cli.Exec.Profile = "" → ctx2.Cli.Exec.Profile = "" → ctx.Cli.Exec.Arn ≠ "" →
      ctx2.Cli.Exec.Arn = ctx.Cli.Exec.Arn →
      (Run p2 ParseRoleARN ctx2).outcome.target
        = (Run p ParseRoleARN ctx).outcome.target) := by
  have hprofile : ∀ (q : Process) (c : RunContext), checkAwsEnvironment q = none →
      c.Cli.Exec.Profile ≠ "" →
      (Run q ParseRoleARN c).outcome.target
        = (c.Settings.GetRoleByProfile c.Cli.Exec.Profile).toOption.map
            (fun rFlat => (rFlat.AccountId, rFlat.RoleName)) := by
    intro q c hq hp
    unfold Run
    rw [hq]
    by_cases hwin : q.GOOS = "windows" ∧ c.Cli.Exec.Cmd = ""
    · simp only [hwin, and_self, if_true, ne_eq, hp, not_false_eq_true]
      cases c.Settings.GetRoleByProfile c.Cli.Exec.Profile <;> rfl
    · simp only [hwin, if_false, ne_eq, hp, not_false_eq_true, if_true]
      cases c.Settings.GetRoleByProfile c.Cli.Exec.Profile <;> rfl
  have harn : ∀ (q : Process) (c : RunContext), checkAwsEnvironment q = none →
      c.Cli.Exec.Profile = "" → c.Cli.Exec.Arn ≠ "" →
      (Run q ParseRoleARN c).outcome.target = (ParseRoleARN c.Cli.Exec.Arn).toOption := by
    intro q c hq hp ha
    unfold Run
    rw [hq]
    by_cases hwin : q.GOOS = "windows" ∧ c.Cli.Exec.Cmd = ""
    · simp only [hwin, and_self, if_true, ne_eq, hp, not_true_eq_false, if_false, ha,
        not_false_eq_true]
      cases ParseRoleARN c.Cli.Exec.Arn <;> rfl
    · simp only [hwin, if_false, ne_eq, hp, not_true_eq_false, ha, not_false_eq_true, if_true]
      cases ParseRoleARN c.Cli.Exec.Arn <;> rfl
  refine ⟨hprofile p ctx h, harn p ctx h, ?_, ?_, ?_⟩
  · intro hp ha hacc hrole
    unfold Run
    rw [h]
    by_cases hwin : p.GOOS = "windows" ∧ ctx.Cli.Exec.Cmd = ""
    · simp [hwin, hp, ha, hacc, hrole, RunOutcome.target]
    · simp [hwin, hp, ha, hacc, hrole, RunOutcome.target]
  · intro p2 ctx2 h2 hset hp hp2
    rw [hprofile p ctx h hp, hprofile p2 ctx2 h2 (by rw [hp2]; exact hp), hset, hp2]
  · intro p2 ctx2 h2 hp hp2 ha ha2
    rw [harn p ctx h hp ha, harn p2 ctx2 h2 hp2 (by rw [ha2]; exact ha), ha2]

theorem run_precedence_witness :
    (Run sampleProcess sampleParseRoleARN
        (sampleContext { noArgs with Profile := "prod", Arn := "arn:aws:iam::7:role/x",
                                      AccountId := 5, Role := "reader" })).outcome.target
      = some (42, "admin") :=
  (run_precedence sampleProcess sampleParseRoleARN
    (sampleContext { noArgs with Profile := "prod", Arn := "arn:aws:iam::7:role/x",
                                  AccountId := 5, Role := "reader" }) (by decide)).1 (by decide)

/-- C10, as stated, fails: with a profile given (or an ARN), a run in which exactly one
of the account and the role is given calls `doAuth` and reaches `execCmd`; it
returns no error. -/
theorem run_partial_pair_with_profile :
    (Run sampleProcess sampleParseRoleARN
        (sampleContext { noArgs with Profile := "prod", AccountId := 5 })).doAuthCalls = 1
    ∧ (Run sampleProcess sampleParseRoleARN
        (sampleContext { noArgs with Profile := "prod", AccountId := 5 })).outcome.target
      = some (42, "admin")
    ∧ (Run sampleProcess sampleParseRoleARN
        (sampleContext { noArgs with Profile := "prod", AccountId := 5 })).outcome.returned
      = none
    ∧ (Run sampleProcess sampleParseRoleARN
        (sampleContext { noArgs with Arn := sampleArn, Role := "reader" })).doAuthCalls = 1
    ∧ (Run sampleProcess sampleParseRoleARN
        (sampleContext { noArgs with Arn := sampleArn, Role := "reader" })).outcome.target
      = some (42, "admin") := by
  decide

/-- C10, amended: when the environment check passes and neither a profile nor an ARN
is given, a run in which exactly one of the account (non-zero) and the role
(non-empty) is given returns the error `Please specify both --account and --role`,
without a call of `doAuth` and without reaching `execCmd`. -/
theorem run_partial_pair (p : Process) (ParseRoleARN : String → Except String (Int × String))
    (ctx : RunContext) (h : checkAwsEnvironment p = none) (hp : ctx.Cli.Exec.Profile = "")
    (ha : ctx.Cli.Exec.Arn = "")
    (hx : (ctx.Cli.Exec.AccountId ≠ 0 ∧ ctx.Cli.Exec.Role = "")
      ∨ (ctx.Cli.Exec.AccountId = 0 ∧ ctx.Cli.Exec.Role ≠ "")) :
    Run p ParseRoleARN ctx
      = { doAuthCalls := 0, outcome := .error "Please specify both --account and --role" } := by
  unfold Run
  rw [h]
  by_cases hwin : p.GOOS = "windows" ∧ ctx.Cli.Exec.Cmd = ""
  · rcases hx with ⟨h1, h2⟩ | ⟨h1, h2⟩ <;> simp [hwin, hp, ha, h1, h2]
  · rcases hx with ⟨h1, h2⟩ | ⟨h1, h2⟩ <;> simp [hwin, hp, ha, h1, h2]

theorem run_partial_pair_witness :
    Run sampleProcess sampleParseRoleARN (sampleContext { noArgs with AccountId := 42 })
      = { doAuthCalls := 0, outcome := .error "Please specify both --account and --role" } :=
  run_partial_pair sampleProcess sampleParseRoleARN
    (sampleContext { noArgs with AccountId := 42 }) (by decide) (by decide) (by decide)
    (Or.inl ⟨by decide, by decide⟩)

end AwsSso

/-! ## The stored record: the keys of the three families -/

namespace AwsSso

theorem RegisterClientKey_eq (region : String) :
    RegisterClientKey region = "client-data:" ++ region := by
  unfold RegisterClientKey
  rw [show REGISTER_CLIENT_DATA_PREFIX ++ ":" = "client-data:" from by decide]

theorem CreateTokenResponseKey_eq (key : String) :
    CreateTokenResponseKey key = "token-response:" ++ key := by
  unfold CreateTokenResponseKey
  rw [show CREATE_TOKEN_RESPONSE_PREFIX ++ ":" = "token-response:" from by decide]

end AwsSso

namespace AwsSso

/-! ## The chunked read -/

theorem getUINT64FromBytes_lt (b : Bytes) : getUINT64FromBytes b < 2 ^ 64 := by
  unfold getUINT64FromBytes
  have h0 := (b.getD 0 0).isLt
  have h1 := (b.getD 1 0).isLt
  have h2 := (b.getD 2 0).isLt
  have h3 := (b.getD 3 0).isLt
  have h4 := (b.getD 4 0).isLt
  have h5 := (b.getD 5 0).isLt
  have h6 := (b.getD 6 0).isLt
  have h7 := (b.getD 7 0).isLt
  norm_num
  omega

theorem uint64Sub_step (P t l : Nat) :
    uint64Sub (uint64Sub P t) l = uint64Sub P (t + l) := by
  unfold uint64Sub uint64
  have h64 : (2 : Nat) ^ 64 = 18446744073709551616 := by norm_num
  rw [h64]
  omega

theorem uint64Sub_eq_zero {P t : Nat} (hP : P < 2 ^ 64) :
    uint64Sub P t = 0 ↔ P = uint64 t := by
  unfold uint64Sub uint64
  have h64 : (2 : Nat) ^ 64 = 18446744073709551616 := by norm_num
  rw [h64] at hP ⊢
  omega

theorem bodyAt_succ {kr : KeyringStore} {key : String} {i : Nat} {chunk : Bytes}
    (h : getKeyringData kr (chunkKey key (i + 1)) = .ok chunk) :
    bodyAt kr key (i + 1) = chunk := by
  unfold bodyAt
  rw [h]
  simp

/-- The reader loop, started after entry `m`, returns `d` only if it ends with some
entry `n`: the entries up to `n` exist, the remaining byte count is not zero before
`n` and zero at `n`, and `d` is made of the bodies up to `n`. -/
theorem joinLoop_ok_ends (kr : KeyringStore) (key : String) (P : Nat) :
    ∀ (fuel m : Nat) (d : Bytes),
      joinLoop kr key fuel (m + 1) (uint64Sub P (bodiesUpTo kr key m).length)
        (bodiesUpTo kr key m) = .ok d →
      ∃ n, m ≤ n
        ∧ (∀ k, m + 1 ≤ k → k ≤ n → ∃ chunk, getKeyringData kr (chunkKey key k) = .ok chunk)
        ∧ (∀ j, m ≤ j → j < n → uint64Sub P (bodiesUpTo kr key j).length ≠ 0)
        ∧ uint64Sub P (bodiesUpTo kr key n).length = 0
        ∧ d = bodiesUpTo kr key n := by
  intro fuel
  induction fuel with
  | zero =>
    intro m d h
    unfold joinLoop at h
    split at h
    · simp at h
    · rename_i hz
      simp only [Except.ok.injEq] at h
      exact ⟨m, le_refl _, fun k h1 h2 => by omega, fun j h1 h2 => by omega, by omega, h.symm⟩
  | succ fuel ih =>
    intro m d h
    unfold joinLoop at h
    split at h
    · rename_i hpos
      split at h
      · simp at h
      · rename_i chunk hg
        rw [uint64Sub_step, ← List.length_append, ← bodyAt_succ hg] at h
        obtain ⟨n, hmn, hex, hne, hz, hd⟩ := ih (m + 1) d h
        refine ⟨n, by omega, ?_, ?_, hz, hd⟩
        · intro k h1 h2
          by_cases hk : k = m + 1
          · subst hk
            exact ⟨chunk, hg⟩
          · exact hex k (by omega) h2
        · intro j h1 h2
          by_cases hj : j = m
          · subst hj
            omega
          · exact hne j (by omega) h2
    · rename_i hz
      simp only [Except.ok.injEq] at h
      exact ⟨m, le_refl _, fun k h1 h2 => by omega, fun j h1 h2 => by omega, by omega, h.symm⟩

/-- The reader loop, started after entry `m`, returns the bodies up to `n` when the
entries up to `n` exist and the remaining byte count is zero at `n` and not before,
unless the fuel runs out. -/
theorem joinLoop_ends_ok (kr : KeyringStore) (key : String) (P n : Nat)
    (hz : uint64Sub P (bodiesUpTo kr key n).length = 0) :
    ∀ (fuel m : Nat), m ≤ n →
      (∀ k, m + 1 ≤ k → k ≤ n → ∃ chunk, getKeyringData kr (chunkKey key k) = .ok chunk) →
      (∀ j, m ≤ j → j < n → uint64Sub P (bodiesUpTo kr key j).length ≠ 0) →
      joinLoop kr key fuel (m + 1) (uint64Sub P (bodiesUpTo kr key m).length)
          (bodiesUpTo kr key m) = .ok (bodiesUpTo kr key n)
        ∨ joinLoop kr key fuel (m + 1) (uint64Sub P (bodiesUpTo kr key m).length)
          (bodiesUpTo kr key m) = .error .OutOfFuel := by
  intro fuel
  induction fuel with
  | zero =>
    intro m hmn hex hne
    unfold joinLoop
    split
    · right; rfl
    · rename_i hzero
      left
      by_cases hm : m = n
      · rw [hm]
      · exact absurd (by omega) (hne m (le_refl _) (by omega))
  | succ fuel ih =>
    intro m hmn hex hne
    unfold joinLoop
    split
    · rename_i hpos
      have hlt : m < n := by
        by_contra hcon
        have hm : m = n := by omega
        rw [hm, hz] at hpos
        exact absurd hpos (by decide)
      obtain ⟨chunk, hg⟩ := hex (m + 1) (le_refl _) hlt
      rw [hg]
      simp only []
      rw [uint64Sub_step, ← List.length_append, ← bodyAt_succ hg]
      exact ih (m + 1) hlt (fun k h1 h2 => hex k (by omega) h2)
        (fun j h1 h2 => hne j (by omega) h2)
    · rename_i hzero
      left
      by_cases hm : m = n
      · rw [hm]
      · exact absurd (by omega) (hne m (le_refl _) (by omega))

theorem bodyAt_zero {kr : KeyringStore} {key : String} {chunk : Bytes}
    (h : getKeyringData kr (chunkKey key 0) = .ok chunk) :
    bodiesUpTo kr key 0 = chunk.drop 8 := by
  unfold bodiesUpTo bodyAt
  rw [h]
  simp

theorem prefixValue_eq {kr : KeyringStore} {key : String} {chunk : Bytes}
    (h : getKeyringData kr (chunkKey key 0) = .ok chunk) :
    prefixValue kr key = getUINT64FromBytes (chunk.take 8) := by
  unfold prefixValue
  rw [h]

theorem prefixValue_lt (kr : KeyringStore) (key : String) : prefixValue kr key < 2 ^ 64 := by
  unfold prefixValue
  split
  · exact getUINT64FromBytes_lt _
  · exact Nat.pos_pow_of_pos 64 (by decide)

/-- When the reader succeeds, in terms of the `uint64` count of remaining bytes: it
returns `d` if and only if entry `0` exists with at least 8 bytes and for some `n` the
entries `1 .. n` exist, the count is zero after entry `n` and not before, and `d` is
made of the bodies of the entries `0 .. n`. -/
theorem joinAndGet_ok_iff (kr : KeyringStore) (key : String) (d : Bytes) :
    joinAndGetKeyringData kr key = .ok d ↔
      ∃ n, (∃ chunk, getKeyringData kr (chunkKey key 0) = .ok chunk ∧ 8 ≤ chunk.length)
        ∧ (∀ i, 1 ≤ i → i ≤ n → ∃ chunk, getKeyringData kr (chunkKey key i) = .ok chunk)
        ∧ (∀ j, j < n → uint64Sub (prefixValue kr key) (bodiesUpTo kr key j).length ≠ 0)
        ∧ uint64Sub (prefixValue kr key) (bodiesUpTo kr key n).length = 0
        ∧ d = bodiesUpTo kr key n := by
  constructor
  · intro h
    unfold joinAndGetKeyringData at h
    split at h
    · simp at h
    · rename_i chunk hg
      split at h
      · simp at h
      · rename_i hlen
        simp only [List.nil_append] at h
        rw [← prefixValue_eq hg, ← bodyAt_zero hg] at h
        split at h
        · simp at h
        · rename_i data hj
          split at h
          · simp at h
          · simp only [Except.ok.injEq] at h
            subst h
            obtain ⟨n, _, hex, hne, hz, hd⟩ := joinLoop_ok_ends kr key _ _ 0 data hj
            exact ⟨n, ⟨chunk, hg, by omega⟩, fun i h1 h2 => hex i (by omega) h2,
              fun j h2 => hne j (Nat.zero_le _) h2, hz, hd⟩
  · rintro ⟨n, ⟨chunk, hg, hlen⟩, hex, hne, hz, hd⟩
    unfold joinAndGetKeyringData
    rw [hg]
    simp only [List.nil_append]
    rw [if_neg (by omega), ← prefixValue_eq hg, ← bodyAt_zero hg]
    rcases joinLoop_ends_ok kr key _ n hz (kr.keyring.items.length + 1) 0 (Nat.zero_le _)
        (fun k h1 h2 => hex k (by omega) h2) (fun j _ h2 => hne j h2) with hok | hfuel
    · rw [hok]
      simp only []
      have := (uint64Sub_eq_zero (prefixValue_lt kr key)).mp hz
      rw [if_neg (by simpa using this), hd]
    · exact absurd hfuel (joinLoop_fuel kr key _ _ _)

theorem bodiesUpTo_length_mono (kr : KeyringStore) (key : String) {j n : Nat} (h : j ≤ n) :
    (bodiesUpTo kr key j).length ≤ (bodiesUpTo kr key n).length := by
  induction n with
  | zero =>
    have : j = 0 := by omega
    rw [this]
  | succ n ih =>
    by_cases hj : j = n + 1
    · rw [hj]
    · have := ih (by omega)
      show _ ≤ (bodiesUpTo kr key n ++ bodyAt kr key (n + 1)).length
      rw [List.length_append]
      omega

theorem uint64Sub_eq_zero_of_lt {P t : Nat} (hP : P < 2 ^ 64) (ht : t < 2 ^ 64) :
    uint64Sub P t = 0 ↔ t = P := by
  rw [uint64Sub_eq_zero hP, uint64_of_lt ht]
  exact eq_comm

/-- C17: for every keyring whose accumulated bodies stay below `2 ^ 64` bytes (the
length of a Go slice does), `joinAndGetKeyringData key` succeeds if and only if entry
`key_0` exists with at least 8 bytes and there is an `n` such that the entries
`key_1 .. key_n` exist, the bodies of the entries `0 .. j` total fewer than the prefix
`P` for every `j < n`, and the bodies of the entries `0 .. n` total exactly `P`; it
then returns the concatenation of those bodies, of length `P`. It fails when the body
of `key_0` is longer than `P`. -/
theorem join_succeeds_iff (kr : KeyringStore) (key : String)
    (hb : ∀ n, (bodiesUpTo kr key n).length < 2 ^ 64) :
    (∀ d, joinAndGetKeyringData kr key = .ok d ↔
      ∃ n, ReadEndsAt kr key n ∧ d = bodiesUpTo kr key n)
    ∧ (∀ d, joinAndGetKeyringData kr key = .ok d → d.length = prefixValue kr key)
    ∧ (prefixValue kr key < (bodiesUpTo kr key 0).length →
      ∃ err, joinAndGetKeyringData kr key = .error err) := by
  have hP := prefixValue_lt kr key
  have hiff : ∀ d, joinAndGetKeyringData kr key = .ok d ↔
      ∃ n, ReadEndsAt kr key n ∧ d = bodiesUpTo kr key n := by
    intro d
    rw [joinAndGet_ok_iff]
    constructor
    · rintro ⟨n, h0, hex, hne, hz, hd⟩
      have hn := (uint64Sub_eq_zero_of_lt hP (hb n)).mp hz
      refine ⟨n, ⟨h0, hex, fun j hj => ?_, hn⟩, hd⟩
      have h1 := bodiesUpTo_length_mono kr key (Nat.le_of_lt hj)
      have h2 : (bodiesUpTo kr key j).length ≠ prefixValue kr key :=
        fun e => hne j hj ((uint64Sub_eq_zero_of_lt hP (hb j)).mpr e)
      omega
    · rintro ⟨n, ⟨h0, hex, hlt, hn⟩, hd⟩
      refine ⟨n, h0, hex, fun j hj hz => ?_, (uint64Sub_eq_zero_of_lt hP (hb n)).mpr hn, hd⟩
      have h1 := hlt j hj
      have h2 := (uint64Sub_eq_zero_of_lt hP (hb j)).mp hz
      omega
  refine ⟨hiff, ?_, ?_⟩
  · intro d hd
    obtain ⟨n, ⟨_, _, _, hn⟩, rfl⟩ := (hiff d).mp hd
    exact hn
  · intro hlong
    cases hr : joinAndGetKeyringData kr key with
    | error err => exact ⟨err, rfl⟩
    | ok d =>
      obtain ⟨n, ⟨_, _, hlt, hn⟩, _⟩ := (hiff d).mp hr
      have h1 := bodiesUpTo_length_mono kr key (Nat.zero_le n)
      omega

theorem bodiesUpTo_windowsStoreWith (data : Bytes) (n : Nat) :
    bodiesUpTo (windowsStoreWith data) RECORD_KEY n = data.drop 8 := by
  induction n with
  | zero => rfl
  | succ n ih =>
    have hne : (chunkKey RECORD_KEY 0 == chunkKey RECORD_KEY (n + 1)) = false := by
      simp only [beq_eq_false_iff_ne, ne_eq]
      intro e
      have := chunkKey_injective e
      omega
    have hb : bodyAt (windowsStoreWith data) RECORD_KEY (n + 1) = [] := by
      simp [bodyAt, getKeyringData, MockKeyring.Get, windowsStoreWith, List.find?_cons, hne]
    show bodiesUpTo (windowsStoreWith data) RECORD_KEY n
      ++ bodyAt (windowsStoreWith data) RECORD_KEY (n + 1) = _
    rw [ih, hb, List.append_nil]

theorem join_succeeds_iff_witness :
    prefixValue overlongEntryStore RECORD_KEY
      < (bodiesUpTo overlongEntryStore RECORD_KEY 0).length
    ∧ ∃ err, joinAndGetKeyringData overlongEntryStore RECORD_KEY = .error err :=
  ⟨by decide,
   (join_succeeds_iff overlongEntryStore RECORD_KEY (fun n => by
      show (bodiesUpTo (windowsStoreWith _) RECORD_KEY n).length < _
      rw [bodiesUpTo_windowsStoreWith]
      decide)).2.2 (by decide)⟩

end AwsSso

namespace AwsSso

/-! ## The environment of the child -/

theorem lookup_filter_ne (m : List (String × String)) (k key : String) (h : key ≠ k) :
    (m.filter (fun kv => kv.1 != k)).lookup key = m.lookup key := by
  induction m with
  | nil => rfl
  | cons a m ih =>
    obtain ⟨k1, v1⟩ := a
    rw [List.filter_cons]
    by_cases hk : k1 = k
    · have h1 : ((k1, v1).1 != k) = false := by simp [hk]
      have h2 : (key == k1) = false := by
        simp only [beq_eq_false_iff_ne, ne_eq]
        exact fun e => h (e.trans hk)
      rw [h1]
      simp only [Bool.false_eq_true, if_false]
      simp only [List.lookup, h2]
      exact ih
    · have h1 : ((k1, v1).1 != k) = true := by simp [hk]
      rw [h1]
      simp only [if_true]
      by_cases hkey : key = k1
      · simp [List.lookup, hkey]
      · have h2 : (key == k1) = false := by simpa using hkey
        simp only [List.lookup, h2]
        exact ih

theorem mapIndex_assign_same (m : List (String × String)) (k v : String) :
    mapIndex (mapAssign m k v) k = some v := by
  simp [mapIndex, mapAssign, List.lookup]

theorem mapIndex_assign_other (m : List (String × String)) (k v key : String) (h : key ≠ k) :
    mapIndex (mapAssign m k v) key = mapIndex m key := by
  have h2 : (key == k) = false := by simpa using h
  unfold mapIndex mapAssign
  simp only [List.lookup, h2]
  exact lookup_filter_ne m k key h

theorem mapIndex_foldl_other (l : List (String × String)) (key : String)
    (h : ∀ kv ∈ l, kv.1 ≠ key) :
    ∀ m, mapIndex (l.foldl (fun shellVars kv => mapAssign shellVars kv.1 kv.2) m) key
      = mapIndex m key := by
  induction l with
  | nil => intro m; rfl
  | cons a l ih =>
    intro m
    rw [List.foldl_cons, ih (fun kv hkv => h kv (List.mem_cons_of_mem _ hkv))]
    exact mapIndex_assign_other m _ _ key (fun e => h a (List.mem_cons_self _ _) e.symm)

theorem mapIndex_foldl_mem (l : List (String × String)) (hnd : (l.map Prod.fst).Nodup)
    (kv : String × String) (hkv : kv ∈ l) :
    ∀ m, mapIndex (l.foldl (fun shellVars kv => mapAssign shellVars kv.1 kv.2) m) kv.1
      = some kv.2 := by
  induction l with
  | nil => simp at hkv
  | cons a l ih =>
    intro m
    rw [List.map_cons, List.nodup_cons] at hnd
    rw [List.foldl_cons]
    rcases List.mem_cons.mp hkv with e | e
    · subst e
      rw [mapIndex_foldl_other l kv.1 (fun x hx hxe =>
        hnd.1 (List.mem_map.mpr ⟨x, hx, hxe⟩))]
      exact mapIndex_assign_same m _ _
    · exact ih hnd.2 e _

theorem execShellEnvs_eq {A : Type} (h : CmdHelpers A) (ctx : RunContext) (awssso : A)
    (accountid : Int) (role region : String) :
    execShellEnvs h ctx awssso accountid role region
      = match ctx.Settings.GetRole accountid role with
        | .error _ => shellVarsBase h ctx awssso accountid role region
        | .ok roleInfo =>
          (h.rangeOrder (ctx.Settings.GetEnvVarTags roleInfo)).foldl
            (fun shellVars kv => mapAssign shellVars kv.1 kv.2)
            (mapAssign (shellVarsBase h ctx awssso accountid role region) "AWS_SSO_PROFILE"
              (ctx.Settings.ProfileName roleInfo).1) := rfl

/-- A variable other than `AWS_SSO_PROFILE` that no env-var tag of the role names has
in the map of `execShellEnvs` the value it has before the role is looked up. -/
theorem execShellEnvs_index_base {A : Type} (h : CmdHelpers A) (ctx : RunContext)
    (awssso : A) (accountid : Int) (role region key : String)
    (hperm : ∀ m, (h.rangeOrder m).Perm m) (hkey : key ≠ "AWS_SSO_PROFILE")
    (htags : ∀ roleInfo, ctx.Settings.GetRole accountid role = .ok roleInfo →
      ∀ kv ∈ ctx.Settings.GetEnvVarTags roleInfo, kv.1 ≠ key) :
    mapIndex (execShellEnvs h ctx awssso accountid role region) key
      = mapIndex (shellVarsBase h ctx awssso accountid role region) key := by
  rw [execShellEnvs_eq]
  cases hr : ctx.Settings.GetRole accountid role with
  | error e => rfl
  | ok roleInfo =>
    simp only []
    rw [mapIndex_foldl_other _ key (fun kv hkv =>
      htags roleInfo hr kv ((hperm _).mem_iff.mp hkv))]
    exact mapIndex_assign_other _ _ _ key hkey

/-- C11: when no env-var tag of the role is named `AWS_DEFAULT_REGION` or
`AWS_SSO_DEFAULT_REGION`, the map returned by `execShellEnvs` has both variables equal
to the region argument if it is not empty, and has no `AWS_DEFAULT_REGION` and the
empty string under `AWS_SSO_DEFAULT_REGION` if it is empty. -/
theorem execShellEnvs_region {A : Type} (h : CmdHelpers A) (ctx : RunContext) (awssso : A)
    (accountid : Int) (role region : String) (hperm : ∀ m, (h.rangeOrder m).Perm m)
    (htags : ∀ roleInfo, ctx.Settings.GetRole accountid role = .ok roleInfo →
      ∀ kv ∈ ctx.Settings.GetEnvVarTags roleInfo,
        kv.1 ≠ "AWS_DEFAULT_REGION" ∧ kv.1 ≠ "AWS_SSO_DEFAULT_REGION") :
    (region ≠ "" →
      mapIndex (execShellEnvs h ctx awssso accountid role region) "AWS_DEFAULT_REGION"
        = some region
      ∧ mapIndex (execShellEnvs h ctx awssso accountid role region) "AWS_SSO_DEFAULT_REGION"
        = some region)
    ∧ (region = "" →
      mapIndex (execShellEnvs h ctx awssso accountid role region) "AWS_DEFAULT_REGION" = none
      ∧ mapIndex (execShellEnvs h ctx awssso accountid role region) "AWS_SSO_DEFAULT_REGION"
        = some "") := by
  have h1 := execShellEnvs_index_base h ctx awssso accountid role region "AWS_DEFAULT_REGION"
    hperm (by decide) (fun r hr kv hkv => (htags r hr kv hkv).1)
  have h2 := execShellEnvs_index_base h ctx awssso accountid role region
    "AWS_SSO_DEFAULT_REGION" hperm (by decide) (fun r hr kv hkv => (htags r hr kv hkv).2)
  rw [h1, h2]
  constructor
  · intro hr
    simp only [shellVarsBase, hr, ne_eq, not_false_eq_true, if_true]
    exact ⟨rfl, rfl⟩
  · intro hr
    simp only [shellVarsBase, hr, ne_eq, not_true_eq_false, if_false]
    exact ⟨rfl, rfl⟩

theorem sampleHelpers_perm (m : List (String × String)) :
    (sampleHelpers.rangeOrder m).Perm m := List.Perm.refl m

theorem execShellEnvs_region_witness :
    mapIndex (execShellEnvs sampleHelpers (sampleContext noArgs) () 42 "admin" "us-east-1")
        "AWS_DEFAULT_REGION" = some "us-east-1"
    ∧ mapIndex (execShellEnvs sampleHelpers (sampleContext noArgs) () 42 "admin" "us-east-1")
        "AWS_SSO_DEFAULT_REGION" = some "us-east-1" :=
  (execShellEnvs_region sampleHelpers (sampleContext noArgs) () 42 "admin" "us-east-1"
    sampleHelpers_perm (fun _ _ kv hkv => by
      have e : kv = ("AWS_SSO_TAG_TEAM", "platform") := by
        simpa [sampleContext, sampleSettings] using hkv
      subst e
      decide)).1 (by decide)

/-- C12, as stated, fails: for a role whose record carries an env-var tag named
`AWS_ACCESS_KEY_ID`, the map returned by `execShellEnvs` holds the value of the tag
under `AWS_ACCESS_KEY_ID`, not the access key of the credentials. -/
theorem execShellEnvs_tag_over_credentials :
    mapIndex (execShellEnvs sampleHelpers overlayContext () 42 "admin" "")
        "AWS_ACCESS_KEY_ID" = some "from-tag"
    ∧ (sampleHelpers.GetRoleCredentials overlayContext () 42 "admin").AccessKeyId
      = "AKIAEXAMPLE" := by
  decide

/-- C12, amended: when no env-var tag of the role's record is named
`AWS_ACCESS_KEY_ID`, `AWS_SECRET_ACCESS_KEY`, `AWS_SESSION_TOKEN` or
`AWS_SSO_ROLE_NAME`, these four variables of the map returned by `execShellEnvs`
equal the fields `AccessKeyId`, `SecretAccessKey`, `SessionToken` and `RoleName` of
the credentials obtained for the role. -/
theorem execShellEnvs_credentials {A : Type} (h : CmdHelpers A) (ctx : RunContext)
    (awssso : A) (accountid : Int) (role region : String)
    (hperm : ∀ m, (h.rangeOrder m).Perm m)
    (htags : ∀ roleInfo, ctx.Settings.GetRole accountid role = .ok roleInfo →
      ∀ kv ∈ ctx.Settings.GetEnvVarTags roleInfo,
        kv.1 ≠ "AWS_ACCESS_KEY_ID" ∧ kv.1 ≠ "AWS_SECRET_ACCESS_KEY"
          ∧ kv.1 ≠ "AWS_SESSION_TOKEN" ∧ kv.1 ≠ "AWS_SSO_ROLE_NAME") :
    mapIndex (execShellEnvs h ctx awssso accountid role region) "AWS_ACCESS_KEY_ID"
      = some (h.GetRoleCredentials ctx awssso accountid role).AccessKeyId
    ∧ mapIndex (execShellEnvs h ctx awssso accountid role region) "AWS_SECRET_ACCESS_KEY"
      = some (h.GetRoleCredentials ctx awssso accountid role).SecretAccessKey
    ∧ mapIndex (execShellEnvs h ctx awssso accountid role region) "AWS_SESSION_TOKEN"
      = some (h.GetRoleCredentials ctx awssso accountid role).SessionToken
    ∧ mapIndex (execShellEnvs h ctx awssso accountid role region) "AWS_SSO_ROLE_NAME"
      = some (h.GetRoleCredentials ctx awssso accountid role).RoleName := by
  have h1 := execShellEnvs_index_base h ctx awssso accountid role region "AWS_ACCESS_KEY_ID"
    hperm (by decide) (fun r hr kv hkv => (htags r hr kv hkv).1)
  have h2 := execShellEnvs_index_base h ctx awssso accountid role region
    "AWS_SECRET_ACCESS_KEY" hperm (by decide) (fun r hr kv hkv => (htags r hr kv hkv).2.1)
  have h3 := execShellEnvs_index_base h ctx awssso accountid role region "AWS_SESSION_TOKEN"
    hperm (by decide) (fun r hr kv hkv => (htags r hr kv hkv).2.2.1)
  have h4 := execShellEnvs_index_base h ctx awssso accountid role region "AWS_SSO_ROLE_NAME"
    hperm (by decide) (fun r hr kv hkv => (htags r hr kv hkv).2.2.2)
  rw [h1, h2, h3, h4]
  by_cases hr : region = ""
  · simp only [shellVarsBase, hr, ne_eq, not_true_eq_false, if_false]
    exact ⟨rfl, rfl, rfl, rfl⟩
  · simp only [shellVarsBase, hr, ne_eq, not_false_eq_true, if_true]
    exact ⟨rfl, rfl, rfl, rfl⟩

theorem execShellEnvs_credentials_witness :
    mapIndex (execShellEnvs sampleHelpers (sampleContext noArgs) () 42 "admin" "us-east-1")
        "AWS_ACCESS_KEY_ID" = some "AKIAEXAMPLE" :=
  (execShellEnvs_credentials sampleHelpers (sampleContext noArgs) () 42 "admin" "us-east-1"
    sampleHelpers_perm (fun _ _ kv hkv => by
      have e : kv = ("AWS_SSO_TAG_TEAM", "platform") := by
        simpa [sampleContext, sampleSettings] using hkv
      subst e
      decide)).1

/-- C13: when the resolved role is found in the cache, for every pair `(k, v)` of the
env-var tags of its record the map returned by `execShellEnvs` has the value `v`
under the key `k`. The tags are a Go map, so no two of their pairs have the same
key. -/
theorem execShellEnvs_env_tags {A : Type} (h : CmdHelpers A) (ctx : RunContext) (awssso : A)
    (accountid : Int) (role region : String) (roleInfo : AWSRoleFlat)
    (hperm : ∀ m, (h.rangeOrder m).Perm m)
    (hr : ctx.Settings.GetRole accountid role = .ok roleInfo)
    (hnd : ((ctx.Settings.GetEnvVarTags roleInfo).map Prod.fst).Nodup) :
    ∀ kv ∈ ctx.Settings.GetEnvVarTags roleInfo,
      mapIndex (execShellEnvs h ctx awssso accountid role region) kv.1 = some kv.2 := by
  intro kv hkv
  rw [execShellEnvs_eq]
  simp only [hr]
  exact mapIndex_foldl_mem _ (((hperm _).map Prod.fst).nodup_iff.mpr hnd) kv
    ((hperm _).mem_iff.mpr hkv) _

theorem execShellEnvs_env_tags_witness :
    mapIndex (execShellEnvs sampleHelpers (sampleContext noArgs) () 42 "admin" "us-east-1")
        "AWS_SSO_TAG_TEAM" = some "platform" :=
  execShellEnvs_env_tags sampleHelpers (sampleContext noArgs) () 42 "admin" "us-east-1"
    { AccountId := 42, RoleName := "admin" } sampleHelpers_perm rfl (by decide)
    ("AWS_SSO_TAG_TEAM", "platform") (by decide)

theorem foldl_append_entries (l : List (String × String)) :
    ∀ init : List String,
      l.foldl (fun cmdEnv kv => cmdEnv ++ [envEntry kv]) init = init ++ l.map envEntry := by
  induction l with
  | nil => intro init; simp
  | cons a l ih =>
    intro init
    rw [List.foldl_cons, ih, List.map_cons, List.append_assoc]
    rfl

theorem mapAssign_keys_nodup (m : List (String × String)) (k v : String)
    (h : (m.map Prod.fst).Nodup) : ((mapAssign m k v).map Prod.fst).Nodup := by
  unfold mapAssign
  rw [List.map_cons, List.nodup_cons]
  constructor
  · intro hmem
    obtain ⟨kv, hkv, hk⟩ := List.mem_map.mp hmem
    have := (List.mem_filter.mp hkv).2
    simp only [bne_iff_ne, ne_eq] at this
    exact this hk
  · exact h.sublist ((List.filter_sublist m).map Prod.fst)

theorem foldl_assign_keys_nodup (l : List (String × String)) :
    ∀ m : List (String × String), (m.map Prod.fst).Nodup →
      ((l.foldl (fun shellVars kv => mapAssign shellVars kv.1 kv.2) m).map Prod.fst).Nodup := by
  induction l with
  | nil => intro m h; exact h
  | cons a l ih =>
    intro m h
    rw [List.foldl_cons]
    exact ih _ (mapAssign_keys_nodup m _ _ h)

/-- The map returned by `execShellEnvs` has one pair per key. -/
theorem execShellEnvs_keys_nodup {A : Type} (h : CmdHelpers A) (ctx : RunContext)
    (awssso : A) (accountid : Int) (role region : String) :
    ((execShellEnvs h ctx awssso accountid role region).map Prod.fst).Nodup := by
  have hbase : ((shellVarsBase h ctx awssso accountid role region).map Prod.fst).Nodup := by
    unfold shellVarsBase
    simp only []
    split
    · apply mapAssign_keys_nodup
      apply mapAssign_keys_nodup
      simp only [List.map_cons, List.map_nil]
      decide
    · apply mapAssign_keys_nodup
      simp only [List.map_cons, List.map_nil]
      decide
  rw [execShellEnvs_eq]
  split
  · exact hbase
  · exact foldl_assign_keys_nodup _ _ (mapAssign_keys_nodup _ _ _ hbase)

/-- The context that `Run` hands to `execCmd` differs from its own in the command
only. -/
theorem Run_execCmd_context (p : Process)
    (ParseRoleARN : String → Except String (Int × String)) (ctx c : RunContext)
    (accountid : Int) (role : String)
    (h : (Run p ParseRoleARN ctx).outcome = .execCmd c accountid role) :
    c.Settings = ctx.Settings ∧ c.Cli.Exec.AccountId = ctx.Cli.Exec.AccountId
      ∧ c.Cli.Exec.Role = ctx.Cli.Exec.Role ∧ c.Cli.Exec.NoRegion = ctx.Cli.Exec.NoRegion := by
  unfold Run at h
  split at h
  · simp at h
  · by_cases hwin : p.GOOS = "windows" ∧ ctx.Cli.Exec.Cmd = ""
    · simp only [hwin, and_self, if_true] at h
      split at h
      · split at h
        · simp at h
        · simp only [RunOutcome.execCmd.injEq] at h
          rw [← h.1]
          exact ⟨rfl, rfl, rfl, rfl⟩
      · split at h
        · split at h
          · simp at h
          · simp only [RunOutcome.execCmd.injEq] at h
            rw [← h.1]
            exact ⟨rfl, rfl, rfl, rfl⟩
        · split at h
          · split at h
            · simp at h
            · simp only [RunOutcome.execCmd.injEq] at h
              rw [← h.1]
              exact ⟨rfl, rfl, rfl, rfl⟩
          · simp at h
    · simp only [hwin, if_false] at h
      split at h
      · split at h
        · simp at h
        · simp only [RunOutcome.execCmd.injEq] at h
          rw [← h.1]
          exact ⟨rfl, rfl, rfl, rfl⟩
      · split at h
        · split at h
          · simp at h
          · simp only [RunOutcome.execCmd.injEq] at h
            rw [← h.1]
            exact ⟨rfl, rfl, rfl, rfl⟩
        · split at h
          · split at h
            · simp at h
            · simp only [RunOutcome.execCmd.injEq] at h
              rw [← h.1]
              exact ⟨rfl, rfl, rfl, rfl⟩
          · simp at h

/-- C20, as stated, fails in its last part: for a role resolved from `--profile` in a
run that also names the account 5 and the role `reader`, the region of `execCmd` is
the default region for the account 5 and the role `reader`, not the one for the
account 0 and the empty role name. -/
theorem run_profile_region_of_cli_fields :
    (Run sampleProcess sampleParseRoleARN
        (sampleContext { noArgs with Profile := "prod", AccountId := 5,
                                      Role := "reader" })).outcome.target
      = some (42, "admin")
    ∧ ((Run sampleProcess sampleParseRoleARN
        (sampleContext { noArgs with Profile := "prod", AccountId := 5,
                                      Role := "reader" })).outcome.execCmdResult
          sampleHelpers sampleProcess ()).map (fun r => r.region)
      = some "eu-west-1"
    ∧ sampleSettings.GetDefaultRegion 0 "" false = "us-east-1" := by
  decide

/-- C20, amended: the region that `execCmd` hands to `execShellEnvs` is
`GetDefaultRegion` applied to the fields `Exec.AccountId`, `Exec.Role` and
`Exec.NoRegion` of the command line, not to the resolved role: two calls of `execCmd`
over the same context use the same region whatever their `accountid` and `role`
arguments are, the `execCmd` call that a run of `Run` ends in uses the region for the
`AccountId` and `Role` of the command line, and for a role resolved from `--arn` or
`--profile` in a run that names no account and no role this is the region for the
account 0 and the empty role name. -/
theorem execCmd_region {A : Type} (h : CmdHelpers A) (p : Process) (ctx : RunContext)
    (awssso : A) :
    (∀ (accountid : Int) (role : String),
      (execCmd h p ctx awssso accountid role).region
        = ctx.Settings.GetDefaultRegion ctx.Cli.Exec.AccountId ctx.Cli.Exec.Role
            ctx.Cli.Exec.NoRegion
      ∧ (execCmd h p ctx awssso accountid role).child.Env
        = (h.rangeOrder (execShellEnvs h ctx awssso accountid role
            (ctx.Settings.GetDefaultRegion ctx.Cli.Exec.AccountId ctx.Cli.Exec.Role
              ctx.Cli.Exec.NoRegion))).foldl
            (fun cmdEnv kv => cmdEnv ++ [envEntry kv]) (osEnviron p))
    ∧ (∀ (accountid1 accountid2 : Int) (role1 role2 : String),
      (execCmd h p ctx awssso accountid1 role1).region
        = (execCmd h p ctx awssso accountid2 role2).region)
    ∧ (∀ (ParseRoleARN : String → Except String (Int × String)) (r : ExecCmdResult),
      (Run p ParseRoleARN ctx).outcome.execCmdResult h p awssso = some r →
      r.region = ctx.Settings.GetDefaultRegion ctx.Cli.Exec.AccountId ctx.Cli.Exec.Role
        ctx.Cli.Exec.NoRegion)
    ∧ (∀ (ParseRoleARN : String → Except String (Int × String)) (r : ExecCmdResult),
      ctx.Cli.Exec.AccountId = 0 → ctx.Cli.Exec.Role = "" →
      (Run p ParseRoleARN ctx).outcome.execCmdResult h p awssso = some r →
      r.region = ctx.Settings.GetDefaultRegion 0 "" ctx.Cli.Exec.NoRegion) := by
  have hrun : ∀ (ParseRoleARN : String → Except String (Int × String)) (r : ExecCmdResult),
      (Run p ParseRoleARN ctx).outcome.execCmdResult h p awssso = some r →
      r.region = ctx.Settings.GetDefaultRegion ctx.Cli.Exec.AccountId ctx.Cli.Exec.Role
        ctx.Cli.Exec.NoRegion := by
    intro ParseRoleARN r hr
    cases ho : (Run p ParseRoleARN ctx).outcome with
    | fatal e => rw [ho] at hr; simp [RunOutcome.execCmdResult] at hr
    | error e => rw [ho] at hr; simp [RunOutcome.execCmdResult] at hr
    | autoComplete c => rw [ho] at hr; simp [RunOutcome.execCmdResult] at hr
    | execCmd c accountid role =>
      rw [ho] at hr
      simp only [RunOutcome.execCmdResult, Option.some.injEq] at hr
      obtain ⟨h1, h2, h3, h4⟩ := Run_execCmd_context p ParseRoleARN ctx c accountid role ho
      rw [← hr]
      show c.Settings.GetDefaultRegion c.Cli.Exec.AccountId c.Cli.Exec.Role
        c.Cli.Exec.NoRegion = _
      rw [h1, h2, h3, h4]
  refine ⟨fun _ _ => ⟨rfl, rfl⟩, fun _ _ _ _ => rfl, hrun, ?_⟩
  intro ParseRoleARN r hacc hrole hr
  have := hrun ParseRoleARN r hr
  rw [hacc, hrole] at this
  exact this

theorem execCmd_region_witness :
    (execCmd sampleHelpers sampleProcess (sampleContext { noArgs with Profile := "prod" }) ()
        42 "admin").region
      = sampleSettings.GetDefaultRegion 0 "" false :=
  (execCmd_region sampleHelpers sampleProcess
    (sampleContext { noArgs with Profile := "prod" }) ()).2.2.2 sampleParseRoleARN
    (execCmd sampleHelpers sampleProcess (sampleContext { noArgs with Profile := "prod" }) ()
      42 "admin") rfl rfl rfl

end AwsSso

namespace AwsSso

/-! ## The device flow -/

theorem mockReturn_ok_or_error {α : Type} (out : α) (err : Option RemoteError) :
    mockReturn out err = .ok out ∨ ∃ e, mockReturn out err = .error e := by
  cases err with
  | none => left; rfl
  | some e => right; exact ⟨e, rfl⟩

theorem mock_RegisterClient_length (m : mockSsoOidcApi) :
    m.RegisterClient.1.Results.length ≤ m.Results.length := by
  unfold mockSsoOidcApi.RegisterClient
  simp only []
  split
  · rename_i h; simp [h]
  · rename_i x rest h
    split
    · exact le_refl _
    · simp [h]

theorem mock_StartDeviceAuthorization_length (m : mockSsoOidcApi) :
    m.StartDeviceAuthorization.1.Results.length ≤ m.Results.length
    ∧ (∀ out, m.StartDeviceAuthorization.2 = .ok out →
      m.StartDeviceAuthorization.1.Results.length < m.Results.length) := by
  unfold mockSsoOidcApi.StartDeviceAuthorization
  simp only []
  split
  · rename_i h; simp [h]
  · rename_i x rest h
    split
    · simp
    · simp [h]

theorem mock_CreateToken_length (m : mockSsoOidcApi) :
    m.CreateToken.1.Results.length ≤ m.Results.length
    ∧ (∀ err, m.CreateToken.2 = .error err → (∀ msg, err ≠ .Other msg) →
      m.CreateToken.1.Results.length < m.Results.length) := by
  unfold mockSsoOidcApi.CreateToken
  simp only []
  split
  · rename_i h
    simp only [h, List.length_nil, le_refl, true_and]
    intro err he hne
    simp only [Except.error.injEq] at he
    exact absurd he.symm (hne _)
  · rename_i x rest h
    split
    · simp only [le_refl, true_and]
      intro err he hne
      simp only [Except.error.injEq] at he
      exact absurd he.symm (hne _)
    · simp [h]

theorem registerClient_spec (force : Bool) (as : AWSSSO) :
    (registerClient force as).1.ssooidc.Results.length ≤ as.ssooidc.Results.length
    ∧ (registerClient force as).2 ≠ some .OutOfFuel := by
  have hlen := mock_RegisterClient_length as.ssooidc
  unfold registerClient
  simp only []
  cases force <;> simp only [Bool.false_eq_true, if_false, if_true]
  all_goals
    split
    · simp
    · split
      · rename_i api err hc
        have : api = as.ssooidc.RegisterClient.1 := by rw [hc]
        simp only [ne_eq, Option.some.injEq, reduceCtorEq, not_false_eq_true, and_true]
        rw [this]
        exact hlen
      · rename_i api out hc
        have : api = as.ssooidc.RegisterClient.1 := by rw [hc]
        simp only [ne_eq, reduceCtorEq, not_false_eq_true, and_true]
        rw [this]
        exact hlen

theorem startDeviceAuthorization_spec (as : AWSSSO) :
    (startDeviceAuthorization as).1.ssooidc.Results.length ≤ as.ssooidc.Results.length
    ∧ (startDeviceAuthorization as).2 ≠ some .OutOfFuel
    ∧ ((startDeviceAuthorization as).2 = none →
      (startDeviceAuthorization as).1.ssooidc.Results.length < as.ssooidc.Results.length) := by
  have hlen := mock_StartDeviceAuthorization_length as.ssooidc
  unfold startDeviceAuthorization
  split
  · rename_i api err hc
    have h1 : api = as.ssooidc.StartDeviceAuthorization.1 := (congrArg Prod.fst hc).symm
    simp only [ne_eq, Option.some.injEq, reduceCtorEq, not_false_eq_true, true_and, false_implies,
      and_true]
    rw [h1]
    exact hlen.1
  · rename_i api out hc
    have h1 : api = as.ssooidc.StartDeviceAuthorization.1 := (congrArg Prod.fst hc).symm
    have h2 : as.ssooidc.StartDeviceAuthorization.2 = .ok out := congrArg Prod.snd hc
    simp only [ne_eq, reduceCtorEq, not_false_eq_true, true_and, forall_const]
    rw [h1]
    exact ⟨hlen.1, hlen.2 out h2⟩

theorem BrowserLauncher_spec (urlAction browser : String) (as : AWSSSO) :
    (BrowserLauncher urlAction browser as).1.ssooidc = as.ssooidc
    ∧ (BrowserLauncher urlAction browser as).2 ≠ some .OutOfFuel := by
  unfold BrowserLauncher
  simp only []
  split
  · simp
  · split
    · simp
    · split
      · split <;> simp
      · split <;> simp

/-- The fuel that `Authenticate` gives the machine is enough: every step that does
not end the run takes a result off the queue of the mock. -/
theorem authMachine_fuel (urlAction browser : String) :
    ∀ (fuel : Nat) (phase : Phase) (as : AWSSSO), as.ssooidc.Results.length < fuel →
      (authMachine urlAction browser fuel phase as).2 ≠ some .OutOfFuel := by
  intro fuel
  induction fuel with
  | zero => intro phase as h; omega
  | succ fuel ih =>
    intro phase as hlt
    cases phase with
    | init =>
      unfold authMachine
      have r1 := registerClient_spec false as
      split
      · rename_i as1 err h1
        rw [h1] at r1
        dsimp only at r1
        exact r1.2
      · rename_i as1 h1
        rw [h1] at r1
        dsimp only at r1
        have s1 := startDeviceAuthorization_spec as1
        simp only []
        split
        · rename_i as4 err hstart
          split at hstart
          · simp at hstart
          · rename_i as2 e2 h2
            rw [h2] at s1
            dsimp only at s1
            have r2 := registerClient_spec true as2
            split at hstart
            · rename_i as3 err3 h3
              rw [h3] at r2
              dsimp only at r2
              simp only [Prod.mk.injEq, Option.some.injEq] at hstart
              rw [← hstart.2]
              exact r2.2
            · rename_i as3 h3
              have s2 := startDeviceAuthorization_spec as3
              rw [hstart] at s2
              dsimp only at s2
              exact s2.2.1
        · rename_i as4 hstart
          have hlen4 : as4.ssooidc.Results.length < as.ssooidc.Results.length := by
            split at hstart
            · rename_i as2 h2
              rw [h2] at s1
              dsimp only at s1
              simp only [Prod.mk.injEq, and_true] at hstart
              rw [← hstart]
              have := s1.2.2 rfl
              have := r1.1
              omega
            · rename_i as2 e2 h2
              rw [h2] at s1
              dsimp only at s1
              have r2 := registerClient_spec true as2
              split at hstart
              · simp at hstart
              · rename_i as3 h3
                rw [h3] at r2
                dsimp only at r2
                have s2 := startDeviceAuthorization_spec as3
                rw [hstart] at s2
                dsimp only at s2
                have := s2.2.2 rfl
                have := r2.1
                have := s1.1
                have := r1.1
                omega
          have b1 := BrowserLauncher_spec urlAction browser as4
          split
          · rename_i as5 err h5
            rw [h5] at b1
            dsimp only at b1
            exact b1.2
          · rename_i as5 h5
            rw [h5] at b1
            dsimp only at b1
            have hlen5 : as5.ssooidc.Results.length < fuel := by
              rw [b1.1]
              omega
            split
            · exact ih _ _ hlen5
            · exact ih _ _ hlen5
    | polling interval deadline =>
      unfold authMachine
      have c1 := mock_CreateToken_length as.ssooidc
      split
      · simp
      · rename_i api hc
        have h1 : api = as.ssooidc.CreateToken.1 := (congrArg Prod.fst hc).symm
        have h2 : as.ssooidc.CreateToken.2 = .error .AuthorizationPending := congrArg Prod.snd hc
        have := c1.2 _ h2 (fun msg => by simp)
        simp only []
        split
        · simp
        · apply ih
          show api.Results.length < fuel
          rw [h1]
          omega
      · rename_i api hc
        have h1 : api = as.ssooidc.CreateToken.1 := (congrArg Prod.fst hc).symm
        have h2 : as.ssooidc.CreateToken.2 = .error .SlowDown := congrArg Prod.snd hc
        have := c1.2 _ h2 (fun msg => by simp)
        simp only []
        split
        · simp
        · apply ih
          show api.Results.length < fuel
          rw [h1]
          omega
      · rename_i api hc
        have h1 : api = as.ssooidc.CreateToken.1 := (congrArg Prod.fst hc).symm
        have h2 : as.ssooidc.CreateToken.2 = .error .ExpiredToken := congrArg Prod.snd hc
        have := c1.2 _ h2 (fun msg => by simp)
        apply ih
        show api.Results.length < fuel
        rw [h1]
        omega
      · simp
      · simp

/-- `Authenticate` never ends for lack of fuel. -/
theorem Authenticate_fuel (urlAction browser : String) (as : AWSSSO) :
    (Authenticate urlAction browser as).2 ≠ some .OutOfFuel := by
  unfold Authenticate
  simp only []
  split
  · simp
  · exact authMachine_fuel _ _ _ _ _ (Nat.lt_succ_self _)

/-- A run of the machine that ends without an error leaves a token in the state, and
the same token in the store under the store key. -/
theorem authMachine_ok (urlAction browser : String) :
    ∀ (fuel : Nat) (phase : Phase) (as as1 : AWSSSO),
      authMachine urlAction browser fuel phase as = (as1, none) →
      ∃ token, as1.Token = some token ∧ as1.store.tokens as1.StoreKey = some token := by
  intro fuel
  induction fuel with
  | zero =>
    intro phase as as1 h
    simp [authMachine] at h
  | succ fuel ih =>
    intro phase as as1 h
    cases phase with
    | init =>
      unfold authMachine at h
      split at h
      · simp at h
      · simp only [] at h
        split at h
        · simp at h
        · split at h
          · simp at h
          · split at h
            · exact ih _ _ _ h
            · exact ih _ _ _ h
    | polling interval deadline =>
      unfold authMachine at h
      split at h
      · simp only [Prod.mk.injEq, and_true] at h
        subst h
        exact ⟨_, rfl, by simp [AWSSSO.StoreKey]⟩
      · simp only [] at h
        split at h
        · simp at h
        · exact ih _ _ _ h
      · simp only [] at h
        split at h
        · simp at h
        · exact ih _ _ _ h
      · exact ih _ _ _ h
      · simp at h
      · simp at h

theorem Authenticate_ok (urlAction browser : String) (as as1 : AWSSSO)
    (h : Authenticate urlAction browser as = (as1, none)) :
    ∃ token, as1.Token = some token ∧ as1.store.tokens as1.StoreKey = some token := by
  unfold Authenticate at h
  simp only [] at h
  split at h
  · rename_i token hc
    simp only [Prod.mk.injEq, and_true] at h
    subst h
    refine ⟨token, rfl, ?_⟩
    show as.store.tokens as.StoreKey = some token
    split at hc
    · split at hc
      · simp at hc
      · rename_i t ht _
        simp only [Option.some.injEq] at hc
        rw [ht, hc]
    · simp at hc
  · exact authMachine_ok _ _ _ _ _ _ h

/-- C16: after a successful `Authenticate`, a second `Authenticate` at a time `t` at
which the token is not expired, with any url action and browser, succeeds and leaves
the state as it is: the queue and the calls of the remote API are the same (no remote
call is made) and the token is the same. -/
theorem authenticate_idempotent (urlAction browser urlAction2 browser2 : String)
    (as as1 : AWSSSO) (t : Int) (h1 : Authenticate urlAction browser as = (as1, none))
    (hvalid : ∀ token, as1.Token = some token → t < token.ExpiresAt - as1.safetyMargin) :
    (∃ token, as1.Token = some token)
    ∧ Authenticate urlAction2 browser2 { as1 with now := t } = ({ as1 with now := t }, none)
    ∧ (Authenticate urlAction2 browser2 { as1 with now := t }).1.ssooidc = as1.ssooidc
    ∧ (Authenticate urlAction2 browser2 { as1 with now := t }).1.Token = as1.Token := by
  obtain ⟨token, htok, hstore⟩ := Authenticate_ok urlAction browser as as1 h1
  have hlt := hvalid token htok
  have hres : Authenticate urlAction2 browser2 { as1 with now := t }
      = ({ as1 with now := t }, none) := by
    unfold Authenticate
    have hkey : ({ as1 with now := t } : AWSSSO).StoreKey = as1.StoreKey := rfl
    have hexp : tokenExpired { as1 with now := t } token = false := by
      simp only [tokenExpired, decide_eq_false_iff_not, ge_iff_le, not_le]
      exact hlt
    simp only [hkey, hstore, hexp, Bool.false_eq_true, if_false]
    rw [htok]
  refine ⟨⟨token, htok⟩, hres, ?_, ?_⟩
  · rw [hres]
  · rw [hres]

theorem authenticate_idempotent_witness :
    (Authenticate "print" "fake-browser" (sampleAWSSSO happyScript)).1.ssooidc.calls
      = [.RegisterClient, .StartDeviceAuthorization, .CreateToken]
    ∧ Authenticate "" ""
        { (Authenticate "print" "fake-browser" (sampleAWSSSO happyScript)).1 with now := 1000 }
      = ({ (Authenticate "print" "fake-browser" (sampleAWSSSO happyScript)).1 with
            now := 1000 }, none) :=
  ⟨by decide,
   (authenticate_idempotent "print" "fake-browser" "" "" (sampleAWSSSO happyScript)
      (Authenticate "print" "fake-browser" (sampleAWSSSO happyScript)).1 1000
      (Prod.ext rfl (by decide))
      (fun token h => by
        have e : (Authenticate "print" "fake-browser" (sampleAWSSSO happyScript)).1.Token
            = some { AccessToken := "access-token", ExpiresIn := 1005, ExpiresAt := 2005,
                     IdToken := "id-token", RefreshToken := "refresh-token",
                     TokenType := "token-type" } := by decide
        rw [e] at h
        injection h with h
        subst h
        decide)).2.1⟩

end AwsSso

namespace AwsSso

/-! ## The stored record: the blob in the keyring -/

/-- The function `getStorageData` decodes the blob that the keyring holds, and returns
the empty record when no blob can be read. -/
theorem getStorageData_of_storedBlob {R T C : Type} (cd : Codec R T C) (kr : KeyringStore) :
    getStorageData cd kr
      = match storedBlob kr with
        | .error _ => .ok NewStorageData
        | .ok data => cd.storageDataUnmarshal data := by
  unfold getStorageData storedBlob getKeyringData
  by_cases hw : getMyGOOS kr = "windows"
  · simp only [hw, if_true]
  · simp only [hw, if_false]

/-- After a successful `saveStorageData` the keyring holds the encoding of the record
that was saved, on the single-key and on the chunked path. -/
theorem storedBlob_after_save {R T C : Type} (cd : Codec R T C) (kr : KeyringStore)
    (s : StorageData R T C) (hne : cd.Marshal s ≠ []) (hlen : (cd.Marshal s).length < 2 ^ 64)
    (h : (saveStorageData cd kr s).2 = none) :
    storedBlob (saveStorageData cd kr s).1 = .ok (cd.Marshal s) := by
  by_cases hw : getMyGOOS kr = "windows"
  · have hsave : saveStorageData cd kr s
        = splitAndSetStorageData kr (cd.Marshal s) RECORD_KEY KEYRING_ID := by
      unfold saveStorageData
      simp only [hw, if_true]
    rw [hsave] at h ⊢
    obtain ⟨n, inv, _⟩ := splitAndSet_inv (Prod.ext rfl h)
    have hg : getMyGOOS (splitAndSetStorageData kr (cd.Marshal s) RECORD_KEY KEYRING_ID).1
        = "windows" := by
      rw [getMyGOOS_congr inv.goos.1 inv.goos.2]
      exact hw
    have hj := join_after_split hne hlen (Prod.ext rfl h)
    unfold storedBlob
    simp only [hg, if_true, hj]
  · have hsave : saveStorageData cd kr s
        = setStorageData kr (cd.Marshal s) RECORD_KEY KEYRING_ID := by
      unfold saveStorageData
      simp only [hw, if_false]
    rw [hsave] at h ⊢
    have e : (setStorageData kr (cd.Marshal s) RECORD_KEY KEYRING_ID).1
        = { kr with
            keyring := kr.keyring.put ⟨RECORD_KEY, cd.Marshal s, KEYRING_ID, "aws-sso secure storage"⟩ } :=
      setStorageData_ok (Prod.ext rfl h)
    have hg : getMyGOOS (setStorageData kr (cd.Marshal s) RECORD_KEY KEYRING_ID).1
        ≠ "windows" := by
      rw [e]
      exact hw
    unfold storedBlob
    simp only [hg, if_false]
    rw [e]
    have := Get_put_same kr.keyring
      ⟨RECORD_KEY, cd.Marshal s, KEYRING_ID, "aws-sso secure storage"⟩
    simp only [] at this ⊢
    rw [this]

/-- C18: in each family `Get(k)` returns an error if and only if the decoded stored
blob has no record under the key (`client-data:` followed by the region,
`token-response:` followed by the key, or the ARN itself), and `Delete(k)` returns an
error if and only if that same record is absent. The stored blob is the one that the
keyring holds under the record key (the data of the single entry, or the payload that
the chunks join to), and `s` is what it decodes to; when the keyring holds no blob
that can be read, every `Get` and every `Delete` returns an error. -/
theorem get_delete_error_iff {R T C : Type} (cd : Codec R T C) (kr : KeyringStore) :
    (∀ (data : Bytes) (s : StorageData R T C),
      storedBlob kr = .ok data → cd.storageDataUnmarshal data = .ok s →
      (∀ region : String,
        ((∃ err, GetRegisterClientData cd kr region = .error err)
          ↔ s.RegisterClientData ("client-data:" ++ region) = none)
        ∧ ((∃ err, (DeleteRegisterClientData cd kr region).2 = some err)
          ↔ s.RegisterClientData ("client-data:" ++ region) = none))
      ∧ (∀ key : String,
        ((∃ err, GetCreateTokenResponse cd kr key = .error err)
          ↔ s.CreateTokenResponse ("token-response:" ++ key) = none)
        ∧ ((∃ err, (DeleteCreateTokenResponse cd kr key).2 = some err)
          ↔ s.CreateTokenResponse ("token-response:" ++ key) = none))
      ∧ (∀ arn : String,
        ((∃ err, GetRoleCredentials cd kr arn = .error err) ↔ s.RoleCredentials arn = none)
        ∧ ((∃ err, (DeleteRoleCredentials cd kr arn).2 = some err)
          ↔ s.RoleCredentials arn = none)))
    ∧ (∀ e : StoreError, storedBlob kr = .error e →
      ∀ k : String,
        (∃ err, GetRegisterClientData cd kr k = .error err)
        ∧ (∃ err, (DeleteRegisterClientData cd kr k).2 = some err)
        ∧ (∃ err, GetCreateTokenResponse cd kr k = .error err)
        ∧ (∃ err, (DeleteCreateTokenResponse cd kr k).2 = some err)
        ∧ (∃ err, GetRoleCredentials cd kr k = .error err)
        ∧ (∃ err, (DeleteRoleCredentials cd kr k).2 = some err)) := by
  constructor
  · intro data s hread hdec
    have hs : getStorageData cd kr = .ok s := by
      rw [getStorageData_of_storedBlob, hread]
      exact hdec
    refine ⟨fun region => ⟨?_, ?_⟩, fun key => ⟨?_, ?_⟩, fun arn => ⟨?_, ?_⟩⟩
    · unfold GetRegisterClientData
      simp only [hs, RegisterClientKey_eq]
      cases s.RegisterClientData ("client-data:" ++ region) <;> simp
    · unfold DeleteRegisterClientData
      simp only [hs, RegisterClientKey_eq]
      cases s.RegisterClientData ("client-data:" ++ region) <;> simp
    · unfold GetCreateTokenResponse
      simp only [hs, CreateTokenResponseKey_eq]
      cases s.CreateTokenResponse ("token-response:" ++ key) <;> simp
    · unfold DeleteCreateTokenResponse
      simp only [hs, CreateTokenResponseKey_eq]
      cases s.CreateTokenResponse ("token-response:" ++ key) <;> simp
    · unfold GetRoleCredentials
      simp only [hs]
      cases s.RoleCredentials arn <;> simp
    · unfold DeleteRoleCredentials
      simp only [hs]
      cases s.RoleCredentials arn <;> simp
  · intro e hread k
    have hs : getStorageData cd kr = .ok (NewStorageData : StorageData R T C) := by
      rw [getStorageData_of_storedBlob, hread]
    refine ⟨?_, ?_, ?_, ?_, ?_, ?_⟩
    · unfold GetRegisterClientData
      simp [hs, NewStorageData]
    · unfold DeleteRegisterClientData
      simp [hs, NewStorageData]
    · unfold GetCreateTokenResponse
      simp [hs, NewStorageData]
    · unfold DeleteCreateTokenResponse
      simp [hs, NewStorageData]
    · unfold GetRoleCredentials
      simp [hs, NewStorageData]
    · unfold DeleteRoleCredentials
      simp [hs, NewStorageData]

theorem sampleCodec_decodes_registration :
    sampleCodec.storageDataUnmarshal [123, 8, 0, 0, 125] = .ok registrationRecord := by
  simp [sampleCodec, NewStorageData, sampleDec, registrationRecord,
    StorageData.setRegisterClientData]
  rfl

theorem get_delete_error_iff_witness :
    storedBlob registrationStore = .ok [123, 8, 0, 0, 125]
    ∧ storedBlob registrationLinuxStore = .ok [123, 8, 0, 0, 125]
    ∧ registrationRecord.RegisterClientData ("client-data:" ++ sampleRegion) = some 7
    ∧ registrationRecord.RegisterClientData ("client-data:" ++ "eu-west-1") = none
    ∧ (¬ ∃ err, GetRegisterClientData sampleCodec registrationStore sampleRegion = .error err)
    ∧ (¬ ∃ err, (DeleteRegisterClientData sampleCodec registrationLinuxStore sampleRegion).2
        = some err)
    ∧ (∃ err, GetRegisterClientData sampleCodec registrationStore "eu-west-1" = .error err)
    ∧ (∃ err, (DeleteRegisterClientData sampleCodec registrationLinuxStore "eu-west-1").2
        = some err)
    ∧ (∃ err, GetCreateTokenResponse sampleCodec registrationStore sampleTokenKey = .error err)
    ∧ (∃ err, (DeleteRoleCredentials sampleCodec registrationLinuxStore sampleArn).2
        = some err)
    ∧ (∃ err, GetRoleCredentials sampleCodec emptyWindowsStore sampleArn = .error err) :=
  have hw := (get_delete_error_iff sampleCodec registrationStore).1 [123, 8, 0, 0, 125]
    registrationRecord (by decide) sampleCodec_decodes_registration
  have hl := (get_delete_error_iff sampleCodec registrationLinuxStore).1 [123, 8, 0, 0, 125]
    registrationRecord (by decide) sampleCodec_decodes_registration
  ⟨by decide, by decide, by decide, by decide,
    fun hex => by
      have hnone := (hw.1 sampleRegion).1.mp hex
      revert hnone
      decide,
    fun hex => by
      have hnone := (hl.1 sampleRegion).2.mp hex
      revert hnone
      decide,
    (hw.1 "eu-west-1").1.mpr (by decide),
    (hl.1 "eu-west-1").2.mpr (by decide),
    (hw.2.1 sampleTokenKey).1.mpr (by decide),
    (hl.2.2 sampleArn).2.mpr (by decide),
    ((get_delete_error_iff sampleCodec emptyWindowsStore).2 .ErrKeyNotFound (by decide)
      sampleArn).2.2.2.2.1⟩

/-- C19: a successful `Save(k, v)` in one family changes only the record under `k` of
that family. The record `s` is what the blob stored before decodes to (the empty
record when the keyring holds no blob that can be read). When decoding inverts encoding
at the record that `Save` writes, the keyring holds a blob afterwards, and the record
that this blob decodes to holds `v` under `k`, holds under every other key of the
family what `s` holds, and agrees with `s` on the other two families. -/
theorem save_frame {R T C : Type} (cd : Codec R T C) (kr : KeyringStore)
    (s : StorageData R T C)
    (hs : (∃ data, storedBlob kr = .ok data ∧ cd.storageDataUnmarshal data = .ok s)
      ∨ ((∃ e, storedBlob kr = .error e) ∧ s = NewStorageData)) :
    (∀ (region : String) (client : R),
      cd.Inverts (s.setRegisterClientData (RegisterClientKey region) client) →
      (SaveRegisterClientData cd kr region client).2 = none →
      ∃ data1 s1, storedBlob (SaveRegisterClientData cd kr region client).1 = .ok data1
        ∧ cd.storageDataUnmarshal data1 = .ok s1
        ∧ s1.RegisterClientData (RegisterClientKey region) = some client
        ∧ (∀ k, k ≠ RegisterClientKey region → s1.RegisterClientData k = s.RegisterClientData k)
        ∧ s1.CreateTokenResponse = s.CreateTokenResponse
        ∧ s1.RoleCredentials = s.RoleCredentials)
    ∧ (∀ (key : String) (token : T),
      cd.Inverts (s.setCreateTokenResponse (CreateTokenResponseKey key) token) →
      (SaveCreateTokenResponse cd kr key token).2 = none →
      ∃ data1 s1, storedBlob (SaveCreateTokenResponse cd kr key token).1 = .ok data1
        ∧ cd.storageDataUnmarshal data1 = .ok s1
        ∧ s1.CreateTokenResponse (CreateTokenResponseKey key) = some token
        ∧ (∀ k, k ≠ CreateTokenResponseKey key →
            s1.CreateTokenResponse k = s.CreateTokenResponse k)
        ∧ s1.RegisterClientData = s.RegisterClientData
        ∧ s1.RoleCredentials = s.RoleCredentials)
    ∧ (∀ (arn : String) (token : C),
      cd.Inverts (s.setRoleCredentials arn token) →
      (SaveRoleCredentials cd kr arn token).2 = none →
      ∃ data1 s1, storedBlob (SaveRoleCredentials cd kr arn token).1 = .ok data1
        ∧ cd.storageDataUnmarshal data1 = .ok s1
        ∧ s1.RoleCredentials arn = some token
        ∧ (∀ k, k ≠ arn → s1.RoleCredentials k = s.RoleCredentials k)
        ∧ s1.RegisterClientData = s.RegisterClientData
        ∧ s1.CreateTokenResponse = s.CreateTokenResponse) := by
  have hget : getStorageData cd kr = .ok s := by
    rw [getStorageData_of_storedBlob]
    rcases hs with ⟨data, hread, hdec⟩ | ⟨⟨e, hread⟩, hnew⟩
    · rw [hread]
      exact hdec
    · rw [hread, hnew]
  refine ⟨?_, ?_, ?_⟩
  · intro region client hinv
    unfold SaveRegisterClientData
    simp only [hget]
    intro h
    refine ⟨_, _, storedBlob_after_save cd kr _ hinv.2.1 hinv.2.2 h, hinv.1, ?_, ?_, rfl, rfl⟩
    · simp [StorageData.setRegisterClientData]
    · intro k hk
      simp [StorageData.setRegisterClientData, Function.update_noteq hk]
  · intro key token hinv
    unfold SaveCreateTokenResponse
    simp only [hget]
    intro h
    refine ⟨_, _, storedBlob_after_save cd kr _ hinv.2.1 hinv.2.2 h, hinv.1, ?_, ?_, rfl, rfl⟩
    · simp [StorageData.setCreateTokenResponse]
    · intro k hk
      simp [StorageData.setCreateTokenResponse, Function.update_noteq hk]
  · intro arn token hinv
    unfold SaveRoleCredentials
    simp only [hget]
    intro h
    refine ⟨_, _, storedBlob_after_save cd kr _ hinv.2.1 hinv.2.2 h, hinv.1, ?_, ?_, rfl, rfl⟩
    · simp [StorageData.setRoleCredentials]
    · intro k hk
      simp [StorageData.setRoleCredentials, Function.update_noteq hk]

theorem twoRegionCodec_inverts_second_registration :
    twoRegionCodec.Inverts
      (registrationTokenRecord.setRegisterClientData (RegisterClientKey otherRegion) 9) := by
  refine ⟨?_, by decide, by decide⟩
  simp [twoRegionCodec, registrationTokenRecord, sampleEnc, sampleDec, byteOf,
    StorageData.setRegisterClientData]
  constructor <;> rfl

theorem save_frame_witness :
    storedBlob registrationTokenStore = .ok [123, 8, 0, 9, 0, 125]
    ∧ twoRegionCodec.storageDataUnmarshal [123, 8, 0, 9, 0, 125] = .ok registrationTokenRecord
    ∧ registrationTokenRecord.RegisterClientData (RegisterClientKey sampleRegion) = some 7
    ∧ registrationTokenRecord.CreateTokenResponse (CreateTokenResponseKey sampleTokenKey)
      = some 8
    ∧ ∃ data1 s1,
      storedBlob (SaveRegisterClientData twoRegionCodec registrationTokenStore otherRegion 9).1
        = .ok data1
      ∧ twoRegionCodec.storageDataUnmarshal data1 = .ok s1
      ∧ s1.RegisterClientData (RegisterClientKey otherRegion) = some 9
      ∧ s1.RegisterClientData (RegisterClientKey sampleRegion) = some 7
      ∧ s1.CreateTokenResponse (CreateTokenResponseKey sampleTokenKey) = some 8
      ∧ s1.RoleCredentials = registrationTokenRecord.RoleCredentials :=
  have hstored : storedBlob registrationTokenStore = .ok [123, 8, 0, 9, 0, 125] := by decide
  have hdec : twoRegionCodec.storageDataUnmarshal [123, 8, 0, 9, 0, 125]
      = .ok registrationTokenRecord := rfl
  have hframe := (save_frame twoRegionCodec registrationTokenStore registrationTokenRecord
    (Or.inl ⟨_, hstored, hdec⟩)).1 otherRegion 9 twoRegionCodec_inverts_second_registration
    (by decide)
  ⟨hstored, hdec, by decide, by decide,
    hframe.elim fun data1 h1 => h1.elim fun s1 h =>
      ⟨data1, s1, h.1, h.2.1, h.2.2.1,
        (h.2.2.2.1 (RegisterClientKey sampleRegion) (by decide)).trans (by decide),
        (congrFun h.2.2.2.2.1 (CreateTokenResponseKey sampleTokenKey)).trans (by decide),
        h.2.2.2.2.2⟩⟩

end AwsSso

namespace AwsSso

/-! ## The device flow: failures of the remote API -/

theorem mock_calls (m : mockSsoOidcApi) :
    m.RegisterClient.1.calls = m.calls ++ [.RegisterClient]
    ∧ m.StartDeviceAuthorization.1.calls = m.calls ++ [.StartDeviceAuthorization]
    ∧ m.CreateToken.1.calls = m.calls ++ [.CreateToken] := by
  refine ⟨?_, ?_, ?_⟩
  · unfold mockSsoOidcApi.RegisterClient
    simp only []
    split
    · rfl
    · split <;> rfl
  · unfold mockSsoOidcApi.StartDeviceAuthorization
    simp only []
    split
    · rfl
    · split <;> rfl
  · unfold mockSsoOidcApi.CreateToken
    simp only []
    split
    · rfl
    · split <;> rfl

/-- A `RegisterClient` that returns an output took a result off a queue that was not
empty. -/
theorem mock_RegisterClient_ok_length (m : mockSsoOidcApi) (out : RegisterClientOutput)
    (h : m.RegisterClient.2 = .ok out) :
    m.RegisterClient.1.Results.length < m.Results.length := by
  unfold mockSsoOidcApi.RegisterClient at h ⊢
  simp only [] at h ⊢
  split
  · rename_i hnil
    simp [hnil] at h
  · rename_i x rest hcons
    rw [hcons] at h
    simp only [] at h
    split
    · rename_i hx
      simp [hx] at h
    · simp [hcons]

/-- The registration step when it calls the remote API: with `force`, or over a store
without a registration that is not expired, it makes the call `RegisterClient` and
returns its error. -/
theorem registerClient_fresh (force : Bool) (as : AWSSSO)
    (h : force = true
      ∨ ∀ reg, as.store.registrations as.SsoRegion = some reg → registrationExpired as reg = true) :
    (registerClient force as).1.ssooidc = as.ssooidc.RegisterClient.1
    ∧ (registerClient force as).2
      = (match as.ssooidc.RegisterClient.2 with
        | .error err => some (.RemoteError err)
        | .ok _ => none)
    ∧ (registerClient force as).1.execOpener = as.execOpener := by
  unfold registerClient
  rcases hm : as.ssooidc.RegisterClient with ⟨api, r⟩
  rcases h with h | h
  · subst h
    cases r <;> simp [hm]
  · cases force
    · cases hs : as.store.registrations as.SsoRegion with
      | none => cases r <;> simp [hm, hs]
      | some reg =>
        have := h reg hs
        cases r <;> simp [hm, hs, this]
    · cases r <;> simp [hm]

/-- The registration step over a store with a registration that is not expired makes
no call. -/
theorem registerClient_stored (as : AWSSSO) (reg : ClientRegistration)
    (hs : as.store.registrations as.SsoRegion = some reg)
    (he : registrationExpired as reg = false) :
    (registerClient false as).1.ssooidc = as.ssooidc ∧ (registerClient false as).2 = none
    ∧ (registerClient false as).1.execOpener = as.execOpener := by
  unfold registerClient
  simp [hs, he]

theorem startDeviceAuthorization_call (as : AWSSSO) :
    (startDeviceAuthorization as).1.ssooidc = as.ssooidc.StartDeviceAuthorization.1
    ∧ (startDeviceAuthorization as).2
      = (match as.ssooidc.StartDeviceAuthorization.2 with
        | .error err => some (.RemoteError err)
        | .ok _ => none)
    ∧ (startDeviceAuthorization as).1.execOpener = as.execOpener := by
  unfold startDeviceAuthorization
  rcases hm : as.ssooidc.StartDeviceAuthorization with ⟨api, r⟩
  cases r <;> simp [hm]

theorem registerClient_step_ok (as : AWSSSO) (m1 : mockSsoOidcApi)
    (h : AfterRegistration as m1) :
    ∃ as1, registerClient false as = (as1, none) ∧ as1.ssooidc = m1
      ∧ as1.execOpener = as.execOpener := by
  rcases h with ⟨⟨reg, hs, he⟩, hm⟩ | ⟨hno, ⟨out, hok⟩, hm⟩
  · obtain ⟨h1, h2, h3⟩ := registerClient_stored as reg hs he
    exact ⟨_, Prod.ext rfl h2, by rw [h1, hm], h3⟩
  · obtain ⟨h1, h2, h3⟩ := registerClient_fresh false as (Or.inr hno)
    rw [hok] at h2
    exact ⟨_, Prod.ext rfl h2, by rw [h1, hm], h3⟩

theorem registerClient_step_error (force : Bool) (as : AWSSSO) (err : RemoteError)
    (h : force = true
      ∨ ∀ reg, as.store.registrations as.SsoRegion = some reg → registrationExpired as reg = true)
    (herr : as.ssooidc.RegisterClient.2 = .error err) :
    ∃ as1, registerClient force as = (as1, some (.RemoteError err))
      ∧ as1.ssooidc = as.ssooidc.RegisterClient.1 := by
  obtain ⟨h1, h2, _⟩ := registerClient_fresh force as h
  rw [herr] at h2
  exact ⟨_, Prod.ext rfl h2, h1⟩

theorem registerClient_rotation_ok (as : AWSSSO) (out : RegisterClientOutput)
    (hok : as.ssooidc.RegisterClient.2 = .ok out) :
    ∃ as1, registerClient true as = (as1, none) ∧ as1.ssooidc = as.ssooidc.RegisterClient.1
      ∧ as1.execOpener = as.execOpener := by
  obtain ⟨h1, h2, h3⟩ := registerClient_fresh true as (Or.inl rfl)
  rw [hok] at h2
  exact ⟨_, Prod.ext rfl h2, h1, h3⟩

theorem startDeviceAuthorization_step_error (as : AWSSSO) (err : RemoteError)
    (herr : as.ssooidc.StartDeviceAuthorization.2 = .error err) :
    ∃ as1, startDeviceAuthorization as = (as1, some (.RemoteError err))
      ∧ as1.ssooidc = as.ssooidc.StartDeviceAuthorization.1
      ∧ as1.execOpener = as.execOpener := by
  obtain ⟨h1, h2, h3⟩ := startDeviceAuthorization_call as
  rw [herr] at h2
  exact ⟨_, Prod.ext rfl h2, h1, h3⟩

theorem startDeviceAuthorization_step_ok (as : AWSSSO) (out : StartDeviceAuthorizationOutput)
    (hok : as.ssooidc.StartDeviceAuthorization.2 = .ok out) :
    ∃ as1, startDeviceAuthorization as = (as1, none)
      ∧ as1.ssooidc = as.ssooidc.StartDeviceAuthorization.1
      ∧ as1.execOpener = as.execOpener := by
  obtain ⟨h1, h2, h3⟩ := startDeviceAuthorization_call as
  rw [hok] at h2
  exact ⟨_, Prod.ext rfl h2, h1, h3⟩

/-- The BrowserLauncher returns no error for the url actions of `launches`, and makes
no call of the remote API. -/
theorem BrowserLauncher_step_ok (urlAction browser : String) (as s : AWSSSO)
    (hl : launches urlAction browser as) (he : s.execOpener = as.execOpener) :
    ∃ s1, BrowserLauncher urlAction browser s = (s1, none) ∧ s1.ssooidc = s.ssooidc := by
  refine ⟨_, Prod.ext rfl ?_, (BrowserLauncher_spec urlAction browser s).1⟩
  unfold BrowserLauncher
  rcases hl with h | h | h | ⟨h, ho⟩
  · subst h
    simp
  · subst h
    simp
  · subst h
    simp
  · subst h
    simp [he, ho]

/-- While polling, an error of `CreateToken` that is not a signal of the device flow
ends the run and is returned. -/
theorem authMachine_polling_error (urlAction browser : String) (fuel : Nat)
    (interval deadline : Int) (s : AWSSSO) :
    (∀ msg, s.ssooidc.CreateToken.2 = .error (.Other msg) →
      authMachine urlAction browser (fuel + 1) (.polling interval deadline) s
        = ({ s with ssooidc := s.ssooidc.CreateToken.1 }, some (.RemoteError (.Other msg))))
    ∧ (s.ssooidc.CreateToken.2 = .error .AccessDenied →
      authMachine urlAction browser (fuel + 1) (.polling interval deadline) s
        = ({ s with ssooidc := s.ssooidc.CreateToken.1 }, some .AccessDenied)) := by
  constructor
  · intro msg h
    rw [authMachine]
    rcases hm : s.ssooidc.CreateToken with ⟨api, r⟩
    rw [hm] at h
    simp only [] at h
    subst h
    rfl
  · intro h
    rw [authMachine]
    rcases hm : s.ssooidc.CreateToken with ⟨api, r⟩
    rw [hm] at h
    simp only [] at h
    subst h
    rfl

/-- Without a token in the store that is not expired, `Authenticate` drives the
machine from `Init`. -/
theorem Authenticate_drives (urlAction browser : String) (as : AWSSSO)
    (hcache : ∀ token, as.store.tokens as.StoreKey = some token → tokenExpired as token = true) :
    Authenticate urlAction browser as
      = authMachine urlAction browser (as.ssooidc.Results.length + 1) .init as := by
  unfold Authenticate
  cases ht : as.store.tokens as.StoreKey with
  | none => simp
  | some token => simp [hcache token ht]

theorem AfterRegistration_length (as : AWSSSO) (m1 : mockSsoOidcApi)
    (h : AfterRegistration as m1) : m1.Results.length ≤ as.ssooidc.Results.length := by
  rcases h with ⟨_, hm⟩ | ⟨_, _, hm⟩
  · rw [hm]
  · rw [hm]
    exact mock_RegisterClient_length _

theorem AfterStart_length (m1 mS : mockSsoOidcApi) (h : AfterStart m1 mS) :
    mS.Results.length < m1.Results.length := by
  rcases h with ⟨⟨auth, hok⟩, hm⟩ | ⟨_, _, ⟨auth, hok⟩, hm⟩
  · rw [hm]
    exact (mock_StartDeviceAuthorization_length _).2 auth hok
  · rw [hm]
    have h1 := (mock_StartDeviceAuthorization_length
      m1.StartDeviceAuthorization.1.RegisterClient.1).2 auth hok
    have h2 := mock_RegisterClient_length m1.StartDeviceAuthorization.1
    have h3 := (mock_StartDeviceAuthorization_length m1).1
    omega

/-- From `Init`, when the registration step and the device authorization step succeed
and the BrowserLauncher returns no error, the machine goes on to poll, with the remote
API that the device authorization step left. -/
theorem authMachine_init_polls (urlAction browser : String) (fuel : Nat) (as : AWSSSO)
    (m1 mS : mockSsoOidcApi) (hl : launches urlAction browser as)
    (hr : AfterRegistration as m1) (hs : AfterStart m1 mS) :
    ∃ s interval deadline, s.ssooidc = mS
      ∧ authMachine urlAction browser (fuel + 1) .init as
        = authMachine urlAction browser fuel (.polling interval deadline) s := by
  obtain ⟨as1, h1, hm1, he1⟩ := registerClient_step_ok as m1 hr
  rcases hs with ⟨⟨auth, hok⟩, hm⟩ | ⟨⟨err, herr⟩, ⟨out, hrok⟩, ⟨auth, hok⟩, hm⟩
  · rw [← hm1] at hok hm
    obtain ⟨as2, h2, hm2, he2⟩ := startDeviceAuthorization_step_ok as1 auth hok
    obtain ⟨as5, h5, hm5⟩ :=
      BrowserLauncher_step_ok urlAction browser as as2 hl (by rw [he2, he1])
    cases hd : as5.DeviceAuth with
    | none =>
      refine ⟨as5, 0, as5.now, by rw [hm5, hm2, hm], ?_⟩
      rw [authMachine]
      simp only [h1, h2, h5, hd]
    | some auth =>
      refine ⟨as5, auth.Interval, as5.now + auth.ExpiresIn, by rw [hm5, hm2, hm], ?_⟩
      rw [authMachine]
      simp only [h1, h2, h5, hd]
  · rw [← hm1] at herr hrok hok hm
    obtain ⟨as2, h2, hm2, he2⟩ := startDeviceAuthorization_step_error as1 err herr
    rw [← hm2] at hrok hok hm
    obtain ⟨as3, h3, hm3, he3⟩ := registerClient_rotation_ok as2 out hrok
    rw [← hm3] at hok hm
    obtain ⟨as4, h4, hm4, he4⟩ := startDeviceAuthorization_step_ok as3 auth hok
    obtain ⟨as5, h5, hm5⟩ :=
      BrowserLauncher_step_ok urlAction browser as as4 hl (by rw [he4, he3, he2, he1])
    cases hd : as5.DeviceAuth with
    | none =>
      refine ⟨as5, 0, as5.now, by rw [hm5, hm4, hm], ?_⟩
      rw [authMachine]
      simp only [h1, h2, h3, h4, h5, hd]
    | some auth =>
      refine ⟨as5, auth.Interval, as5.now + auth.ExpiresIn, by rw [hm5, hm4, hm], ?_⟩
      rw [authMachine]
      simp only [h1, h2, h3, h4, h5, hd]

/-- C15: `Authenticate` over a store without a token that is not expired, with the
calls of the remote API that it makes. (1) Over a store without a registration that is
not expired, an error of the first `RegisterClient` is returned, and that call is the
only one. (2) When `StartDeviceAuthorization` fails after the registration step (a
successful `RegisterClient`, or a stored registration that is not expired), one
`RegisterClient` call follows; its error is returned; when it succeeds, one
`StartDeviceAuthorization` follows, and when that fails too its error is returned and
the calls made since the registration step are these three. (3) When the device
authorization step succeeds, at once or after the rotation, and the BrowserLauncher
returns no error (the url action is `print`, `open`, `clip`, or `exec` with an opener
that starts), an error of the `CreateToken` that follows is returned (a remote failure
or `AccessDenied`; the signals `AuthorizationPending`, `SlowDown` and `ExpiredToken`
are consumed by the machine), and no call follows it. -/
theorem authenticate_start_failure (urlAction browser : String) (as : AWSSSO)
    (hcache : ∀ token, as.store.tokens as.StoreKey = some token → tokenExpired as token = true) :
    ((∀ reg, as.store.registrations as.SsoRegion = some reg → registrationExpired as reg = true) →
      ∀ err, as.ssooidc.RegisterClient.2 = .error err →
        (Authenticate urlAction browser as).2 = some (.RemoteError err)
        ∧ (Authenticate urlAction browser as).1.ssooidc = as.ssooidc.RegisterClient.1
        ∧ (Authenticate urlAction browser as).1.ssooidc.calls
          = as.ssooidc.calls ++ [.RegisterClient])
    ∧ (∀ m1 err1, AfterRegistration as m1 → m1.StartDeviceAuthorization.2 = .error err1 →
      (∀ err, m1.StartDeviceAuthorization.1.RegisterClient.2 = .error err →
        (Authenticate urlAction browser as).2 = some (.RemoteError err)
        ∧ (Authenticate urlAction browser as).1.ssooidc
          = m1.StartDeviceAuthorization.1.RegisterClient.1
        ∧ (Authenticate urlAction browser as).1.ssooidc.calls
          = m1.calls ++ [.StartDeviceAuthorization, .RegisterClient])
      ∧ (∀ out err2, m1.StartDeviceAuthorization.1.RegisterClient.2 = .ok out →
        m1.StartDeviceAuthorization.1.RegisterClient.1.StartDeviceAuthorization.2
          = .error err2 →
        (Authenticate urlAction browser as).2 = some (.RemoteError err2)
        ∧ (Authenticate urlAction browser as).1.ssooidc
          = m1.StartDeviceAuthorization.1.RegisterClient.1.StartDeviceAuthorization.1
        ∧ (Authenticate urlAction browser as).1.ssooidc.calls
          = m1.calls ++ [.StartDeviceAuthorization, .RegisterClient,
              .StartDeviceAuthorization]))
    ∧ (∀ m1 mS, launches urlAction browser as → AfterRegistration as m1 → AfterStart m1 mS →
      (∀ msg, mS.CreateToken.2 = .error (.Other msg) →
        (Authenticate urlAction browser as).2 = some (.RemoteError (.Other msg))
        ∧ (Authenticate urlAction browser as).1.ssooidc = mS.CreateToken.1
        ∧ (Authenticate urlAction browser as).1.ssooidc.calls = mS.calls ++ [.CreateToken])
      ∧ (mS.CreateToken.2 = .error .AccessDenied →
        (Authenticate urlAction browser as).2 = some .AccessDenied
        ∧ (Authenticate urlAction browser as).1.ssooidc = mS.CreateToken.1
        ∧ (Authenticate urlAction browser as).1.ssooidc.calls = mS.calls ++ [.CreateToken])) := by
  rw [Authenticate_drives urlAction browser as hcache]
  refine ⟨?_, ?_, ?_⟩
  · intro hno err herr
    obtain ⟨as1, h1, hm1⟩ := registerClient_step_error false as err (Or.inr hno) herr
    have hmachine : authMachine urlAction browser (as.ssooidc.Results.length + 1) .init as
        = (as1, some (.RemoteError err)) := by
      rw [authMachine]
      simp only [h1]
    rw [hmachine]
    exact ⟨rfl, hm1, by rw [hm1]; exact (mock_calls _).1⟩
  · intro m1 err1 hr herr1
    obtain ⟨as1, h1, hm1, _⟩ := registerClient_step_ok as m1 hr
    rw [← hm1] at herr1
    obtain ⟨as2, h2, hm2, _⟩ := startDeviceAuthorization_step_error as1 err1 herr1
    constructor
    · intro err herr
      rw [← hm1, ← hm2] at herr
      obtain ⟨as3, h3, hm3⟩ := registerClient_step_error true as2 err (Or.inl rfl) herr
      have hmachine : authMachine urlAction browser (as.ssooidc.Results.length + 1) .init as
          = (as3, some (.RemoteError err)) := by
        rw [authMachine]
        simp only [h1, h2, h3]
      rw [hmachine]
      refine ⟨rfl, by rw [hm3, hm2, hm1], ?_⟩
      show as3.ssooidc.calls = _
      rw [hm3, hm2, hm1, (mock_calls _).1, (mock_calls _).2.1, List.append_assoc]
      rfl
    · intro out err2 hok herr2
      rw [← hm1, ← hm2] at hok herr2
      obtain ⟨as3, h3, hm3, _⟩ := registerClient_rotation_ok as2 out hok
      rw [← hm3] at herr2
      obtain ⟨as4, h4, hm4, _⟩ := startDeviceAuthorization_step_error as3 err2 herr2
      have hmachine : authMachine urlAction browser (as.ssooidc.Results.length + 1) .init as
          = (as4, some (.RemoteError err2)) := by
        rw [authMachine]
        simp only [h1, h2, h3, h4]
      rw [hmachine]
      refine ⟨rfl, by rw [hm4, hm3, hm2, hm1], ?_⟩
      show as4.ssooidc.calls = _
      rw [hm4, hm3, hm2, hm1, (mock_calls _).2.1, (mock_calls _).1, (mock_calls _).2.1,
        List.append_assoc, List.append_assoc]
      rfl
  · intro m1 mS hl hr hs
    have hlen : 0 < as.ssooidc.Results.length := by
      have := AfterRegistration_length as m1 hr
      have := AfterStart_length m1 mS hs
      omega
    obtain ⟨k, hk⟩ : ∃ k, as.ssooidc.Results.length = k + 1 := ⟨_, (Nat.succ_pred_eq_of_pos hlen).symm⟩
    rw [hk]
    obtain ⟨s, interval, deadline, hsS, hmachine⟩ :=
      authMachine_init_polls urlAction browser (k + 1) as m1 mS hl hr hs
    rw [hmachine]
    have hpoll := authMachine_polling_error urlAction browser k interval deadline s
    rw [hsS] at hpoll
    constructor
    · intro msg hmsg
      rw [hpoll.1 msg hmsg]
      exact ⟨rfl, rfl, (mock_calls _).2.2⟩
    · intro hden
      rw [hpoll.2 hden]
      exact ⟨rfl, rfl, (mock_calls _).2.2⟩

theorem authenticate_start_failure_witness :
    (Authenticate "print" "fake-browser" (sampleAWSSSO failureScript)).2
      = some (.RemoteError (.Other "some error"))
    ∧ (Authenticate "print" "fake-browser" (sampleAWSSSO failureScript)).1.ssooidc.calls
      = [.RegisterClient]
    ∧ (Authenticate "print" "fake-browser" failureSecond).2
      = some (.RemoteError (.Other "some error"))
    ∧ (Authenticate "print" "fake-browser" failureSecond).1.ssooidc.calls
      = [.RegisterClient, .RegisterClient, .StartDeviceAuthorization, .RegisterClient,
          .StartDeviceAuthorization]
    ∧ failureThird.store.registrations failureThird.SsoRegion
      = some { ClientId := "this-is-my-client-id", ClientSecret := "this-is-my-client-secret",
               ClientIdIssuedAt := 1000, ClientSecretExpiresAt := 1005 }
    ∧ (Authenticate "print" "fake-browser" failureThird).2
      = some (.RemoteError (.Other "some error"))
    ∧ (Authenticate "exec" "fake-browser" failureThird).2
      = some (.RemoteError (.Other "some error"))
    ∧ (Authenticate "exec" "fake-browser" failureThird).1.ssooidc.calls
      = [.RegisterClient, .RegisterClient, .StartDeviceAuthorization, .RegisterClient,
          .StartDeviceAuthorization, .RegisterClient, .StartDeviceAuthorization, .CreateToken] :=
  have hstored : failureThird.store.registrations failureThird.SsoRegion
      = some { ClientId := "this-is-my-client-id", ClientSecret := "this-is-my-client-secret",
               ClientIdIssuedAt := 1000, ClientSecretExpiresAt := 1005 } := by decide
  have hexpired : ∀ reg, failureThird.store.registrations failureThird.SsoRegion = some reg →
      registrationExpired failureThird reg = true := fun reg h => by
    rw [hstored] at h
    injection h with h
    subst h
    decide
  have first := (authenticate_start_failure "print" "fake-browser" (sampleAWSSSO failureScript)
    (fun token h => by simp [sampleAWSSSO] at h)).1
    (fun reg h => by simp [sampleAWSSSO] at h) (.Other "some error") (by decide)
  have second := ((authenticate_start_failure "print" "fake-browser" failureSecond
    (fun token h => by
      have e : failureSecond.store.tokens failureSecond.StoreKey = none := by decide
      rw [e] at h
      cases h)).2.1
    failureSecond.ssooidc.RegisterClient.1 (.Other "some error")
    (Or.inr ⟨(fun reg h => by
        have e : failureSecond.store.registrations failureSecond.SsoRegion = none := by decide
        rw [e] at h
        cases h),
      ⟨sampleRegisterClientOutput, by decide⟩, rfl⟩)
    (by decide)).2 sampleRegisterClientOutput (.Other "some error") (by decide) (by decide)
  have hthird : ∀ urlAction, launches urlAction "fake-browser" failureThird →
      (Authenticate urlAction "fake-browser" failureThird).2
        = some (.RemoteError (.Other "some error"))
      ∧ (Authenticate urlAction "fake-browser" failureThird).1.ssooidc.calls
        = failureThird.ssooidc.RegisterClient.1.StartDeviceAuthorization.1.calls
          ++ [.CreateToken] := fun urlAction hl =>
    have h := ((authenticate_start_failure urlAction "fake-browser" failureThird
      (fun token h => by
        have e : failureThird.store.tokens failureThird.StoreKey = none := by decide
        rw [e] at h
        cases h)).2.2
      failureThird.ssooidc.RegisterClient.1
      failureThird.ssooidc.RegisterClient.1.StartDeviceAuthorization.1 hl
      (Or.inr ⟨hexpired, ⟨sampleRegisterClientOutput, by decide⟩, rfl⟩)
      (Or.inl ⟨⟨sampleStartOutput, by decide⟩, rfl⟩)).1 "some error" (by decide)
    ⟨h.1, h.2.2⟩
  ⟨first.1, first.2.2.trans (by decide), second.1, second.2.2.trans (by decide), hstored,
    (hthird "print" (Or.inl rfl)).1,
    (hthird "exec" (Or.inr (Or.inr (Or.inr ⟨rfl, fun _ => rfl⟩)))).1,
    (hthird "exec" (Or.inr (Or.inr (Or.inr ⟨rfl, fun _ => rfl⟩)))).2.trans (by decide)⟩

end AwsSso

namespace AwsSso

/-! ## The environment that the child is started with -/

theorem data_ne_nil_of_ne_empty (k : String) (h : k ≠ "") : k.data ≠ [] := by
  intro hd
  apply h
  cases k with
  | mk data =>
    simp only at hd
    subst hd
    rfl

theorem takeWhile_append_stop (l r : List Char) (h : '=' ∉ l) :
    (l ++ '=' :: r).takeWhile (fun c => c != '=') = l := by
  induction l with
  | nil => simp
  | cons a l ih =>
    have ha : a ≠ '=' := fun e => h (by simp [e])
    have hl : '=' ∉ l := fun e => h (by simp [e])
    have hb : (a != '=') = true := by simp [ha]
    simp only [List.cons_append, List.takeWhile_cons, hb, if_true, ih hl]

/-- The key of the entry of a variable with a name is the name. -/
theorem entryKey_envEntry (kv : String × String) (h : IsEnvName kv.1) :
    entryKey (envEntry kv) = some kv.1 := by
  obtain ⟨k, v⟩ := kv
  obtain ⟨hne, heq⟩ := h
  simp only at hne heq
  have hdata : (envEntry (k, v)).data = k.data ++ '=' :: v.data := by
    simp [envEntry, String.data_append]
  have hnil := data_ne_nil_of_ne_empty k hne
  unfold entryKey
  simp only [hdata]
  cases hk : k.data with
  | nil => exact absurd hk hnil
  | cons c cs =>
    have hc : c ≠ '=' := fun e => heq (by simp [hk, e])
    have hnot : '=' ∉ c :: cs := hk ▸ heq
    have htw := takeWhile_append_stop (c :: cs) v.data hnot
    simp only [List.cons_append] at htw
    simp only [List.cons_append, List.head?_cons, Option.some.injEq, hc, if_false,
      List.mem_cons, List.mem_append, true_or, or_true, if_true, htw]
    congr 1
    rw [← hk]

theorem foldedKey_envEntry (ci : Bool) (kv : String × String) (h : IsEnvName kv.1) :
    foldedKey ci (envEntry kv) = some (foldKey ci kv.1) := by
  unfold foldedKey
  rw [entryKey_envEntry kv h]
  rfl

/-- A list of entries with keys, no two of them the same, passes `dedupEnvCase`
unchanged. -/
theorem dedupEnvCase_of_nodup (ci : Bool) :
    ∀ l : List String, (∀ e ∈ l, ∃ k, entryKey e = some k) →
      (l.map (foldedKey ci)).Nodup → dedupEnvCase ci l = l := by
  intro l
  induction l with
  | nil => intro _ _; rfl
  | cons e l ih =>
    intro hkeyed hnd
    obtain ⟨k, hk⟩ := hkeyed e (List.mem_cons_self _ _)
    rw [List.map_cons, List.nodup_cons] at hnd
    have hany : l.any (fun e' =>
        (entryKey e').map (foldKey ci) == some (foldKey ci k)) = false := by
      rw [List.any_eq_false]
      intro e' he' hb
      apply hnd.1
      have : foldedKey ci e' = foldedKey ci e := by
        unfold foldedKey
        rw [hk]
        simpa using hb
      rw [← this]
      exact List.mem_map_of_mem _ he'
    unfold dedupEnvCase
    simp only [hk, hany, Bool.false_eq_true, if_false]
    rw [ih (fun e' he' => hkeyed e' (List.mem_cons_of_mem _ he')) hnd.2]

/-- In front of a list `M`, a list `P` of entries with keys, no two of them the same,
keeps through `dedupEnvCase` the entries whose key no entry of `M` has. -/
theorem dedupEnvCase_append (ci : Bool) (M : List String) :
    ∀ P : List String, (∀ e ∈ P, ∃ k, entryKey e = some k) →
      (P.map (foldedKey ci)).Nodup →
      dedupEnvCase ci (P ++ M)
        = P.filter (fun e => !(M.any (fun e' => foldedKey ci e' == foldedKey ci e)))
          ++ dedupEnvCase ci M := by
  intro P
  induction P with
  | nil => intro _ _; rfl
  | cons e P ih =>
    intro hkeyed hnd
    obtain ⟨k, hk⟩ := hkeyed e (List.mem_cons_self _ _)
    rw [List.map_cons, List.nodup_cons] at hnd
    have hfe : foldedKey ci e = some (foldKey ci k) := by
      unfold foldedKey
      rw [hk]
      rfl
    have hanyP : P.any (fun e' =>
        (entryKey e').map (foldKey ci) == some (foldKey ci k)) = false := by
      rw [List.any_eq_false]
      intro e' he' hb
      apply hnd.1
      have : foldedKey ci e' = foldedKey ci e := by
        rw [hfe]
        unfold foldedKey
        simpa using hb
      rw [← this]
      exact List.mem_map_of_mem _ he'
    have hany : (P ++ M).any (fun e' =>
        (entryKey e').map (foldKey ci) == some (foldKey ci k))
        = M.any (fun e' => foldedKey ci e' == foldedKey ci e) := by
      rw [List.any_append, hanyP, Bool.false_or, hfe]
      rfl
    rw [List.cons_append, dedupEnvCase]
    simp only [hk, hany]
    rw [ih (fun e' he' => hkeyed e' (List.mem_cons_of_mem _ he')) hnd.2, List.filter_cons]
    cases hM : M.any (fun e' => foldedKey ci e' == foldedKey ci e) <;> simp

theorem mem_mapAssign (m : List (String × String)) (k v : String) (kv : String × String)
    (h : kv ∈ mapAssign m k v) : kv = (k, v) ∨ kv ∈ m := by
  unfold mapAssign at h
  rcases List.mem_cons.mp h with h | h
  · exact Or.inl h
  · exact Or.inr (List.mem_filter.mp h).1

theorem mem_foldl_mapAssign (l : List (String × String)) :
    ∀ (init : List (String × String)) (kv : String × String),
      kv ∈ l.foldl (fun shellVars kv => mapAssign shellVars kv.1 kv.2) init →
      kv ∈ l ∨ kv ∈ init := by
  induction l with
  | nil => intro init kv h; exact Or.inr h
  | cons a l ih =>
    intro init kv h
    rw [List.foldl_cons] at h
    rcases ih _ _ h with h | h
    · exact Or.inl (List.mem_cons_of_mem _ h)
    · rcases mem_mapAssign _ _ _ _ h with h | h
      · exact Or.inl (by rw [h]; exact List.mem_cons_self _ _)
      · exact Or.inr h

/-- The variables of the map of `execShellEnvs` have names, when the env-var tags of
the role records have. -/
theorem execShellEnvs_names {A : Type} (h : CmdHelpers A) (ctx : RunContext) (awssso : A)
    (accountid : Int) (role region : String) (hperm : ∀ m, (h.rangeOrder m).Perm m)
    (htags : ∀ roleInfo, ∀ kv ∈ ctx.Settings.GetEnvVarTags roleInfo, IsEnvName kv.1) :
    ∀ kv ∈ execShellEnvs h ctx awssso accountid role region, IsEnvName kv.1 := by
  have hbase : ∀ kv ∈ shellVarsBase h ctx awssso accountid role region, IsEnvName kv.1 := by
    intro kv hkv
    unfold shellVarsBase at hkv
    simp only [] at hkv
    split at hkv
    · rcases mem_mapAssign _ _ _ _ hkv with e | hkv
      · rw [e]; dsimp only; decide
      · rcases mem_mapAssign _ _ _ _ hkv with e | hkv
        · rw [e]; dsimp only; decide
        · simp only [List.mem_cons, List.mem_singleton, List.not_mem_nil, or_false] at hkv
          rcases hkv with e | e | e | e | e | e | e | e <;> (rw [e]; dsimp only; decide)
    · rcases mem_mapAssign _ _ _ _ hkv with e | hkv
      · rw [e]; dsimp only; decide
      · simp only [List.mem_cons, List.mem_singleton, List.not_mem_nil, or_false] at hkv
        rcases hkv with e | e | e | e | e | e | e | e <;> (rw [e]; dsimp only; decide)
  intro kv hkv
  rw [execShellEnvs_eq] at hkv
  split at hkv
  · exact hbase kv hkv
  · rename_i roleInfo _
    rcases mem_foldl_mapAssign _ _ _ hkv with hkv | hkv
    · exact htags roleInfo kv ((hperm _).mem_iff.mp hkv)
    · rcases mem_mapAssign _ _ _ _ hkv with e | hkv
      · rw [e]; dsimp only; decide
      · exact hbase kv hkv

/-- C14: `execCmd` builds the slice `cmd.Env` of the entries of the parent's
environment, unchanged and in order, followed by the entries `k=v` of the pairs of the
map returned by `execShellEnvs`, one entry for each pair (the map has one pair per
key), in the order in which the `range` visits them. `cmd.Run()` starts the child with
this slice after `dedupEnv`, which of the entries of one variable keeps the last: the
child gets the parent's entries of the variables that the map does not set, unchanged
and in order, followed by the entries of the map (and, on Windows, what
`addCriticalEnv` adds). The calls that `execCmd` makes on the environment are
`os.Environ()` and `cmd.Run()`, and the process of the caller is after them what it
was before. The variables of the parent and of the env-var tags have names (not empty,
without `=`), the parent has one entry per variable, and on Windows no two variables
of the map differ in case only. -/
theorem execCmd_child_env {A : Type} (h : CmdHelpers A) (p : Process) (ctx : RunContext)
    (awssso : A) (accountid : Int) (role : String) (r : ExecCmdResult)
    (m : List (String × String)) (hr : r = execCmd h p ctx awssso accountid role)
    (hm : m = execShellEnvs h ctx awssso accountid role r.region)
    (hperm : ∀ m, (h.rangeOrder m).Perm m)
    (hnames : ∀ kv ∈ p.Environ, IsEnvName kv.1)
    (hdistinct :
      (p.Environ.map (fun kv => foldKey (decide (p.GOOS = "windows")) kv.1)).Nodup)
    (htags : ∀ roleInfo, ∀ kv ∈ ctx.Settings.GetEnvVarTags roleInfo, IsEnvName kv.1)
    (hfold : p.GOOS = "windows" → (m.map (fun kv => foldKey true kv.1)).Nodup) :
    ∃ extra : List String,
      r.child.Env = osEnviron p ++ extra
      ∧ extra.Perm (m.map envEntry)
      ∧ (m.map Prod.fst).Nodup
      ∧ r.childEnviron
        = addCriticalEnv p
          ((p.Environ.filter (fun kv => decide (∀ kv' ∈ m,
              foldKey (decide (p.GOOS = "windows")) kv'.1
                ≠ foldKey (decide (p.GOOS = "windows")) kv.1))).map envEntry
            ++ extra)
      ∧ (p.GOOS ≠ "windows" →
        r.childEnviron
          = (p.Environ.filter (fun kv => decide (∀ kv' ∈ m, kv'.1 ≠ kv.1))).map envEntry
            ++ extra)
      ∧ r.calls = [.Environ, .Run r.child r.childEnviron]
      ∧ r.parent = p := by
  have hregion : r.region = ctx.Settings.GetDefaultRegion ctx.Cli.Exec.AccountId
      ctx.Cli.Exec.Role ctx.Cli.Exec.NoRegion := by rw [hr]; rfl
  have hmnames : ∀ kv ∈ m, IsEnvName kv.1 := by
    rw [hm]
    exact execShellEnvs_names h ctx awssso accountid role _ hperm htags
  have hmkeys : (m.map Prod.fst).Nodup := by
    rw [hm]
    exact execShellEnvs_keys_nodup h ctx awssso accountid role _
  have henv : r.child.Env = osEnviron p ++ (h.rangeOrder m).map envEntry := by
    rw [hr, hm, hr]
    exact foldl_append_entries _ _
  have hmfold : (m.map (fun kv => foldKey (decide (p.GOOS = "windows")) kv.1)).Nodup := by
    by_cases hw : p.GOOS = "windows"
    · simp only [hw, decide_True]
      exact hfold hw
    · simp only [hw, decide_False, foldKey, Bool.false_eq_true, if_false]
      exact hmkeys
  have hextra_keyed : ∀ e ∈ (h.rangeOrder m).map envEntry, ∃ k, entryKey e = some k := by
    intro e he
    obtain ⟨kv, hkv, rfl⟩ := List.mem_map.mp he
    exact ⟨kv.1, entryKey_envEntry kv (hmnames kv ((hperm m).mem_iff.mp hkv))⟩
  have hextra_nodup : (((h.rangeOrder m).map envEntry).map
      (foldedKey (decide (p.GOOS = "windows")))).Nodup := by
    have e : ((h.rangeOrder m).map envEntry).map (foldedKey (decide (p.GOOS = "windows")))
        = ((h.rangeOrder m).map (fun kv => foldKey (decide (p.GOOS = "windows")) kv.1)).map
          some := by
      rw [List.map_map, List.map_map]
      apply List.map_congr_left
      intro kv hkv
      exact foldedKey_envEntry _ kv (hmnames kv ((hperm m).mem_iff.mp hkv))
    rw [e]
    exact (((hperm m).map _).nodup_iff.mpr hmfold).map (Option.some_injective _)
  have hP_keyed : ∀ e ∈ osEnviron p, ∃ k, entryKey e = some k := by
    intro e he
    obtain ⟨kv, hkv, rfl⟩ := List.mem_map.mp he
    exact ⟨kv.1, entryKey_envEntry kv (hnames kv hkv)⟩
  have hP_nodup : ((osEnviron p).map (foldedKey (decide (p.GOOS = "windows")))).Nodup := by
    have e : (osEnviron p).map (foldedKey (decide (p.GOOS = "windows")))
        = (p.Environ.map (fun kv => foldKey (decide (p.GOOS = "windows")) kv.1)).map some := by
      unfold osEnviron
      rw [List.map_map, List.map_map]
      apply List.map_congr_left
      intro kv hkv
      exact foldedKey_envEntry _ kv (hnames kv hkv)
    rw [e]
    exact hdistinct.map (Option.some_injective _)
  have hfilter : (osEnviron p).filter (fun e => !(((h.rangeOrder m).map envEntry).any
        (fun e' => foldedKey (decide (p.GOOS = "windows")) e'
          == foldedKey (decide (p.GOOS = "windows")) e)))
      = (p.Environ.filter (fun kv => decide (∀ kv' ∈ m,
          foldKey (decide (p.GOOS = "windows")) kv'.1
            ≠ foldKey (decide (p.GOOS = "windows")) kv.1))).map envEntry := by
    unfold osEnviron
    rw [List.filter_map]
    congr 1
    apply List.filter_congr
    intro kv hkv
    rw [Bool.eq_iff_iff]
    simp only [Function.comp_apply, Bool.not_eq_true', List.any_eq_false, List.mem_map,
      forall_exists_index, and_imp, forall_apply_eq_imp_iff₂, beq_iff_eq, decide_eq_true_eq]
    constructor
    · intro hall kv' hkv'
      have hk' := (hperm m).mem_iff.mpr hkv'
      have := hall kv' hk'
      rw [foldedKey_envEntry _ kv' (hmnames kv' hkv'),
        foldedKey_envEntry _ kv (hnames kv hkv)] at this
      intro e
      exact this (by rw [e])
    · intro hall kv' hkv'
      have hk' := (hperm m).mem_iff.mp hkv'
      rw [foldedKey_envEntry _ kv' (hmnames kv' hk'),
        foldedKey_envEntry _ kv (hnames kv hkv)]
      intro e
      exact hall kv' hk' (Option.some.inj e)
  have hchild : r.childEnviron
      = addCriticalEnv p
        ((p.Environ.filter (fun kv => decide (∀ kv' ∈ m,
            foldKey (decide (p.GOOS = "windows")) kv'.1
              ≠ foldKey (decide (p.GOOS = "windows")) kv.1))).map envEntry
          ++ (h.rangeOrder m).map envEntry) := by
    have e1 : r.childEnviron = addCriticalEnv p (dedupEnv p r.child.Env) := by rw [hr]; rfl
    rw [e1, henv]
    unfold dedupEnv
    rw [dedupEnvCase_append _ _ _ hP_keyed hP_nodup,
      dedupEnvCase_of_nodup _ _ hextra_keyed hextra_nodup, hfilter]
  refine ⟨(h.rangeOrder m).map envEntry, henv, (hperm m).map envEntry, hmkeys, hchild, ?_, ?_,
    ?_⟩
  · intro hw
    rw [hchild]
    unfold addCriticalEnv
    simp only [hw, ne_eq, not_false_eq_true, if_true, decide_False, foldKey,
      Bool.false_eq_true, if_false]
  · rw [hr]
    rfl
  · rw [hr]
    rfl

/-- C14, a counterexample to the claim as it stands: the parent's environment holds
`AWS_DEFAULT_REGION` and `AWS_SESSION_TOKEN`, which `checkAwsEnvironment` lets pass, so
that `Run` gets to `execCmd`; the slice `cmd.Env` has 16 entries and holds the parent's
two entries, and the child is started with 14 entries, without them: the parent's
entries are not all given to the child. -/
theorem execCmd_drops_parent_entries :
    checkAwsEnvironment regionProcess = none
    ∧ (Run regionProcess sampleParseRoleARN adminContext).outcome.target = some (42, "admin")
    ∧ osEnviron regionProcess
      = ["HOME=/home/user", "AWS_DEFAULT_REGION=eu-west-3", "SHELL=/bin/sh",
          "AWS_SESSION_TOKEN=stale-token"]
    ∧ (execCmd sampleHelpers regionProcess adminContext () 42 "admin").child.Env.length = 16
    ∧ (execCmd sampleHelpers regionProcess adminContext () 42 "admin").childEnviron
      = ["HOME=/home/user", "SHELL=/bin/sh", "AWS_SSO_TAG_TEAM=platform",
          "AWS_SSO_PROFILE=admin@prod", "AWS_SSO_DEFAULT_REGION=us-east-1",
          "AWS_DEFAULT_REGION=us-east-1", "AWS_ACCESS_KEY_ID=AKIAEXAMPLE",
          "AWS_SECRET_ACCESS_KEY=secret", "AWS_SESSION_TOKEN=token",
          "AWS_SSO_ACCOUNT_ID=000000000042", "AWS_SSO_ROLE_NAME=admin",
          "AWS_SSO_SESSION_EXPIRATION=2023-11-14T22:13:20Z",
          "AWS_SSO_ROLE_ARN=arn:aws:iam::000000000042:role/admin", "AWS_SSO=Default"]
    ∧ "AWS_DEFAULT_REGION=eu-west-3"
      ∉ (execCmd sampleHelpers regionProcess adminContext () 42 "admin").childEnviron
    ∧ "AWS_SESSION_TOKEN=stale-token"
      ∉ (execCmd sampleHelpers regionProcess adminContext () 42 "admin").childEnviron := by
  decide

theorem execCmd_child_env_witness :
    (∃ extra : List String,
      (execCmd sampleHelpers regionProcess adminContext () 42 "admin").child.Env
        = osEnviron regionProcess ++ extra
      ∧ extra.Perm ((execShellEnvs sampleHelpers adminContext () 42 "admin"
          (execCmd sampleHelpers regionProcess adminContext () 42 "admin").region).map envEntry)
      ∧ (execCmd sampleHelpers regionProcess adminContext () 42 "admin").childEnviron
        = [("HOME", "/home/user"), ("SHELL", "/bin/sh")].map envEntry ++ extra
      ∧ (execCmd sampleHelpers regionProcess adminContext () 42 "admin").parent
        = regionProcess)
    ∧ (∃ extra : List String,
      (execCmd sampleHelpers windowsProcess adminContext () 42 "admin").child.Env
        = osEnviron windowsProcess ++ extra
      ∧ (execCmd sampleHelpers windowsProcess adminContext () 42 "admin").childEnviron
        = addCriticalEnv windowsProcess
          ([("SystemRoot", "C:/Windows")].map envEntry ++ extra)) :=
  ⟨(execCmd_child_env sampleHelpers regionProcess adminContext () 42 "admin" _ _ rfl rfl
      sampleHelpers_perm (by decide) (by decide)
      (fun roleInfo kv hkv => by
        simp only [adminContext, sampleContext, sampleSettings, List.mem_singleton] at hkv
        rw [hkv]
        decide)
      (fun hw => absurd hw (by decide))).elim
    fun extra hx =>
      ⟨extra, hx.1, hx.2.1,
        (hx.2.2.2.2.1 (by decide)).trans
          (congrArg (fun l => List.map envEntry l ++ extra)
            (show regionProcess.Environ.filter (fun kv => decide (∀ kv' ∈
                execShellEnvs sampleHelpers adminContext () 42 "admin"
                  (execCmd sampleHelpers regionProcess adminContext () 42 "admin").region,
                kv'.1 ≠ kv.1))
              = [("HOME", "/home/user"), ("SHELL", "/bin/sh")] from by decide)),
        hx.2.2.2.2.2.2⟩,
   (execCmd_child_env sampleHelpers windowsProcess adminContext () 42 "admin" _ _ rfl rfl
      sampleHelpers_perm (by decide) (by decide)
      (fun roleInfo kv hkv => by
        simp only [adminContext, sampleContext, sampleSettings, List.mem_singleton] at hkv
        rw [hkv]
        decide)
      (fun _ => by decide)).elim
    fun extra hx =>
      ⟨extra, hx.1,
        hx.2.2.2.1.trans
          (congrArg (fun l => addCriticalEnv windowsProcess (List.map envEntry l ++ extra))
            (show windowsProcess.Environ.filter (fun kv => decide (∀ kv' ∈
                execShellEnvs sampleHelpers adminContext () 42 "admin"
                  (execCmd sampleHelpers windowsProcess adminContext () 42 "admin").region,
                foldKey (decide (windowsProcess.GOOS = "windows")) kv'.1
                  ≠ foldKey (decide (windowsProcess.GOOS = "windows")) kv.1))
              = [("SystemRoot", "C:/Windows")] from by decide))⟩⟩

end AwsSso
